import Mathlib

/-! # cc-metric-collector: BeeGFS storage collector, top-processes collector, IPMI receiver

A shallow embedding of `collectors/beegfsstorageMetric.go`, `collectors/topprocsMetric.go`
and `receivers/ipmiReceiver.go`.

Conventions of the embedding:

* a Go `string` is a Lean `String`; the text algorithms work on its list of characters;
* a Go `map[string]string` is an association list with pairwise distinct keys
  (`mapSet` overwrites in place or appends); Go leaves the iteration order of a map
  unspecified, the embedding iterates in list order and no theorem depends on that order;
* a runtime failure of the Go code (index out of range) is an explicit `panicked` flag
  or a `none` result;
* the outside world (current user, binary lookup, mount table, command results) is an
  explicit environment argument;
* `strconv.ParseFloat`, float addition and `fmt.Sprintf("%f", _)` are taken as a parameter
  (`FloatOps`), so that every general theorem holds for whatever these library functions
  compute.
-/

set_option autoImplicit false

namespace CCMetric

/-! ## Go maps with string keys -/

/-- Go `map[string]string` as an association list. -/
abbrev StrMap := List (String × String)

/-- The two-result lookup `v, ok := m[k]`: `none` when the key is absent. -/
def mapLookup : StrMap → String → Option String
  | [], _ => none
  | (k', v) :: r, k => if k' = k then some v else mapLookup r k

/-- The one-result lookup `m[k]`: the zero value `""` when the key is absent. -/
def mapGet (t : StrMap) (k : String) : String :=
  (mapLookup t k).getD ""

/-- The assignment `m[k] = v`: overwrite the entry of `k`, or add one. -/
def mapSet : StrMap → String → String → StrMap
  | [], k, v => [(k, v)]
  | (k', v') :: r, k, v => if k' = k then (k', v) :: r else (k', v') :: mapSet r k v

/-- The keys of a map. -/
def mapKeys (t : StrMap) : List String :=
  t.map Prod.fst

/-! ## Go string functions used by the sources -/

/-- Character class `\s` of Go regular expressions: `[\t\n\f\r ]`. -/
def isReSpace (c : Char) : Bool :=
  c = '\t' || c = '\n' || c = '\x0c' || c = '\r' || c = ' '

/-- Character class `\d` of Go regular expressions. -/
def isReDigit (c : Char) : Bool :=
  decide ('0' ≤ c) && decide (c ≤ '9')

/-- Character class `[a-zA-Z]`. -/
def isReAlpha (c : Char) : Bool :=
  (decide ('a' ≤ c) && decide (c ≤ 'z')) || (decide ('A' ≤ c) && decide (c ≤ 'Z'))

/-- Go `unicode.IsSpace`. -/
def unicodeIsSpace (c : Char) : Bool :=
  c = '\t' || c = '\n' || c = '\x0b' || c = '\x0c' || c = '\r' || c = ' ' ||
  c.val = 0x85 || c.val = 0xA0 || c.val = 0x1680 ||
  (decide (0x2000 ≤ c.val) && decide (c.val ≤ 0x200A)) ||
  c.val = 0x2028 || c.val = 0x2029 || c.val = 0x202F || c.val = 0x205F || c.val = 0x3000

/-- Go `strings.TrimSpace` on a list of characters. -/
def trimSpace (l : List Char) : List Char :=
  ((l.dropWhile unicodeIsSpace).reverse.dropWhile unicodeIsSpace).reverse

/-- Go `strings.Split(s, sep)` for a separator of one character. -/
def splitChar (sep : Char) : List Char → List (List Char)
  | [] => [[]]
  | c :: cs =>
    if c = sep then [] :: splitChar sep cs
    else
      match splitChar sep cs with
      | [] => [[c]]
      | h :: t => (c :: h) :: t

/-- Go `strings.Fields`: the maximal runs of characters that are not `unicode.IsSpace`.
The second argument is the field being read, in reverse. -/
def fieldsAux : List Char → List Char → List (List Char)
  | [], cur => if cur.isEmpty then [] else [cur.reverse]
  | c :: cs, cur =>
    if unicodeIsSpace c then
      (if cur.isEmpty then fieldsAux cs [] else cur.reverse :: fieldsAux cs [])
    else fieldsAux cs (c :: cur)

/-- Go `strings.Fields`. -/
def fields (l : List Char) : List (List Char) :=
  fieldsAux l []

/-- Go `strings.Contains(s, sub)`. -/
def containsSub (sub : List Char) : List Char → Bool
  | [] => sub.isEmpty
  | c :: cs => sub.isPrefixOf (c :: cs) || containsSub sub cs

/-- The tokens of `bufio.Scanner` with the default `bufio.ScanLines`: the text is cut at
every newline, one trailing carriage return of a line is dropped, and a last line without
newline is a token only when it is not empty. (The scanner also stops at a line longer
than 64 KiB; the theorems on lines hold for every list of lines.) -/
def dropCR (l : List Char) : List Char :=
  match l.reverse with
  | '\r' :: r => r.reverse
  | _ => l

/-- The lines `scanner.Scan()` yields for a text. -/
def scanLines (text : List Char) : List (List Char) :=
  let segs := splitChar '\n' text
  let body := segs.dropLast
  let last := segs.getLastD []
  (if last.isEmpty then body else body ++ [last]).map dropCR

/-! ## Floating point library -/

/-- The three library operations `Read` uses on numbers: `strconv.ParseFloat(s, 32)`
(the value together with `err == nil`), the addition of two values, and
`fmt.Sprintf("%f", x)`. -/
structure FloatOps (F : Type) where
  /-- `strconv.ParseFloat(s, 32)`: the returned value and whether the error is nil. -/
  ParseFloat : String → F × Bool
  /-- Addition of float64 values. -/
  add : F → F → F
  /-- `fmt.Sprintf("%f", x)`. -/
  Sprintf : F → String

/-- Value of a list of decimal digits (most significant first), `none` for another
character. -/
def digitsValue : List Char → Nat → Option Nat
  | [], acc => some acc
  | c :: cs, acc => if isReDigit c then digitsValue cs (acc * 10 + (c.toNat - 48)) else none

/-- Decimal digits of a number, least significant first, with a bound on the count. -/
def natDigitsRev : Nat → Nat → List Char
  | 0, _ => []
  | fuel + 1, n =>
    Char.ofNat (48 + n % 10) :: (if n / 10 = 0 then [] else natDigitsRev fuel (n / 10))

/-- An instance of the number operations on natural numbers, for evaluating the model on
concrete texts. It reads an unsigned decimal integer, optionally followed by a point and
zeros only, and prints a number with six zero decimals; on these literals (below 2^24) it
agrees with the Go library. Every other text is reported as a parse error. -/
def decimalOps : FloatOps Nat where
  ParseFloat s :=
    match splitChar '.' s.data with
    | [ds] =>
      if ds.isEmpty then (0, false) else
      match digitsValue ds 0 with
      | some n => (n, true)
      | none => (0, false)
    | [ds, zs] =>
      if ds.isEmpty || zs.isEmpty || !(zs.all (fun c => c = '0')) then (0, false) else
      match digitsValue ds 0 with
      | some n => (n, true)
      | none => (0, false)
    | _ => (0, false)
  add a b := a + b
  Sprintf n := String.mk ((natDigitsRev 40 n).reverse ++ ".000000".data)

/-! ## collectors/beegfsstorageMetric.go -/

/-- Struct for the collector-specific JSON config. -/
structure BeegfsStorageCollectorConfig where
  Beegfs : String
  ExcludeMetrics : List String
  ExcludeFilesystem : List String
  deriving DecidableEq, Repr

/-- The collector: the fields of the embedded `metricCollector` that the sources use
(`name`, `init`, `parallel`, `meta`) and the fields of `BeegfsStorageCollector`; the
field `matches` is written `matches_`, the word being reserved in Lean.
The set `skipFS` (a `map[string]struct{}`) is the list of its members. -/
structure BeegfsStorageCollector where
  name : String
  init : Bool
  parallel : Bool
  meta : StrMap
  tags : StrMap
  matches_ : StrMap
  config : BeegfsStorageCollectorConfig
  skipFS : List String
  deriving DecidableEq, Repr

/-- What `json.Unmarshal(config, &m.config)` does to the config struct: the fields the
document sets (an absent field leaves the struct field as it is) and whether it returns
an error. -/
structure BeegfsConfigJSON where
  beegfs_path : Option String
  exclude_metrics : Option (List String)
  exclude_filesystem : Option (List String)
  err : Bool
  deriving DecidableEq, Repr

/-- The outside world of `Init`: the constant `DEFAULT_BEEGFS_CMD` (declared in another
file of the package), the result of `user.Current()` (`none` for an error, else the uid)
and whether `exec.LookPath` finds a binary. -/
structure BeegfsInitEnv where
  DEFAULT_BEEGFS_CMD : String
  currentUid : Option String
  lookPath : String → Bool

/-- The errors `Init` returns. -/
inductive BeegfsInitError where
  | unmarshal
  | currentUser
  | notRoot
  | lookPath
  deriving DecidableEq, Repr

/-- The metrics known to the collector (`storageStat_array` in `Init`). -/
def storageStat_array : List String :=
  ["sum", "ack", "sChDrct", "getFSize",
   "sAttr", "statfs", "trunc", "close",
   "fsync", "ops-rd", "MiB-rd/s", "ops-wr",
   "MiB-wr/s", "gendbg", "hrtbeat", "remNode",
   "storInf", "unlnk"]

/-- Modelled from the spec: `stringArrayContains` is declared outside the given sources;
the spec describes exclusion as membership of the name in the exclusion list. The result
is the second component (found or not) of the Go function. -/
def stringArrayContains (array : List String) (str : String) : Bool :=
  decide (str ∈ array)

/-- Modelled from the spec: `metricCollector.setup` is declared outside the given sources;
the spec gives `Init` no step besides configuration parsing, table population, privilege
check and binary lookup, so `setup` leaves the collector as it is. -/
def BeegfsStorageCollector.setup (m : BeegfsStorageCollector) : BeegfsStorageCollector :=
  m

/-- The loop of `Init` that creates the map with possible variables, from an empty map. -/
def initMatches (exclude : List String) : StrMap :=
  storageStat_array.foldl
    (fun t value =>
      if stringArrayContains exclude value then mapSet t "other" "0"
      else mapSet t ("beegfs_cstorage_" ++ value) "0")
    []

/-- The key the loop of `Init` assigns for a known metric: `other` for an excluded one,
else the name with the collector name in front. -/
def initKey (exclude : List String) (value : String) : String :=
  if stringArrayContains exclude value then "other" else "beegfs_cstorage_" ++ value

/-- The effect of `json.Unmarshal` on the config struct. -/
def BeegfsConfigJSON.apply (j : BeegfsConfigJSON) (c : BeegfsStorageCollectorConfig) :
    BeegfsStorageCollectorConfig :=
  { Beegfs := j.beegfs_path.getD c.Beegfs
    ExcludeMetrics := j.exclude_metrics.getD c.ExcludeMetrics
    ExcludeFilesystem := j.exclude_filesystem.getD c.ExcludeFilesystem }

/-- `BeegfsStorageCollector.Init`. The raw configuration is `none` when it is empty
(`len(config) == 0`). The result is the collector after the call and the returned error. -/
def BeegfsStorageCollector.Init (env : BeegfsInitEnv) (m : BeegfsStorageCollector)
    (config : Option BeegfsConfigJSON) : BeegfsStorageCollector × Option BeegfsInitError :=
  -- Check if already initialized
  if m.init then (m, none) else
  let m := { m with name := "BeegfsStorageCollector" }
  let m := m.setup
  let m := { m with parallel := true }
  let m := { m with config := { m.config with Beegfs := env.DEFAULT_BEEGFS_CMD } }
  -- Read JSON configuration
  let m := match config with
    | none => m
    | some j => { m with config := j.apply m.config }
  if (match config with | none => false | some j => j.err) then (m, some .unmarshal) else
  let m := { m with matches_ := initMatches m.config.ExcludeMetrics }
  let m := { m with meta := [("source", m.name), ("group", "BeegfsStorage")] }
  let m := { m with tags := [("type", "node"), ("filesystem", "")] }
  let m := { m with skipFS := m.config.ExcludeFilesystem }
  match env.currentUid with
  | none => (m, some .currentUser)
  | some uid =>
    if uid ≠ "0" then (m, some .notRoot) else
    if !env.lookPath m.config.Beegfs then (m, some .lookPath) else
    ({ m with init := true }, none)

/-- `BeegfsStorageCollector.Close`. -/
def BeegfsStorageCollector.Close (m : BeegfsStorageCollector) : BeegfsStorageCollector :=
  { m with init := false }

/-- A metric record as `Read` builds it with `lp.NewMessage(key, m.tags, m.meta,
value, time.Now())`: the name, a copy of the tags and of the meta data, and the field
`value`. The time stamp is left out. The library call succeeds for a float value, so a
record is sent for every call. -/
structure CCMessage (F : Type) where
  name : String
  tags : StrMap
  meta : StrMap
  value : F
  deriving DecidableEq, Repr

/-- Drop a nonempty run of characters of a class; `none` when the run is empty. -/
def dropRun1 (p : Char → Bool) : List Char → Option (List Char)
  | [] => none
  | c :: cs => if p c then some (cs.dropWhile p) else none

/-- The selector `sumLine`, `MatchString` of `^Sum:\s+\d+\s+\[[a-zA-Z]+\]+`. The classes
of consecutive parts of the pattern are disjoint, so the longest run of each part is the
only way to match. -/
def sumLine (line : List Char) : Bool :=
  match line with
  | 'S' :: 'u' :: 'm' :: ':' :: r0 =>
    match (dropRun1 isReSpace r0).bind (dropRun1 isReDigit) |>.bind (dropRun1 isReSpace) with
    | some ('[' :: r3) =>
      match dropRun1 isReAlpha r3 with
      | some (']' :: _) => true
      | _ => false
    | _ => false
  | _ => false

/-- The pattern `statsLine`, second group of `FindStringSubmatch` for
`^(.*?)\s+?(\d.*?)$`, `none` when the line does not match. The first group is the shortest
prefix without newline that is followed by white space and then a digit; the second group
runs from that digit to the end of the text and holds no newline. -/
def statsLine : List Char → Option (List Char)
  | [] => none
  | c :: cs =>
    if isReSpace c then
      let rest := cs.dropWhile isReSpace
      if (match rest with | d :: _ => isReDigit d | [] => false) && !rest.contains '\n'
      then some rest
      else if c = '\n' then none else statsLine cs
    else statsLine cs

/-- The replacement `removePattern.ReplaceAllString(s, " ")` for `[\[|\]]`. -/
def removePattern (l : List Char) : List Char :=
  l.map (fun c => if c = '[' || c = '|' || c = ']' then ' ' else c)

/-- The replacement `singleSpacePattern.ReplaceAllString(s, " ")` for `\s+`; the flag
tells that the previous character was white space. -/
def singleSpaceAux : Bool → List Char → List Char
  | _, [] => []
  | inRun, c :: cs =>
    if isReSpace c then (if inRun then singleSpaceAux true cs else ' ' :: singleSpaceAux true cs)
    else c :: singleSpaceAux false cs

/-- The replacement `singleSpacePattern.ReplaceAllString(s, " ")`. -/
def singleSpacePattern (l : List Char) : List Char :=
  singleSpaceAux false l

/-- The slice `split` of `Read` for the second group of a line. -/
def splitStats (group2 : List Char) : List String :=
  (splitChar ' ' (trimSpace (singleSpacePattern (removePattern group2)))).map String.mk

/-- The body of the loop over `split`, for the pair `split[i]`, `split[i+1]`. -/
def readPair {F : Type} (ops : FloatOps F) (t : StrMap) (value label : String) : StrMap :=
  if (mapLookup t label).isSome then
    mapSet t ("beegfs_cstorage_" ++ label) value
  else
    let f1 := ops.ParseFloat (mapGet t "other")
    if !f1.2 then t else
    let f2 := ops.ParseFloat value
    if !f2.2 then t else
    mapSet t "beegfs_cstorage_other" (ops.Sprintf (ops.add f1.1 f2.1))

/-- The loop `for i := 0; i <= len(split)-1; i += 2` on the rest of `split` from index
`i`. The flag of the result tells that `split[i+1]` was read past the end of the slice. -/
def readPairs {F : Type} (ops : FloatOps F) : StrMap → List String → StrMap × Bool
  | t, [] => (t, false)
  | t, [_] => (t, true)
  | t, value :: label :: rest => readPairs ops (readPair ops t value label) rest

/-- The loop `for key, data := range m.matches_` that sends one record per key. -/
def emitMatches {F : Type} (ops : FloatOps F) (m : BeegfsStorageCollector) :
    List (CCMessage F) :=
  m.matches_.map
    (fun kd => { name := kd.1, tags := m.tags, meta := m.meta, value := (ops.ParseFloat kd.2).1 })

/-- The result of a (part of a) `Read`: the collector afterwards, the records sent to the
output channel in order, and whether the code stopped with a runtime failure. -/
structure ReadResult (F : Type) where
  collector : BeegfsStorageCollector
  output : List (CCMessage F)
  panicked : Bool

/-- The body of `for scanner.Scan()` for one line: `none` when the line is skipped, else
the collector after the pairs, the records sent, and the failure flag. -/
def readLine {F : Type} (ops : FloatOps F) (m : BeegfsStorageCollector) (line : List Char) :
    Option (ReadResult F) :=
  if !sumLine line then none else
  match statsLine line with
  | none => some ⟨m, [], true⟩
  | some group2 =>
    let r := readPairs ops m.matches_ (splitStats group2)
    let m1 := { m with matches_ := r.1 }
    if r.2 then some ⟨m1, [], true⟩ else some ⟨m1, emitMatches ops m1, false⟩

/-- The loop `for scanner.Scan()` over the lines of the command output. -/
def readLines {F : Type} (ops : FloatOps F) :
    BeegfsStorageCollector → List (List Char) → ReadResult F
  | m, [] => ⟨m, [], false⟩
  | m, line :: rest =>
    match readLine ops m line with
    | none => readLines ops m rest
    | some r1 =>
      if r1.panicked then r1 else
      let r2 := readLines ops r1.collector rest
      ⟨r2.collector, r1.output ++ r2.output, r2.panicked⟩

/-- The outside world of `Read`: the content of `/proc/mounts` (empty when it cannot be
read) and the outcome of `cmd.Run()` for the n-th command of the tick with its argument
vector: `none` for an error, else the captured standard output. -/
structure BeegfsReadEnv where
  mounts : String
  run : Nat → List String → Option String

/-- The loop of `Read` that collects the mount points; `none` when `f[0]` or `f[1]` is
read past the end of the fields of a line. -/
def mountpoints (skipFS : List String) : List (List Char) → Option (List String)
  | [] => some []
  | line :: rest =>
    if line.isEmpty then mountpoints skipFS rest else
    match fields line with
    | [] => none
    | f0 :: fs =>
      if containsSub "beegfs_ondemand".data f0 then
        match fs with
        | [] => none
        | f1 :: _ =>
          -- Skip excluded filesystems
          if String.mk f1 ∈ skipFS then mountpoints skipFS rest
          else (mountpoints skipFS rest).map (fun l => String.mk f1 :: l)
      else mountpoints skipFS rest

/-- The loop `for _, mountpoint := range mountpoints`; the number counts the commands
run so far. A failed command ends `Read`. -/
def readMounts {F : Type} (ops : FloatOps F) (env : BeegfsReadEnv) :
    Nat → BeegfsStorageCollector → List String → ReadResult F
  | _, m, [] => ⟨m, [], false⟩
  | n, m, mountpoint :: rest =>
    let m1 := { m with tags := mapSet m.tags "filesystem" mountpoint }
    let mountoption := "--mount=" ++ mountpoint
    match env.run n [m1.config.Beegfs, "--clientstats", "--nodetype=storage", mountoption,
        "--allstats"] with
    | none => ⟨m1, [], false⟩
    | some stdout =>
      let r1 := readLines ops m1 (scanLines stdout.data)
      if r1.panicked then r1 else
      let r2 := readMounts ops env (n + 1) r1.collector rest
      ⟨r2.collector, r1.output ++ r2.output, r2.panicked⟩

/-- `BeegfsStorageCollector.Read`. -/
def BeegfsStorageCollector.Read {F : Type} (ops : FloatOps F) (env : BeegfsReadEnv)
    (m : BeegfsStorageCollector) : ReadResult F :=
  if !m.init then ⟨m, [], false⟩ else
  match mountpoints m.skipFS (splitChar '\n' env.mounts.data) with
  | none => ⟨m, [], true⟩
  | some mps =>
    if mps.isEmpty then ⟨m, [], false⟩ else readMounts ops env 0 m mps

/-! ### Collector states and the invariant of the match table -/

/-- The collector states the loops of `Read` work on: the state after a successful `Init`
of a collector that was not initialized, the state after the loop over the mount points
has set the tag `filesystem`, and the state after the loop over the lines has processed a
selected line. Every state of an initialized collector during a `Read` is of this kind. -/
inductive Reachable {F : Type} (ops : FloatOps F) : BeegfsStorageCollector → Prop
  | init (env : BeegfsInitEnv) (m : BeegfsStorageCollector) (config : Option BeegfsConfigJSON) :
      m.init = false → (BeegfsStorageCollector.Init env m config).2 = none →
      Reachable ops (BeegfsStorageCollector.Init env m config).1
  | mount (m : BeegfsStorageCollector) (mountpoint : String) :
      Reachable ops m → Reachable ops { m with tags := mapSet m.tags "filesystem" mountpoint }
  | line (m : BeegfsStorageCollector) (line : List Char) (r : ReadResult F) :
      Reachable ops m → readLine ops m line = some r → Reachable ops r.collector

/-- The invariant of the match table for an exclusion list: the keys are pairwise
distinct, no key is the bare name of a known metric or the record name of an excluded
known metric, and every known metric that is not excluded has its key. -/
def TableInv (exclude : List String) (t : StrMap) : Prop :=
  (mapKeys t).Nodup ∧
  (∀ k ∈ mapKeys t, k ∉ storageStat_array ∧
    ∀ x ∈ storageStat_array, x ∈ exclude → k ≠ "beegfs_cstorage_" ++ x) ∧
  (∀ x ∈ storageStat_array, x ∉ exclude → "beegfs_cstorage_" ++ x ∈ mapKeys t)

/-! ### Concrete inputs for the BeeGFS collector -/

/-- A collector as `new(BeegfsStorageCollector)` creates it: every field has its zero
value. -/
def newBeegfsStorageCollector : BeegfsStorageCollector :=
  { name := "", init := false, parallel := false, meta := [], tags := [], matches_ := [],
    config := { Beegfs := "", ExcludeMetrics := [], ExcludeFilesystem := [] }, skipFS := [] }

/-- An environment in which `Init` succeeds: the user is root and every binary is found. -/
def rootInitEnv : BeegfsInitEnv :=
  { DEFAULT_BEEGFS_CMD := "beegfs-ctl", currentUid := some "0", lookPath := fun _ => true }

/-- A configuration document that sets `exclude_metrics` only. -/
def excludeConfig (exclude : List String) : BeegfsConfigJSON :=
  { beegfs_path := none, exclude_metrics := some exclude, exclude_filesystem := none,
    err := false }

/-- A tick with one BeeGFS on demand mount at `/mnt/beeond` whose command succeeds with
the given standard output. -/
def oneMountEnv (stdout : String) : BeegfsReadEnv :=
  { mounts := "beegfs_ondemand /mnt/beeond beegfs rw 0 0\n", run := fun _ _ => some stdout }

/-- The collector after `Init`, as root, of a new collector with the given
`exclude_metrics`. -/
def initializedCollector (exclude : List String) : BeegfsStorageCollector :=
  (BeegfsStorageCollector.Init rootInitEnv newBeegfsStorageCollector
    (some (excludeConfig exclude))).1

/-- The values and `filesystem` tags of the records of a given name in an output. -/
def recordsNamed {F : Type} (name : String) (output : List (CCMessage F)) :
    List (F × Option String) :=
  (output.filter (fun rec => rec.name = name)).map
    (fun rec => (rec.value, mapLookup rec.tags "filesystem"))

/-! ## collectors/topprocsMetric.go -/

/-- Constant `MAX_NUM_PROCS`. -/
def MAX_NUM_PROCS : Int := 10

/-- Constant `DEFAULT_NUM_PROCS`. -/
def DEFAULT_NUM_PROCS : Int := 2

/-- Struct `TopProcsCollectorConfig`. -/
structure TopProcsCollectorConfig where
  Num_procs : Int
  deriving DecidableEq, Repr

/-- The collector: the fields of the embedded `metricCollector` that the sources use and
the fields of `TopProcsCollector`. -/
structure TopProcsCollector where
  name : String
  init : Bool
  parallel : Bool
  meta : StrMap
  tags : StrMap
  config : TopProcsCollectorConfig
  deriving DecidableEq, Repr

/-- What `json.Unmarshal(config, &m.config)` does to the config struct: the value of
`num_procs` when the document sets it (an absent field leaves the struct field as it is)
and whether it returns an error. -/
structure TopProcsConfigJSON where
  num_procs : Option Int
  err : Bool
  deriving DecidableEq, Repr

/-- The errors `TopProcsCollector.Init` returns. -/
inductive TopProcsInitError where
  | unmarshal
  | numProcs
  | command
  deriving DecidableEq, Repr

/-- Modelled from the spec: `metricCollector.setup` is declared outside the given sources;
the spec gives `Init` no further step, so `setup` leaves the collector as it is. -/
def TopProcsCollector.setup (m : TopProcsCollector) : TopProcsCollector :=
  m

/-- `TopProcsCollector.Init`. The raw configuration is `none` when it is empty; `psOk`
tells whether the `ps` command of `Init` ran without error. The result is the collector
after the call and the returned error. -/
def TopProcsCollector.Init (psOk : Bool) (m : TopProcsCollector)
    (config : Option TopProcsConfigJSON) : TopProcsCollector × Option TopProcsInitError :=
  let m := { m with name := "TopProcsCollector" }
  let m := { m with parallel := true }
  let m := { m with tags := [("type", "node")] }
  let m := { m with meta := [("source", m.name), ("group", "TopProcs")] }
  let m := match config with
    | some j => { m with config := { Num_procs := j.num_procs.getD m.config.Num_procs } }
    | none => { m with config := { Num_procs := DEFAULT_NUM_PROCS } }
  if (match config with | none => false | some j => j.err) then (m, some .unmarshal) else
  if m.config.Num_procs ≤ 0 ∨ m.config.Num_procs > MAX_NUM_PROCS then (m, some .numProcs) else
  let m := m.setup
  if !psOk then (m, some .command) else
  ({ m with init := true }, none)

/-- `TopProcsCollector.Close`. -/
def TopProcsCollector.Close (m : TopProcsCollector) : TopProcsCollector :=
  { m with init := false }

/-- A collector as `new(TopProcsCollector)` creates it: every field has its zero value. -/
def newTopProcsCollector : TopProcsCollector :=
  { name := "", init := false, parallel := false, meta := [], tags := [],
    config := { Num_procs := 0 } }

/-! ## receivers/ipmiReceiver.go -/

/-- Go `strings.Split(s, sep)` for a nonempty separator: the text is cut at the
occurrences of the separator found from left to right, without overlap. The number counts
the characters of a found separator still to be skipped, the last argument is the piece
being read, in reverse. -/
def splitSepAux (sep : List Char) : Nat → List Char → List Char → List (List Char)
  | _, [], cur => [cur.reverse]
  | skip + 1, _ :: cs, cur => splitSepAux sep skip cs cur
  | 0, c :: cs, cur =>
    if sep.isPrefixOf (c :: cs) then cur.reverse :: splitSepAux sep (sep.length - 1) cs []
    else splitSepAux sep 0 cs (c :: cur)

/-- Go `strings.Split(s, sep)` for a nonempty separator. -/
def splitSep (sep : String) (s : String) : List String :=
  (splitSepAux sep.data 0 s.data []).map String.mk

/-- Go `strings.Replace(pattern, "%h", host, -1)` on lists of characters: every
occurrence of the placeholder, found from left to right, is replaced by the host. -/
def replacePlaceholder (host : List Char) : List Char → List Char
  | [] => []
  | [c] => [c]
  | c :: d :: rest =>
    if c = '%' ∧ d = 'h' then host ++ replacePlaceholder host rest
    else c :: replacePlaceholder host (d :: rest)

/-- The identifier `ipmiHost := strings.Replace(host_pattern, "%h", host, -1)`. -/
def ipmiHost (host_pattern host : String) : String :=
  String.mk (replacePlaceholder host.data host_pattern.data)

/-- Struct `IPMIReceiverClientConfig`. The map `isExcluded` holds the value true for
each of its keys, it is the list of these keys in the order of assignment. -/
structure IPMIReceiverClientConfig where
  Protocol : String
  DriverType : String
  Fanout : Int
  NumHosts : Int
  IPMIHosts : String
  IPMI2HostMapping : StrMap
  Username : String
  Password : String
  isExcluded : List String
  deriving DecidableEq, Repr

/-- Struct `IPMIReceiver`: name, interval in nanoseconds, client configs and static
information. The channel `done` and the wait group carry no data. -/
structure IPMIReceiver where
  name : String
  Interval : Int
  ClientConfigs : List IPMIReceiverClientConfig
  meta : StrMap
  deriving DecidableEq, Repr

/-- An element of `ClientConfigs` of the JSON config struct; a nil pointer is `none`. -/
structure IPMIClientConfigJSON where
  Endpoint : Option String := none
  Fanout : Int := 0
  DriverType : String := ""
  HostList : List String := []
  Username : Option String := none
  Password : Option String := none
  ExcludeMetrics : List String := []
  deriving DecidableEq, Repr

/-- The JSON config struct `configJSON` of `NewIPMIReceiver` with its default values
(the field `Type` is written `Type_`, the word being reserved in Lean). -/
structure IPMIConfigJSON where
  Type_ : String := ""
  Fanout : Int := 64
  DriverType : String := "LAN_2_0"
  IntervalString : String := "30s"
  Username : Option String := none
  Password : Option String := none
  Endpoint : Option String := none
  ExcludeMetrics : List String := []
  ClientConfigs : List IPMIClientConfigJSON := []
  deriving DecidableEq, Repr

/-- The raw configuration given to `NewIPMIReceiver`: empty, rejected by
`json.Unmarshal`, or decoded into the config struct (the defaults overwritten by the
fields of the document). -/
inductive IPMIRawConfig where
  | empty
  | invalid
  | decoded (c : IPMIConfigJSON)

/-- The errors `NewIPMIReceiver` returns; the number is the index of the client config. -/
inductive IPMIError where
  | unmarshal
  | interval
  | requiresEndpoint (i : Nat)
  | invalidDriverType (i : Nat)
  | invalidEndpoint (i : Nat)
  | requiresUsername (i : Nat)
  | requiresPassword (i : Nat)
  | noHost
  deriving DecidableEq, Repr

/-- The loop of `NewIPMIReceiver` that creates the mapping between ipmi hostname and node
hostname, from an empty map. -/
def ipmi2HostMapping (host_pattern : String) (HostList : List String) : StrMap :=
  HostList.foldl (fun t host => mapSet t (ipmiHost host_pattern host) host) []

/-- The endpoint of a client config: its own, else the one of the top level. -/
def clientEndpoint (configJSON : IPMIConfigJSON) (clientConfigJSON : IPMIClientConfigJSON) :
    Option String :=
  match clientConfigJSON.Endpoint with
  | some e => some e
  | none => configJSON.Endpoint

/-- The fanout of a client config: its own when it is not zero, else the one of the top
level. -/
def clientFanout (configJSON : IPMIConfigJSON) (clientConfigJSON : IPMIClientConfigJSON) :
    Int :=
  if clientConfigJSON.Fanout ≠ 0 then clientConfigJSON.Fanout else configJSON.Fanout

/-- The driver type of a client config: its own when it is not empty, else the one of the
top level. -/
def clientDriverType (configJSON : IPMIConfigJSON) (clientConfigJSON : IPMIClientConfigJSON) :
    String :=
  if clientConfigJSON.DriverType ≠ "" then clientConfigJSON.DriverType
  else configJSON.DriverType

/-- The user name of a client config: its own, else the one of the top level. -/
def clientUsername (configJSON : IPMIConfigJSON) (clientConfigJSON : IPMIClientConfigJSON) :
    Option String :=
  match clientConfigJSON.Username with
  | some u => some u
  | none => configJSON.Username

/-- The password of a client config: its own, else the one of the top level. -/
def clientPassword (configJSON : IPMIConfigJSON) (clientConfigJSON : IPMIClientConfigJSON) :
    Option String :=
  match clientConfigJSON.Password with
  | some p => some p
  | none => configJSON.Password

/-- The body of the loop of `NewIPMIReceiver` over the client configs, for the client
config number `i`. -/
def newClientConfig (configJSON : IPMIConfigJSON) (i : Nat)
    (clientConfigJSON : IPMIClientConfigJSON) : Except IPMIError IPMIReceiverClientConfig :=
  match clientEndpoint configJSON clientConfigJSON with
  | none => .error (.requiresEndpoint i)
  | some endpoint =>
    let fanout := clientFanout configJSON clientConfigJSON
    let driverType := clientDriverType configJSON clientConfigJSON
    if driverType ≠ "LAN" ∧ driverType ≠ "LAN_2_0" then .error (.invalidDriverType i) else
    match splitSep "://" endpoint with
    | [protocol, host_pattern] =>
      match clientUsername configJSON clientConfigJSON with
      | none => .error (.requiresUsername i)
      | some username =>
        match clientPassword configJSON clientConfigJSON with
        | none => .error (.requiresPassword i)
        | some password =>
          -- Create mapping between ipmi hostname and node hostname
          let mapping := ipmi2HostMapping host_pattern clientConfigJSON.HostList
          let numHosts := mapping.length
          let ipmiHostList := mapKeys mapping
          -- Is metrics excluded globally or per client
          let isExcluded := clientConfigJSON.ExcludeMetrics ++ configJSON.ExcludeMetrics
          .ok
            { Protocol := protocol
              Fanout := fanout
              DriverType := driverType
              NumHosts := numHosts
              IPMIHosts := String.intercalate "," ipmiHostList
              IPMI2HostMapping := mapping
              Username := username
              Password := password
              isExcluded := isExcluded }
    | _ => .error (.invalidEndpoint i)

/-- The loop of `NewIPMIReceiver` over the client configs from index `i` on: the client
configs created, or the first error. -/
def newClientConfigs (configJSON : IPMIConfigJSON) :
    Nat → List IPMIClientConfigJSON → Except IPMIError (List IPMIReceiverClientConfig)
  | _, [] => .ok []
  | i, c :: cs =>
    match newClientConfig configJSON i c with
    | .error e => .error e
    | .ok cc =>
      match newClientConfigs configJSON (i + 1) cs with
      | .error e => .error e
      | .ok ccs => .ok (cc :: ccs)

/-- `NewIPMIReceiver`. The function `parseDuration` is `time.ParseDuration` (`none` for
an error, else nanoseconds). The result is the receiver, or the returned error. -/
def NewIPMIReceiver (parseDuration : String → Option Int) (name : String)
    (config : IPMIRawConfig) : Except IPMIError IPMIReceiver :=
  let rname := "IPMIReceiver(" ++ name ++ ")"
  let rmeta : StrMap := [("source", rname)]
  match (match config with
      | .empty => some ({} : IPMIConfigJSON)
      | .invalid => none
      | .decoded c => some c) with
  | none => .error .unmarshal
  | some configJSON =>
    match parseDuration configJSON.IntervalString with
    | none => .error .interval
    | some interval =>
      match newClientConfigs configJSON 0 configJSON.ClientConfigs with
      | .error e => .error e
      | .ok ccs =>
        let totalNumHosts := (ccs.map (fun cc => cc.NumHosts)).sum
        if totalNumHosts = 0 then .error .noHost else
        .ok { name := rname, Interval := interval, ClientConfigs := ccs, meta := rmeta }

/-- The mapping of a created client config is the rendering of the host list: the
endpoint of the client config splits into protocol and host pattern, the keys of the
mapping are pairwise distinct and are exactly the identifiers `ipmiHost host_pattern host`
of the hosts of the list, and every key is mapped to a host of the list that renders it. -/
def MappingRenders (configJSON : IPMIConfigJSON) (clientConfigJSON : IPMIClientConfigJSON)
    (cc : IPMIReceiverClientConfig) : Prop :=
  ∃ endpoint protocol host_pattern,
    clientEndpoint configJSON clientConfigJSON = some endpoint ∧
    splitSep "://" endpoint = [protocol, host_pattern] ∧
    (mapKeys cc.IPMI2HostMapping).Nodup ∧
    (∀ k, k ∈ mapKeys cc.IPMI2HostMapping ↔
      ∃ host ∈ clientConfigJSON.HostList, k = ipmiHost host_pattern host) ∧
    (∀ k v, mapLookup cc.IPMI2HostMapping k = some v →
      v ∈ clientConfigJSON.HostList ∧ ipmiHost host_pattern v = k)

/-- The mapping of a created client config is one to one when the host pattern has the
placeholder: then different hosts have different identifiers, the mapping sends exactly
the identifier of each host of the list to that host, and `NumHosts` is the number of
distinct hosts of the list; and two different hosts of the list with the same identifier
exist only for a host pattern without placeholder. -/
def MappingOneToOne (configJSON : IPMIConfigJSON) (clientConfigJSON : IPMIClientConfigJSON)
    (cc : IPMIReceiverClientConfig) : Prop :=
  ∃ endpoint protocol host_pattern,
    clientEndpoint configJSON clientConfigJSON = some endpoint ∧
    splitSep "://" endpoint = [protocol, host_pattern] ∧
    (containsSub "%h".data host_pattern.data = true →
      (∀ a b : String, ipmiHost host_pattern a = ipmiHost host_pattern b → a = b) ∧
      (∀ k v, mapLookup cc.IPMI2HostMapping k = some v ↔
        v ∈ clientConfigJSON.HostList ∧ k = ipmiHost host_pattern v) ∧
      cc.NumHosts = (clientConfigJSON.HostList.dedup.length : Int)) ∧
    (∀ a ∈ clientConfigJSON.HostList, ∀ b ∈ clientConfigJSON.HostList, a ≠ b →
      ipmiHost host_pattern a = ipmiHost host_pattern b →
      containsSub "%h".data host_pattern.data = false)

/-! ### Concrete inputs for the IPMI receiver -/

/-- A configuration with the endpoint `ipmi-sensors://ipmi-%h` at the top level and one
client config with the host list n1, n2. -/
def twoHostConfig : IPMIConfigJSON :=
  { Endpoint := some "ipmi-sensors://ipmi-%h", Username := some "admin",
    Password := some "secret", ClientConfigs := [{ HostList := ["n1", "n2"] }] }

/-- The receiver `NewIPMIReceiver` creates for `twoHostConfig`. -/
def twoHostReceiver : IPMIReceiver :=
  { name := "IPMIReceiver(bmc)", Interval := 30000000000,
    ClientConfigs :=
      [{ Protocol := "ipmi-sensors", DriverType := "LAN_2_0", Fanout := 64, NumHosts := 2,
         IPMIHosts := "ipmi-n1,ipmi-n2",
         IPMI2HostMapping := [("ipmi-n1", "n1"), ("ipmi-n2", "n2")],
         Username := "admin", Password := "secret", isExcluded := [] }],
    meta := [("source", "IPMIReceiver(bmc)")] }

/-- A duration parser that knows the default interval only. -/
def parseDefaultInterval (s : String) : Option Int :=
  if s = "30s" then some 30000000000 else none

/-! ### The JSON document of the IPMI receiver -/

/-- A client config as the JSON document gives it: every field is present or absent. -/
structure IPMIClientConfigDoc where
  endpoint : Option String := none
  fanout : Option Int := none
  driver_type : Option String := none
  host_list : Option (List String) := none
  username : Option String := none
  password : Option String := none
  exclude_metrics : Option (List String) := none
  deriving DecidableEq, Repr

/-- The configuration as the JSON document gives it: every field is present or absent. -/
structure IPMIConfigDoc where
  type : Option String := none
  fanout : Option Int := none
  driver_type : Option String := none
  interval : Option String := none
  username : Option String := none
  password : Option String := none
  endpoint : Option String := none
  exclude_metrics : Option (List String) := none
  client_config : Option (List IPMIClientConfigDoc) := none
  deriving DecidableEq, Repr

/-- What `json.Unmarshal` stores for a client config: a field of the document overwrites
the zero value of the struct field, an absent field leaves it. -/
def IPMIClientConfigDoc.decode (d : IPMIClientConfigDoc) : IPMIClientConfigJSON :=
  { Endpoint := d.endpoint
    Fanout := d.fanout.getD 0
    DriverType := d.driver_type.getD ""
    HostList := d.host_list.getD []
    Username := d.username
    Password := d.password
    ExcludeMetrics := d.exclude_metrics.getD [] }

/-- What `json.Unmarshal` stores in `configJSON`: a field of the document overwrites the
default value of the struct field, an absent field leaves it. -/
def IPMIConfigDoc.decode (d : IPMIConfigDoc) : IPMIConfigJSON :=
  { Type_ := d.type.getD ""
    Fanout := d.fanout.getD 64
    DriverType := d.driver_type.getD "LAN_2_0"
    IntervalString := d.interval.getD "30s"
    Username := d.username
    Password := d.password
    Endpoint := d.endpoint
    ExcludeMetrics := d.exclude_metrics.getD []
    ClientConfigs := (d.client_config.getD []).map IPMIClientConfigDoc.decode }

/-! ### doReadMetric -/

/-- The library functions `doReadMetric` uses on texts and numbers: `strings.ToLower` and
`strconv.ParseFloat(s, 64)` (the value together with `err == nil`). -/
structure SensorOps (F : Type) where
  /-- `strings.ToLower`. -/
  ToLower : String → String
  /-- `strconv.ParseFloat(s, 64)`: the returned value and whether the error is nil. -/
  ParseFloat : String → F × Bool

/-- Go `strings.Replace(s, old, new, -1)` on lists of characters. An empty `old` matches
at the beginning of the text and after every character. -/
def stringsReplace (old new s : List Char) : List Char :=
  if old.isEmpty then new ++ s.flatMap (fun c => c :: new)
  else List.intercalate new (splitSepAux old 0 s [])

/-- Go `fmt.Sprint` of an `int`. -/
def sprintInt : Int → String
  | .ofNat n => String.mk (natDigitsRev 40 n).reverse
  | .negSucc n => String.mk ('-' :: (natDigitsRev 40 (n + 1)).reverse)

/-- The outcome of the loop body for one line of the command output: the line is skipped
(`continue`), a record is sent to the sink, or the code stops with a runtime failure. -/
inductive LineOutcome (F : Type) where
  | skip
  | emit (y : CCMessage F)
  | panic
  deriving DecidableEq, Repr

/-- The chain of conditions of `doReadMetric` on unit and type: the canonical metric name
and unit, `none` for the final `continue`. The arguments are the sensor name (lower case,
blanks replaced), the sensor type (lower case) and the unit as printed. -/
def canonicalMetric (name metric unit : String) : Option (String × String) :=
  if unit = "Watts" then some ("power", unit)
  else if metric = "voltage" ∧ unit = "Volts" then some (metric, unit)
  else if metric = "temperature" ∧ unit = "degrees C" then some (metric, "degC")
  else if metric = "temperature" ∧ unit = "degrees F" then some (metric, "degF")
  else if metric = "fan" ∧ unit = "RPM" then some ("fan_speed", unit)
  else if metric = "other units based sensor" ∧
      (unit = "unspecified" ∨ unit = "%") ∧
      (name = "cpu_utilization" ∨ name = "io_utilization" ∨
        name = "mem_utilization" ∨ name = "sys_utilization") then
    some ("utilization", "percent")
  else none

/-- Modelled from the spec: `lp.New` of package ccMetric is declared outside the given
sources; the spec has a record constructed from name, tags, meta data and the field
`value`, and no record dropped once parsing succeeds, so the construction succeeds. The
time stamp is left out. -/
def lpNew {F : Type} (name : String) (tags meta : StrMap) (value : F) : Option (CCMessage F) :=
  some { name := name, tags := tags, meta := meta, value := value }

/-- The body of the loop `for scanner.Scan()` of `doReadMetric` for the line
`scanner.Text()`. The positions of the six fields are `idxID = 0`, `idxName = 1`,
`idxType = 2`, `idxReading = 3`, `idxUnits = 4`, `idxEvent = 5`; an index past the end of
a slice is the outcome `panic`. -/
def readSensorLine {F : Type} (ops : SensorOps F) (rname : String)
    (clientConfig : IPMIReceiverClientConfig) (text : String) : LineOutcome F :=
  -- Read host
  let v1 := splitSep ": " text
  if v1.length ≠ 2 then .skip else
  match v1[0]? with
  | none => .panic
  | some v1_0 =>
    match mapLookup clientConfig.IPMI2HostMapping v1_0 with
    | none => .skip
    | some host =>
      match v1[1]? with
      | none => .panic
      | some v1_1 =>
        -- Read sensors
        let v2 := splitSep "," v1_1
        if v2.length ≠ 6 then .skip else
        match v2[3]? with
        | none => .panic
        | some reading =>
          -- Skip sensors with non available sensor readings
          if reading = "N/A" then .skip else
          match v2[1]?, v2[2]?, v2[4]? with
          | some vName, some vType, some vUnits =>
            let name := ops.ToLower (String.mk (stringsReplace " ".data "_".data vName.data))
            match canonicalMetric name (ops.ToLower vType) vUnits with
            | none => .skip
            | some (metric, unit) =>
              -- Skip excluded metrics
              if metric ∈ clientConfig.isExcluded then .skip else
              -- Parse sensor value
              let value := ops.ParseFloat reading
              if !value.2 then .skip else
              match lpNew metric
                  [("hostname", host), ("type", "node"), ("name", name)]
                  [("source", rname), ("group", "IPMI"), ("unit", unit)]
                  value.1 with
              | some y => .emit y
              | none => .skip
          | _, _, _ => .panic

/-- The outside world of one command of `doReadMetric`: the path `command.String()`
prints in front of the arguments, the error text of `command.Start()` (`none` when the
command starts), the standard output, the error text of `command.Wait()` (`none` for a
clean exit) and the standard error output. -/
structure IPMICommandEnv where
  path : String
  startErr : Option String
  stdout : String
  waitErr : Option String
  stderr : String

/-- What a pass of `doReadMetric` does: the records sent to the sink in order, the calls
of `cclog.ComponentError` (each with its formatted messages), the argument vectors of the
commands launched, and whether the code stopped with a runtime failure. -/
structure PassResult (F : Type) where
  sink : List (CCMessage F)
  log : List (List String)
  commands : List (List String)
  panicked : Bool

/-- The options `cmd_options` of the command for a client config. -/
def cmd_options (clientConfig : IPMIReceiverClientConfig) : List String :=
  ["--always-prefix",
   "--sdr-cache-recreate",
   "--interpret-oem-data",
   "--ignore-not-available-sensors",
   "--ignore-unrecognized-events",
   "--comma-separated-output",
   "--no-header-output",
   "--non-abbreviated-units",
   "--fanout", sprintInt clientConfig.Fanout,
   "--driver-type", clientConfig.DriverType,
   "--host", clientConfig.IPMIHosts,
   "--user", clientConfig.Username,
   "--password", clientConfig.Password]

/-- Go `command.String()`: the path and the arguments, separated by blanks. -/
def commandString (path : String) (args : List String) : String :=
  String.intercalate " " (path :: args)

/-- The loop `for scanner.Scan()` of `doReadMetric` over the lines of the output: the
records sent and whether a line stopped the code. -/
def readSensorLines {F : Type} (ops : SensorOps F) (rname : String)
    (clientConfig : IPMIReceiverClientConfig) : List String → List (CCMessage F) × Bool
  | [] => ([], false)
  | text :: rest =>
    match readSensorLine ops rname clientConfig text with
    | .panic => ([], true)
    | .skip => readSensorLines ops rname clientConfig rest
    | .emit y =>
      let r := readSensorLines ops rname clientConfig rest
      (y :: r.1, r.2)

/-- The body of the loop of `doReadMetric` for one client config; `env` is the outside
world of its command. -/
def readClient {F : Type} (ops : SensorOps F) (rname : String) (env : IPMICommandEnv)
    (clientConfig : IPMIReceiverClientConfig) : PassResult F :=
  if clientConfig.Protocol = "ipmi-sensors" then
    let options := cmd_options clientConfig
    -- start command
    match env.startErr with
    | some err =>
      { sink := [], log := [["doReadMetric(): Failed to start command \"" ++
          commandString env.path options ++ "\": " ++ err]],
        commands := ["ipmi-sensors" :: options], panicked := false }
    | none =>
      -- Read command output
      let r := readSensorLines ops rname clientConfig
        ((scanLines env.stdout.data).map String.mk)
      if r.2 then { sink := r.1, log := [], commands := ["ipmi-sensors" :: options],
                    panicked := true } else
      -- Wait for command end
      match env.waitErr with
      | some err =>
        { sink := r.1,
          log := [["doReadMetric(): Failed to wait for the end of command \"" ++
              String.mk (stringsReplace clientConfig.Password.data "<PW>".data
                (commandString env.path options).data) ++ "\": " ++ err ++ "\n",
            "doReadMetric(): command stderr: \"" ++ env.stderr ++ "\"\n"]],
          commands := ["ipmi-sensors" :: options], panicked := false }
      | none =>
        { sink := r.1, log := [], commands := ["ipmi-sensors" :: options], panicked := false }
  else { sink := [], log := [], commands := [], panicked := false }

/-- The loop of `doReadMetric` over the client configs from index `i` on; `env` gives the
outside world of the command of each client config. -/
def readClients {F : Type} (ops : SensorOps F) (rname : String) (env : Nat → IPMICommandEnv) :
    Nat → List IPMIReceiverClientConfig → PassResult F
  | _, [] => { sink := [], log := [], commands := [], panicked := false }
  | i, clientConfig :: rest =>
    let r1 := readClient ops rname (env i) clientConfig
    if r1.panicked then r1 else
    let r2 := readClients ops rname env (i + 1) rest
    { sink := r1.sink ++ r2.sink, log := r1.log ++ r2.log,
      commands := r1.commands ++ r2.commands, panicked := r2.panicked }

/-- `IPMIReceiver.doReadMetric`: reads metrics from all configured IPMI hosts. -/
def IPMIReceiver.doReadMetric {F : Type} (ops : SensorOps F) (env : Nat → IPMICommandEnv)
    (r : IPMIReceiver) : PassResult F :=
  readClients ops r.name env 0 r.ClientConfigs

/-- Lower case of the letters A to Z; on texts of ASCII characters this is
`strings.ToLower`. -/
def asciiToLower (s : String) : String :=
  String.mk (s.data.map (fun c =>
    if decide ('A' ≤ c) && decide (c ≤ 'Z') then Char.ofNat (c.toNat + 32) else c))

/-- An instance of the library functions of `doReadMetric` for evaluating the model on
concrete texts: lower case of ASCII letters, and numbers read in hundredths from an
unsigned decimal literal with at most two decimals (the result counts hundredths); on
such texts it agrees with the Go library. Every other text is reported as a parse
error. -/
def asciiSensorOps : SensorOps Nat where
  ToLower := asciiToLower
  ParseFloat s :=
    match splitChar '.' s.data with
    | [ds] =>
      if ds.isEmpty then (0, false) else
      match digitsValue ds 0 with
      | some n => (100 * n, true)
      | none => (0, false)
    | [ds, fs] =>
      if ds.isEmpty || fs.isEmpty || decide (2 < fs.length) then (0, false) else
      match digitsValue ds 0, digitsValue (fs ++ List.replicate (2 - fs.length) '0') 0 with
      | some n, some f => (100 * n + f, true)
      | _, _ => (0, false)
    | _ => (0, false)

/-- The override chain of a created client config, in terms of the JSON document: endpoint,
user name and password are the ones of the client config when it has the field, else the
ones of the top level; the fanout is the one of the client config when it has the field
with a value other than 0, else the one of the top level, else 64; the driver type is the
one of the client config when it has the field with a non-empty value, else the one of the
top level, else LAN_2_0. The endpoint is stored as protocol and host pattern, the latter in
the form of the mapping it renders. -/
def OverrideChain (d : IPMIConfigDoc) (cd : IPMIClientConfigDoc)
    (cc : IPMIReceiverClientConfig) : Prop :=
  (∃ endpoint host_pattern,
    (match cd.endpoint with
      | some e => endpoint = e
      | none => d.endpoint = some endpoint) ∧
    splitSep "://" endpoint = [cc.Protocol, host_pattern] ∧
    cc.IPMI2HostMapping = ipmi2HostMapping host_pattern (cd.host_list.getD [])) ∧
  (match cd.username with
    | some u => cc.Username = u
    | none => d.username = some cc.Username) ∧
  (match cd.password with
    | some p => cc.Password = p
    | none => d.password = some cc.Password) ∧
  cc.Fanout =
    (match cd.fanout with
      | some v => if v ≠ 0 then v else d.fanout.getD 64
      | none => d.fanout.getD 64) ∧
  cc.DriverType =
    (match cd.driver_type with
      | some t => if t ≠ "" then t else d.driver_type.getD "LAN_2_0"
      | none => d.driver_type.getD "LAN_2_0")

/-- A document with fanout 32 and driver type LAN at the top level, whose only client
config gives the fanout 0 and an empty driver type. -/
def zeroFanoutDoc : IPMIConfigDoc :=
  { fanout := some 32, driver_type := some "LAN",
    endpoint := some "ipmi-sensors://ipmi-%h", username := some "admin",
    password := some "secret",
    client_config := some [{ fanout := some 0, driver_type := some "", host_list := some ["n1"],
                             username := some "" }] }

/-- A document in which the client config gives every field of the override chain. -/
def overridingDoc : IPMIConfigDoc :=
  { fanout := some 32, driver_type := some "LAN",
    endpoint := some "ipmi-sensors://ipmi-%h", username := some "admin",
    password := some "secret",
    client_config := some [{ endpoint := some "ipmi-sensors://bmc-%h", fanout := some 8,
                             driver_type := some "LAN_2_0", host_list := some ["n1"],
                             username := some "operator", password := some "other" }] }

/-- The receiver `NewIPMIReceiver` creates for `overridingDoc`. -/
def overridingReceiver : IPMIReceiver :=
  { name := "IPMIReceiver(bmc)", Interval := 30000000000,
    ClientConfigs :=
      [{ Protocol := "ipmi-sensors", DriverType := "LAN_2_0", Fanout := 8, NumHosts := 1,
         IPMIHosts := "bmc-n1", IPMI2HostMapping := [("bmc-n1", "n1")],
         Username := "operator", Password := "other", isExcluded := [] }],
    meta := [("source", "IPMIReceiver(bmc)")] }

/-- The sensor name of a record: the name field of the line with blanks replaced by
underscores, in lower case. -/
def sensorName {F : Type} (ops : SensorOps F) (vName : String) : String :=
  ops.ToLower (String.mk (stringsReplace " ".data "_".data vName.data))

/-- The record `doReadMetric` builds for a sensor. -/
def sensorRecord {F : Type} (rname host name metric unit : String) (value : F) : CCMessage F :=
  { name := metric,
    tags := [("hostname", host), ("type", "node"), ("name", name)],
    meta := [("source", rname), ("group", "IPMI"), ("unit", unit)],
    value := value }

/-- The rule table of canonical metric names and units, in the words of the
specification: for a sensor name, a sensor type and a unit as printed, the canonical
metric name and unit. Unit Watts gives the metric power; type voltage with unit Volts is
kept; type temperature with unit degrees C gives the unit degC, with degrees F the unit
degF; type fan with unit RPM gives the metric fan_speed; type other units based sensor
with unit unspecified or % and one of the four utilization names gives the metric
utilization with unit percent. -/
def RuleTable (name type unit metric canonicalUnit : String) : Prop :=
  (unit = "Watts" ∧ metric = "power" ∧ canonicalUnit = "Watts") ∨
  (type = "voltage" ∧ unit = "Volts" ∧ metric = "voltage" ∧ canonicalUnit = "Volts") ∨
  (type = "temperature" ∧ unit = "degrees C" ∧
    metric = "temperature" ∧ canonicalUnit = "degC") ∨
  (type = "temperature" ∧ unit = "degrees F" ∧
    metric = "temperature" ∧ canonicalUnit = "degF") ∨
  (type = "fan" ∧ unit = "RPM" ∧ metric = "fan_speed" ∧ canonicalUnit = "RPM") ∨
  (type = "other units based sensor" ∧ (unit = "unspecified" ∨ unit = "%") ∧
    (name = "cpu_utilization" ∨ name = "io_utilization" ∨
      name = "mem_utilization" ∨ name = "sys_utilization") ∧
    metric = "utilization" ∧ canonicalUnit = "percent")

/-! ### Concrete inputs for doReadMetric -/

/-- A client config for the hosts n1 and n2 that excludes the metric name `fan`. -/
def fanExcludedClient : IPMIReceiverClientConfig :=
  { Protocol := "ipmi-sensors", DriverType := "LAN_2_0", Fanout := 64, NumHosts := 2,
    IPMIHosts := "ipmi-n1,ipmi-n2",
    IPMI2HostMapping := [("ipmi-n1", "n1"), ("ipmi-n2", "n2")],
    Username := "admin", Password := "secret", isExcluded := ["fan"] }

/-- A sensor line of type Fan with unit RPM for the host n1. -/
def fanLine : String :=
  "ipmi-n1: 12,Fan 1,Fan,3000.00,RPM,'OK'"

/-- A configuration that excludes the metric power at the top level and the metric fan in
its only client config. -/
def excludingConfig : IPMIConfigJSON :=
  { Endpoint := some "ipmi-sensors://ipmi-%h", Username := some "admin",
    Password := some "secret", ExcludeMetrics := ["power"],
    ClientConfigs := [{ HostList := ["n1", "n2"], ExcludeMetrics := ["fan"] }] }

/-- The receiver `NewIPMIReceiver` creates for `excludingConfig`. -/
def excludingReceiver : IPMIReceiver :=
  { name := "IPMIReceiver(bmc)", Interval := 30000000000,
    ClientConfigs :=
      [{ Protocol := "ipmi-sensors", DriverType := "LAN_2_0", Fanout := 64, NumHosts := 2,
         IPMIHosts := "ipmi-n1,ipmi-n2",
         IPMI2HostMapping := [("ipmi-n1", "n1"), ("ipmi-n2", "n2")],
         Username := "admin", Password := "secret", isExcluded := ["fan", "power"] }],
    meta := [("source", "IPMIReceiver(bmc)")] }

/-- A command that fails to start. -/
def startFailureEnv : IPMICommandEnv :=
  { path := "ipmi-sensors",
    startErr := some "exec: \"ipmi-sensors\": executable file not found in $PATH",
    stdout := "", waitErr := none, stderr := "" }

/-- A command that prints one sensor line and exits with status 1. -/
def waitFailureEnv : IPMICommandEnv :=
  { path := "/usr/sbin/ipmi-sensors", startErr := none, stdout := fanLine ++ "\n",
    waitErr := some "exit status 1", stderr := "connection timeout" }

/-! ### TopProcsCollector.Read -/

/-- A Go `int` of 64 bits: the value of an integer expression after wrap-around. -/
def wrapInt64 (x : Int) : Int :=
  (x + 2 ^ 63) % 2 ^ 64 - 2 ^ 63

/-- The result of `TopProcsCollector.Read`: the records sent to the output channel in
order, and whether the code stopped with a runtime failure. -/
structure TopProcsReadResult where
  output : List (CCMessage String)
  panicked : Bool
  deriving DecidableEq, Repr

/-- The loop `for i := 1; i < m.config.Num_procs+1; i++` of `Read` from the index `i` on,
with the number of iterations that remain; `lines[i]` past the end of the slice stops the
code. -/
def readTopProcs (m : TopProcsCollector) (lines : List String) : Nat → Nat → TopProcsReadResult
  | _, 0 => { output := [], panicked := false }
  | i, remaining + 1 =>
    match lines[i]? with
    | none => { output := [], panicked := true }
    | some line =>
      let r := readTopProcs m lines (i + 1) remaining
      { output := { name := "topproc" ++ sprintInt i, tags := m.tags, meta := m.meta,
                    value := line } :: r.output,
        panicked := r.panicked }

/-- `TopProcsCollector.Read`; `psOutput` is the result of `command.Output()` for the `ps`
command: `none` for an error, else the standard output. -/
def TopProcsCollector.Read (psOutput : Option String) (m : TopProcsCollector) :
    TopProcsReadResult :=
  if !m.init then { output := [], panicked := false } else
  match psOutput with
  | none => { output := [], panicked := false }
  | some stdout =>
    let lines := (splitChar '\n' stdout.data).map String.mk
    readTopProcs m lines 1 (wrapInt64 (m.config.Num_procs + 1) - 1).toNat

/-! ### The mount points Read queries -/

/-- The mount points for which the loop `for _, mountpoint := range mountpoints` of
`BeegfsStorageCollector.Read` runs its command, in order: the same loop as `readMounts`,
recording the mount point of every `cmd.Run()`. -/
def readMountsQueried {F : Type} (ops : FloatOps F) (env : BeegfsReadEnv) :
    Nat → BeegfsStorageCollector → List String → List String
  | _, _, [] => []
  | n, m, mountpoint :: rest =>
    let m1 := { m with tags := mapSet m.tags "filesystem" mountpoint }
    let mountoption := "--mount=" ++ mountpoint
    match env.run n [m1.config.Beegfs, "--clientstats", "--nodetype=storage", mountoption,
        "--allstats"] with
    | none => [mountpoint]
    | some stdout =>
      let r1 := readLines ops m1 (scanLines stdout.data)
      if r1.panicked then [mountpoint] else
      mountpoint :: readMountsQueried ops env (n + 1) r1.collector rest

/-- The mount points for which `BeegfsStorageCollector.Read` runs its command in a tick:
the same steps as `Read`, recording the mount point of every `cmd.Run()`. -/
def BeegfsStorageCollector.ReadQueried {F : Type} (ops : FloatOps F) (env : BeegfsReadEnv)
    (m : BeegfsStorageCollector) : List String :=
  if !m.init then [] else
  match mountpoints m.skipFS (splitChar '\n' env.mounts.data) with
  | none => []
  | some mps =>
    if mps.isEmpty then [] else readMountsQueried ops env 0 m mps

/-- The selection of mount points in the words of the specification: in table order, the
second fields of the lines whose first field contains `beegfs_ondemand` and whose mount
point is not in the list of excluded file systems. -/
def mountTableSelection (exclude : List String) (lines : List (List Char)) : List String :=
  lines.filterMap (fun line =>
    match fields line with
    | f0 :: f1 :: _ =>
      if containsSub "beegfs_ondemand".data f0 && !decide (String.mk f1 ∈ exclude)
      then some (String.mk f1) else none
    | _ => none)

/-- A mount table with two BeeGFS on demand mounts and another file system, and a command
that fails for every mount point. -/
def failingCommandEnv : BeegfsReadEnv :=
  { mounts := "beegfs_ondemand /mnt/a beegfs rw 0 0\n/dev/sda1 / ext4 rw 0 0\n" ++
      "beegfs_ondemand /mnt/b beegfs rw 0 0\n",
    run := fun _ _ => none }

/-- A mount table with a line of one field. -/
def oneFieldMountEnv : BeegfsReadEnv :=
  { mounts := "beegfs_ondemand\n", run := fun _ _ => some "" }

/-- A mount table with two BeeGFS on demand mounts and another file system, and a command
that prints the line `Sum: 42 [x] 10 [ack]` for every mount point. -/
def twoMountStatsEnv : BeegfsReadEnv :=
  { mounts := "beegfs_ondemand /mnt/a beegfs rw 0 0\n/dev/sda1 / ext4 rw 0 0\n" ++
      "beegfs_ondemand /mnt/b beegfs rw 0 0\n",
    run := fun _ _ => some "Sum: 42 [x] 10 [ack]\n" }

/-- The collector after `Init` of a new `TopProcsCollector` with `num_procs = 10`, the
`ps` command of `Init` succeeding. -/
def tenProcsCollector : TopProcsCollector :=
  (TopProcsCollector.Init true newTopProcsCollector
    (some { num_procs := some 10, err := false })).1

/-- The output of `ps -Ao comm --sort=-pcpu` on a node with three processes: the header
line and three lines. -/
def threeProcsListing : String :=
  "COMMAND\nsystemd\ncc-metric-collec\nps\n"

/-! ### The loop of IPMIReceiver.Start -/

/-- The case taken by the `select` of the loop of `Start`. -/
inductive SelectCase where
  | ticker
  | done
  deriving DecidableEq, Repr

/-- What the outside world does around one cycle of the loop of `Start`: whether the
channel `done` is closed (stop is signaled) after the previous `select` and before
`doReadMetric` is called, whether it is closed while `doReadMetric` runs, whether a tick
waits in `ticker.C` when the `select` is reached, which case the Go runtime picks when
both cases can proceed, and which event comes first when the `select` has to wait. -/
structure CycleEnv where
  stopBeforePass : Bool
  stopDuringPass : Bool
  tickPending : Bool
  chooseTicker : Bool
  tickFirst : Bool
  deriving DecidableEq, Repr

/-- The `select` of the loop: a closed channel `done` and a pending tick can both
proceed, and the runtime picks one of them; one case that can proceed alone is taken; with
none the `select` waits for the first event. -/
def selectCase (doneClosed : Bool) (e : CycleEnv) : SelectCase :=
  match doneClosed, e.tickPending with
  | true, true => if e.chooseTicker then .ticker else .done
  | true, false => .done
  | false, true => .ticker
  | false, false => if e.tickFirst then .ticker else .done

/-- The loop `for { r.doReadMetric(); select { ... } }` of the task launched by `Start`,
run against the cycles of a schedule (a finite part of an execution). The flag tells
whether `done` is closed when the loop is entered. The result has one entry per call of
`doReadMetric`, in order: whether stop had been signaled when the call began. The case
`ticker` continues with the next cycle, the case `done` returns. -/
def startLoop : Bool → List CycleEnv → List Bool
  | _, [] => []
  | doneClosed, e :: rest =>
    let atCall := doneClosed || e.stopBeforePass
    let atSelect := atCall || e.stopDuringPass
    atCall ::
      (match selectCase atSelect e with
        | .ticker => startLoop atSelect rest
        | .done => [])

/-- A cycle in which stop is signaled while `doReadMetric` runs, a tick is pending at the
`select`, and the runtime picks the ticker case. -/
def stopDuringPassTickTaken : CycleEnv :=
  { stopBeforePass := false, stopDuringPass := true, tickPending := true,
    chooseTicker := true, tickFirst := false }

/-- A cycle without events of its own: no new stop signal, no pending tick. -/
def quietCycle : CycleEnv :=
  { stopBeforePass := false, stopDuringPass := false, tickPending := false,
    chooseTicker := false, tickFirst := false }

/-! ### Endpoints with another protocol -/

/-- The endpoint of a client config has the form of the specification: the endpoint (its
own, else the one of the top level) is the protocol, `://` and a host pattern, and `://`
occurs neither in the protocol nor in the host pattern, so exactly once in the endpoint. -/
def EndpointForm (configJSON : IPMIConfigJSON) (clientConfigJSON : IPMIClientConfigJSON)
    (protocol : String) : Prop :=
  ∃ host_pattern,
    clientEndpoint configJSON clientConfigJSON = some (protocol ++ "://" ++ host_pattern) ∧
    containsSub "://".data protocol.data = false ∧
    containsSub "://".data host_pattern.data = false

/-- The other values a client config needs: a driver type LAN or LAN_2_0, a user name and a
password, each its own or the one of the top level. -/
def ClientComplete (configJSON : IPMIConfigJSON) (clientConfigJSON : IPMIClientConfigJSON) :
    Prop :=
  (clientDriverType configJSON clientConfigJSON = "LAN" ∨
    clientDriverType configJSON clientConfigJSON = "LAN_2_0") ∧
  (clientUsername configJSON clientConfigJSON).isSome = true ∧
  (clientPassword configJSON clientConfigJSON).isSome = true

/-- A configuration with two client configs: the first has the endpoint
`ipmi-sensors://ipmi-%h` and the host n1, the second the endpoint `redfish://bmc-%h` and
the host n2. -/
def mixedProtocolConfig : IPMIConfigJSON :=
  { Username := some "admin", Password := some "secret",
    ClientConfigs :=
      [{ Endpoint := some "ipmi-sensors://ipmi-%h", HostList := ["n1"] },
       { Endpoint := some "redfish://bmc-%h", HostList := ["n2"] }] }

/-- The receiver `NewIPMIReceiver` creates for `mixedProtocolConfig`. -/
def mixedProtocolReceiver : IPMIReceiver :=
  { name := "IPMIReceiver(bmc)", Interval := 30000000000,
    ClientConfigs :=
      [{ Protocol := "ipmi-sensors", DriverType := "LAN_2_0", Fanout := 64, NumHosts := 1,
         IPMIHosts := "ipmi-n1", IPMI2HostMapping := [("ipmi-n1", "n1")],
         Username := "admin", Password := "secret", isExcluded := [] },
       { Protocol := "redfish", DriverType := "LAN_2_0", Fanout := 64, NumHosts := 1,
         IPMIHosts := "bmc-n2", IPMI2HostMapping := [("bmc-n2", "n2")],
         Username := "admin", Password := "secret", isExcluded := [] }],
    meta := [("source", "IPMIReceiver(bmc)")] }

/-- A command that starts, prints one sensor line for each of the identifiers ipmi-n1 and
bmc-n2, and ends cleanly. -/
def twoSensorLinesEnv : IPMICommandEnv :=
  { path := "/usr/sbin/ipmi-sensors", startErr := none,
    stdout := "ipmi-n1: 12,Fan 1,Fan,3000.00,RPM,'OK'\nbmc-n2: 12,Fan 1,Fan,4000.00,RPM,'OK'\n",
    waitErr := none, stderr := "" }

/-! ### Concrete inputs for TopProcsCollector.Read -/

/-- The collector after `Init` of a new `TopProcsCollector` with `num_procs = 5`, the `ps`
command of `Init` succeeding. -/
def fiveProcsCollector : TopProcsCollector :=
  (TopProcsCollector.Init true newTopProcsCollector
    (some { num_procs := some 5, err := false })).1

/-- The collector after `Init` of a new `TopProcsCollector` with the empty configuration,
the `ps` command of `Init` succeeding. -/
def defaultProcsCollector : TopProcsCollector :=
  (TopProcsCollector.Init true newTopProcsCollector none).1

/-! ## Lemmas on maps -/

theorem mapLookup_mapSet (t : StrMap) (k v k2 : String) :
    mapLookup (mapSet t k v) k2 = if k = k2 then some v else mapLookup t k2 := by
  induction t with
  | nil => simp [mapSet, mapLookup]
  | cons p r ih =>
    obtain ⟨a, b⟩ := p
    by_cases h1 : a = k
    · by_cases h2 : k = k2
      · simp [mapSet, mapLookup, h1, h2]
      · simp [mapSet, mapLookup, h1, h2]
    · by_cases h2 : a = k2
      · subst h2
        have h3 : ¬ k = a := fun h => h1 h.symm
        simp [mapSet, mapLookup, h1, h3]
      · simp [mapSet, mapLookup, h1, h2, ih]

theorem mapKeys_mapSet (t : StrMap) (k v : String) :
    mapKeys (mapSet t k v) = if k ∈ mapKeys t then mapKeys t else mapKeys t ++ [k] := by
  induction t with
  | nil => simp [mapSet, mapKeys]
  | cons p r ih =>
    obtain ⟨a, b⟩ := p
    simp only [mapKeys] at ih ⊢
    by_cases h1 : a = k
    · simp [mapSet, h1]
    · have h1b : ¬ k = a := fun h => h1 h.symm
      by_cases h2 : k ∈ List.map Prod.fst r
      · simp [mapSet, h1, h1b, h2, ih]
      · simp [mapSet, h1, h1b, h2, ih]

theorem mem_mapKeys_mapSet (t : StrMap) (k v k2 : String) :
    k2 ∈ mapKeys (mapSet t k v) ↔ k2 = k ∨ k2 ∈ mapKeys t := by
  rw [mapKeys_mapSet]
  by_cases h : k ∈ mapKeys t
  · simp only [h, if_true]
    constructor
    · intro h2; exact Or.inr h2
    · rintro (h2 | h2)
      · rw [h2]; exact h
      · exact h2
  · simp only [h, if_false, List.mem_append, List.mem_singleton]
    tauto

theorem nodup_mapKeys_mapSet (t : StrMap) (k v : String) (h : (mapKeys t).Nodup) :
    (mapKeys (mapSet t k v)).Nodup := by
  rw [mapKeys_mapSet]
  by_cases h2 : k ∈ mapKeys t
  · simpa [h2] using h
  · simp only [h2, if_false]
    rw [List.nodup_append]
    refine ⟨h, List.nodup_singleton k, ?_⟩
    intro a ha hb
    rw [List.mem_singleton] at hb
    exact h2 (hb ▸ ha)

theorem mapLookup_isSome_iff (t : StrMap) (k : String) :
    (mapLookup t k).isSome = true ↔ k ∈ mapKeys t := by
  induction t with
  | nil => simp [mapLookup, mapKeys]
  | cons p r ih =>
    obtain ⟨a, b⟩ := p
    simp only [mapKeys] at ih ⊢
    by_cases h1 : a = k
    · simp [mapLookup, h1]
    · have h1b : ¬ k = a := fun h => h1 h.symm
      simp [mapLookup, h1, h1b, ih]

theorem mapLookup_eq_none_iff (t : StrMap) (k : String) :
    mapLookup t k = none ↔ k ∉ mapKeys t := by
  rw [← mapLookup_isSome_iff]
  cases mapLookup t k <;> simp


theorem mem_mapKeys_foldl_mapSet {α : Type} (f g : α → String) (L : List α) (t : StrMap)
    (k : String) :
    k ∈ mapKeys (L.foldl (fun t x => mapSet t (f x) (g x)) t) ↔
      k ∈ mapKeys t ∨ ∃ x ∈ L, f x = k := by
  induction L generalizing t with
  | nil => simp
  | cons a L ih =>
    rw [List.foldl_cons, ih, mem_mapKeys_mapSet]
    constructor
    · rintro ((h | h) | ⟨x, hx, hk⟩)
      · exact Or.inr ⟨a, List.mem_cons_self _ _, h.symm⟩
      · exact Or.inl h
      · exact Or.inr ⟨x, List.mem_cons_of_mem _ hx, hk⟩
    · rintro (h | ⟨x, hx, hk⟩)
      · exact Or.inl (Or.inr h)
      · rcases List.mem_cons.mp hx with h | h
        · exact Or.inl (Or.inl (by rw [← hk, h]))
        · exact Or.inr ⟨x, h, hk⟩

theorem nodup_mapKeys_foldl_mapSet {α : Type} (f g : α → String) (L : List α) (t : StrMap)
    (h : (mapKeys t).Nodup) :
    (mapKeys (L.foldl (fun t x => mapSet t (f x) (g x)) t)).Nodup := by
  induction L generalizing t with
  | nil => simpa using h
  | cons a L ih =>
    rw [List.foldl_cons]
    exact ih _ (nodup_mapKeys_mapSet t _ _ h)

theorem mapLookup_foldl_mapSet {α : Type} (f g : α → String) (L : List α) (t : StrMap)
    (k v : String) (h : mapLookup (L.foldl (fun t x => mapSet t (f x) (g x)) t) k = some v) :
    (∃ x ∈ L, f x = k ∧ g x = v) ∨ mapLookup t k = some v := by
  induction L generalizing t with
  | nil => exact Or.inr (by simpa using h)
  | cons a L ih =>
    rw [List.foldl_cons] at h
    rcases ih _ h with ⟨x, hx, hk, hv⟩ | h2
    · exact Or.inl ⟨x, List.mem_cons_of_mem _ hx, hk, hv⟩
    · rw [mapLookup_mapSet] at h2
      by_cases h3 : f a = k
      · rw [if_pos h3] at h2
        exact Or.inl ⟨a, List.mem_cons_self _ _, h3, Option.some.inj h2⟩
      · rw [if_neg h3] at h2
        exact Or.inr h2

theorem mapLookup_foldl_mapSet_of_mem {α : Type} (f g : α → String) (L : List α) (t : StrMap)
    (x : α) (hx : x ∈ L ∨ mapLookup t (f x) = some (g x))
    (hinj : ∀ y ∈ L, f y = f x → g y = g x) :
    mapLookup (L.foldl (fun t x => mapSet t (f x) (g x)) t) (f x) = some (g x) := by
  induction L generalizing t with
  | nil =>
    rcases hx with hx | hx
    · cases hx
    · simpa using hx
  | cons a L ih =>
    rw [List.foldl_cons]
    apply ih
    · by_cases h3 : f a = f x
      · right
        rw [mapLookup_mapSet, if_pos h3, hinj a (List.mem_cons_self _ _) h3]
      · rcases hx with hx | hx
        · rcases List.mem_cons.mp hx with h | h
          · exact absurd (by rw [h]) h3
          · exact Or.inl h
        · right
          rw [mapLookup_mapSet, if_neg h3]
          exact hx
    · intro y hy
      exact hinj y (List.mem_cons_of_mem _ hy)

theorem mapLookup_some_mem_mapKeys (t : StrMap) (k v : String) (h : mapLookup t k = some v) :
    k ∈ mapKeys t := by
  rw [← mapLookup_isSome_iff, h]
  rfl

/-! ## Lemmas on the match table of the BeeGFS collector -/

theorem initMatches_eq (exclude : List String) :
    initMatches exclude =
      storageStat_array.foldl (fun t x => mapSet t (initKey exclude x) ((fun _ => "0") x)) [] := by
  unfold initMatches
  congr 1
  funext t x
  unfold initKey
  split <;> rfl

theorem mem_mapKeys_initMatches (exclude : List String) (k : String) :
    k ∈ mapKeys (initMatches exclude) ↔ ∃ x ∈ storageStat_array, initKey exclude x = k := by
  rw [initMatches_eq, mem_mapKeys_foldl_mapSet]
  simp [mapKeys]

theorem nodup_mapKeys_initMatches (exclude : List String) :
    (mapKeys (initMatches exclude)).Nodup := by
  rw [initMatches_eq]
  exact nodup_mapKeys_foldl_mapSet _ _ _ _ (by simp [mapKeys])

theorem mapLookup_initMatches (exclude : List String) (k v : String) :
    mapLookup (initMatches exclude) k = some v ↔
      v = "0" ∧ ∃ x ∈ storageStat_array, initKey exclude x = k := by
  constructor
  · intro h
    have hk := (mem_mapKeys_initMatches exclude k).mp (mapLookup_some_mem_mapKeys _ _ _ h)
    rw [initMatches_eq] at h
    rcases mapLookup_foldl_mapSet _ _ _ _ _ _ h with ⟨x, _, _, hv⟩ | h2
    · exact ⟨hv.symm, hk⟩
    · simp [mapLookup] at h2
  · rintro ⟨hv, x, hx, hk⟩
    rw [initMatches_eq, hv, ← hk]
    exact mapLookup_foldl_mapSet_of_mem (initKey exclude) (fun _ => "0") _ _ x (Or.inl hx)
      (fun _ _ _ => rfl)

theorem Init_matches (env : BeegfsInitEnv) (m : BeegfsStorageCollector)
    (config : Option BeegfsConfigJSON) (h0 : m.init = false)
    (herr : ∀ j, config = some j → j.err = false) :
    (BeegfsStorageCollector.Init env m config).1.matches_ =
      initMatches (BeegfsStorageCollector.Init env m config).1.config.ExcludeMetrics := by
  cases config with
  | none =>
    simp only [BeegfsStorageCollector.Init, h0]
    cases env.currentUid with
    | none => simp
    | some uid =>
      by_cases hu : uid = "0"
      · by_cases hl : env.lookPath env.DEFAULT_BEEGFS_CMD = true <;>
          simp [hu, hl, BeegfsStorageCollector.setup]
      · simp [hu]
  | some j =>
    have hj := herr j rfl
    simp only [BeegfsStorageCollector.Init, h0, hj]
    cases env.currentUid with
    | none => simp
    | some uid =>
      by_cases hu : uid = "0"
      · by_cases hl : env.lookPath (j.apply
            { m.config with Beegfs := env.DEFAULT_BEEGFS_CMD }).Beegfs = true <;>
          simp [hu, hl, BeegfsStorageCollector.setup]
      · simp [hu]

/-! ## The match table after Init (C3) -/

/-- C3, as amended: after `Init` has populated the match table (the collector was not
initialized and the configuration was decoded without error), the keys of the table are
pairwise distinct, and the table holds exactly: the value "0" under
`beegfs_cstorage_<x>` for each of the 18 known metrics `x` that is not in the exclusion
list, and the value "0" under `other` exactly when some known metric is in the exclusion
list. The exclusion list is the one of the configuration document when the document
sets it. -/
theorem init_populates_match_table (env : BeegfsInitEnv) (m : BeegfsStorageCollector)
    (config : Option BeegfsConfigJSON) (h0 : m.init = false)
    (herr : ∀ j, config = some j → j.err = false) :
    (∀ j E, config = some j → j.exclude_metrics = some E →
      (BeegfsStorageCollector.Init env m config).1.config.ExcludeMetrics = E) ∧
    (mapKeys (BeegfsStorageCollector.Init env m config).1.matches_).Nodup ∧
    ∀ k v, mapLookup (BeegfsStorageCollector.Init env m config).1.matches_ k = some v ↔
      v = "0" ∧
      ((∃ x ∈ storageStat_array,
          x ∉ (BeegfsStorageCollector.Init env m config).1.config.ExcludeMetrics ∧
          k = "beegfs_cstorage_" ++ x) ∨
       (k = "other" ∧ ∃ x ∈ storageStat_array,
          x ∈ (BeegfsStorageCollector.Init env m config).1.config.ExcludeMetrics)) := by
  refine ⟨?_, ?_, ?_⟩
  · intro j E hc hE
    subst hc
    have hj := herr j rfl
    simp only [BeegfsStorageCollector.Init, h0, hj]
    cases env.currentUid with
    | none => simp [BeegfsConfigJSON.apply, hE]
    | some uid =>
      by_cases hu : uid = "0"
      · by_cases hl : env.lookPath (j.beegfs_path.getD env.DEFAULT_BEEGFS_CMD) = true <;>
          simp [hu, hl, BeegfsStorageCollector.setup, BeegfsConfigJSON.apply, hE]
      · simp [hu, BeegfsConfigJSON.apply, hE]
  · rw [Init_matches env m config h0 herr]
    exact nodup_mapKeys_initMatches _
  · intro k v
    rw [Init_matches env m config h0 herr, mapLookup_initMatches]
    generalize (BeegfsStorageCollector.Init env m config).1.config.ExcludeMetrics = E
    constructor
    · rintro ⟨hv, x, hx, hk⟩
      refine ⟨hv, ?_⟩
      by_cases hE : x ∈ E
      · right
        refine ⟨?_, x, hx, hE⟩
        rw [← hk]
        simp [initKey, stringArrayContains, hE]
      · left
        refine ⟨x, hx, hE, ?_⟩
        rw [← hk]
        simp [initKey, stringArrayContains, hE]
    · rintro ⟨hv, ⟨x, hx, hE, hk⟩ | ⟨hk, x, hx, hE⟩⟩
      · exact ⟨hv, x, hx, by simp [initKey, stringArrayContains, hE, hk]⟩
      · exact ⟨hv, x, hx, by simp [initKey, stringArrayContains, hE, hk]⟩

/-- Witness for C3: with `exclude_metrics = ["sum"]` the table has the entry of `ack`
and the entry `other`, and none for `sum`. -/
theorem init_populates_match_table_witness :
    newBeegfsStorageCollector.init = false ∧
    (∀ j, some (excludeConfig ["sum"]) = some j → j.err = false) ∧
    mapLookup (BeegfsStorageCollector.Init rootInitEnv newBeegfsStorageCollector
      (some (excludeConfig ["sum"]))).1.matches_ "beegfs_cstorage_ack" = some "0" ∧
    mapLookup (BeegfsStorageCollector.Init rootInitEnv newBeegfsStorageCollector
      (some (excludeConfig ["sum"]))).1.matches_ "other" = some "0" ∧
    mapLookup (BeegfsStorageCollector.Init rootInitEnv newBeegfsStorageCollector
      (some (excludeConfig ["sum"]))).1.matches_ "beegfs_cstorage_sum" = none :=
  have h := init_populates_match_table rootInitEnv newBeegfsStorageCollector
    (some (excludeConfig ["sum"])) rfl (fun j hj => by cases hj; rfl)
  ⟨rfl, fun j hj => by cases hj; rfl,
    (h.2.2 "beegfs_cstorage_ack" "0").mpr ⟨rfl, Or.inl ⟨"ack", by decide, by decide, by decide⟩⟩,
    (h.2.2 "other" "0").mpr ⟨rfl, Or.inr ⟨rfl, "sum", by decide, by decide⟩⟩,
    by decide⟩

/-- Counterexample to C3 as stated: after a successful `Init` with an empty exclusion
list the table has its 18 entries and no entry `other`. -/
theorem init_without_exclusion_has_no_other :
    (BeegfsStorageCollector.Init rootInitEnv newBeegfsStorageCollector
      (some (excludeConfig []))).2 = none ∧
    (BeegfsStorageCollector.Init rootInitEnv newBeegfsStorageCollector
      (some (excludeConfig []))).1.init = true ∧
    (BeegfsStorageCollector.Init rootInitEnv newBeegfsStorageCollector
      (some (excludeConfig []))).1.matches_.length = 18 ∧
    mapLookup (BeegfsStorageCollector.Init rootInitEnv newBeegfsStorageCollector
      (some (excludeConfig []))).1.matches_ "other" = none := by
  decide

/-! ## Invariants of the match table during Read -/

theorem string_append_left_cancel (p a b : String) (h : p ++ a = p ++ b) : a = b := by
  have h2 := congrArg String.data h
  simp only [String.data_append] at h2
  exact String.ext (List.append_cancel_left h2)

theorem cstorage_name_not_known (l x : String) (hx : x ∈ storageStat_array) :
    "beegfs_cstorage_" ++ l ≠ x := by
  intro h
  have key : ∀ y ∈ storageStat_array,
      List.isPrefixOf "beegfs_cstorage_".data y.data = false := by decide
  have h2 := key x hx
  have h3 : List.isPrefixOf "beegfs_cstorage_".data x.data = true := by
    rw [List.isPrefixOf_iff_prefix, ← h, String.data_append]
    exact List.prefix_append _ _
  rw [h2] at h3
  exact Bool.noConfusion h3

theorem other_not_known : "other" ∉ storageStat_array := by decide

theorem mapGet_mapSet_of_ne (t : StrMap) (k v k2 : String) (h : k ≠ k2) :
    mapLookup (mapSet t k v) k2 = mapLookup t k2 := by
  rw [mapLookup_mapSet, if_neg h]

/-- The loop body leaves the table as it is, or writes under the record name of a word
that is no known metric. -/
theorem readPair_eq {F : Type} (ops : FloatOps F) (t : StrMap) (value label : String)
    (ht : ∀ k ∈ mapKeys t, k ∉ storageStat_array) :
    readPair ops t value label = t ∨
    ∃ l v, l ∉ storageStat_array ∧
      readPair ops t value label = mapSet t ("beegfs_cstorage_" ++ l) v := by
  unfold readPair
  by_cases h : (mapLookup t label).isSome = true
  · right
    refine ⟨label, value, ht label ((mapLookup_isSome_iff t label).mp h), ?_⟩
    simp [h]
  · simp only [h]
    by_cases h1 : (ops.ParseFloat (mapGet t "other")).2 = true
    · by_cases h2 : (ops.ParseFloat value).2 = true
      · right
        exact ⟨"other",
          ops.Sprintf (ops.add (ops.ParseFloat (mapGet t "other")).1 (ops.ParseFloat value).1),
          other_not_known, by simp [h1, h2]⟩
      · left
        simp [h1, h2]
    · left
      simp [h1]

theorem TableInv_mapSet (E : List String) (t : StrMap) (l v : String)
    (hl : l ∉ storageStat_array) (ht : TableInv E t) :
    TableInv E (mapSet t ("beegfs_cstorage_" ++ l) v) := by
  obtain ⟨h1, h2, h3⟩ := ht
  refine ⟨nodup_mapKeys_mapSet t _ _ h1, ?_, ?_⟩
  · intro k hk
    rcases (mem_mapKeys_mapSet t _ _ k).mp hk with hk | hk
    · subst hk
      refine ⟨fun hmem => cstorage_name_not_known l _ hmem rfl, ?_⟩
      intro x hx _ heq
      exact hl (string_append_left_cancel _ _ _ heq ▸ hx)
    · exact h2 k hk
  · intro x hx hE
    exact (mem_mapKeys_mapSet t _ _ _).mpr (Or.inr (h3 x hx hE))

theorem TableInv_readPair {F : Type} (ops : FloatOps F) (E : List String) (t : StrMap)
    (value label : String) (ht : TableInv E t) : TableInv E (readPair ops t value label) := by
  rcases readPair_eq ops t value label (fun k hk => (ht.2.1 k hk).1) with h | ⟨l, v, hl, h⟩
  · rw [h]; exact ht
  · rw [h]; exact TableInv_mapSet E t l v hl ht

theorem TableInv_readPairs {F : Type} (ops : FloatOps F) (E : List String) :
    ∀ (toks : List String) (t : StrMap), TableInv E t → TableInv E (readPairs ops t toks).1
  | [], t, ht => by simpa [readPairs] using ht
  | [_], t, ht => by simpa [readPairs] using ht
  | value :: label :: rest, t, ht => by
    rw [readPairs]
    exact TableInv_readPairs ops E rest _ (TableInv_readPair ops E t value label ht)

/-- The loop body keeps the entry of every known metric. -/
theorem mapLookup_readPair_known {F : Type} (ops : FloatOps F) (t : StrMap)
    (value label x : String) (ht : ∀ k ∈ mapKeys t, k ∉ storageStat_array)
    (hx : x ∈ storageStat_array) :
    mapLookup (readPair ops t value label) ("beegfs_cstorage_" ++ x) =
      mapLookup t ("beegfs_cstorage_" ++ x) := by
  rcases readPair_eq ops t value label ht with h | ⟨l, v, hl, h⟩
  · rw [h]
  · rw [h, mapLookup_mapSet, if_neg]
    intro heq
    exact hl (string_append_left_cancel _ _ _ heq ▸ hx)

theorem mapLookup_readPairs_known {F : Type} (ops : FloatOps F) (E : List String) (x : String)
    (hx : x ∈ storageStat_array) :
    ∀ (toks : List String) (t : StrMap), TableInv E t →
      mapLookup (readPairs ops t toks).1 ("beegfs_cstorage_" ++ x) =
        mapLookup t ("beegfs_cstorage_" ++ x)
  | [], t, _ => by simp [readPairs]
  | [_], t, _ => by simp [readPairs]
  | value :: label :: rest, t, ht => by
    rw [readPairs, mapLookup_readPairs_known ops E x hx rest _
      (TableInv_readPair ops E t value label ht)]
    exact mapLookup_readPair_known ops t value label x (fun k hk => (ht.2.1 k hk).1) hx

theorem TableInv_initMatches (E : List String) : TableInv E (initMatches E) := by
  refine ⟨nodup_mapKeys_initMatches E, ?_, ?_⟩
  · intro k hk
    obtain ⟨y, hy, hky⟩ := (mem_mapKeys_initMatches E k).mp hk
    by_cases hE : y ∈ E
    · have : k = "other" := by rw [← hky]; simp [initKey, stringArrayContains, hE]
      subst this
      refine ⟨other_not_known, ?_⟩
      intro x _ _ heq
      have key : List.isPrefixOf "beegfs_cstorage_".data "other".data = false := by decide
      have h3 : List.isPrefixOf "beegfs_cstorage_".data "other".data = true := by
        rw [List.isPrefixOf_iff_prefix, heq, String.data_append]
        exact List.prefix_append _ _
      rw [key] at h3
      exact Bool.noConfusion h3
    · have : k = "beegfs_cstorage_" ++ y := by
        rw [← hky]; simp [initKey, stringArrayContains, hE]
      subst this
      refine ⟨fun hmem => cstorage_name_not_known y _ hmem rfl, ?_⟩
      intro x _ hxE heq
      exact hE (string_append_left_cancel _ _ _ heq ▸ hxE)
  · intro x hx hE
    exact (mem_mapKeys_initMatches E _).mpr ⟨x, hx, by simp [initKey, stringArrayContains, hE]⟩

/-- A successful `Init` read its configuration without error. -/
theorem Init_ok_err (env : BeegfsInitEnv) (m : BeegfsStorageCollector)
    (config : Option BeegfsConfigJSON) (h0 : m.init = false)
    (hok : (BeegfsStorageCollector.Init env m config).2 = none) :
    ∀ j, config = some j → j.err = false := by
  intro j hj
  subst hj
  by_contra hne
  have hj : j.err = true := by simpa using hne
  simp [BeegfsStorageCollector.Init, h0, hj] at hok

theorem readLine_collector {F : Type} (ops : FloatOps F) (m : BeegfsStorageCollector)
    (line : List Char) (r : ReadResult F) (h : readLine ops m line = some r) :
    r.collector.config = m.config ∧ r.collector.tags = m.tags ∧ r.collector.meta = m.meta ∧
    r.collector.init = m.init ∧
    (∃ toks, r.collector.matches_ = (readPairs ops m.matches_ toks).1) ∧
    (r.output = [] ∨ (r.panicked = false ∧ r.output = emitMatches ops r.collector)) := by
  unfold readLine at h
  by_cases hs : sumLine line = true
  · simp only [hs] at h
    cases hst : statsLine line with
    | none =>
      simp [hst] at h
      subst h
      exact ⟨rfl, rfl, rfl, rfl, ⟨[], by simp [readPairs]⟩, Or.inl rfl⟩
    | some g =>
      simp only [hst] at h
      by_cases hp : (readPairs ops m.matches_ (splitStats g)).2 = true
      · simp [hp] at h
        subst h
        exact ⟨rfl, rfl, rfl, rfl, ⟨splitStats g, rfl⟩, Or.inl rfl⟩
      · simp [hp] at h
        subst h
        exact ⟨rfl, rfl, rfl, rfl, ⟨splitStats g, rfl⟩, Or.inr ⟨rfl, rfl⟩⟩
  · simp [hs] at h

theorem Reachable_TableInv {F : Type} (ops : FloatOps F) (m : BeegfsStorageCollector)
    (hm : Reachable ops m) : TableInv m.config.ExcludeMetrics m.matches_ := by
  induction hm with
  | init env m config h0 hok =>
    rw [Init_matches env m config h0 (Init_ok_err env m config h0 hok)]
    exact TableInv_initMatches _
  | mount m mp _ ih => exact ih
  | line m line r _ hr ih =>
    obtain ⟨hc, _, _, _, ⟨toks, ht⟩, _⟩ := readLine_collector ops m line r hr
    rw [hc, ht]
    exact TableInv_readPairs ops _ toks _ ih

/-! ## The records Read emits -/

theorem mapLookup_of_mem (t : StrMap) (k v : String) (hn : (mapKeys t).Nodup)
    (h : (k, v) ∈ t) : mapLookup t k = some v := by
  induction t with
  | nil => cases h
  | cons p r ih =>
    obtain ⟨a, b⟩ := p
    simp only [mapKeys, List.map_cons, List.nodup_cons] at hn
    rcases List.mem_cons.mp h with h1 | h1
    · cases h1
      simp [mapLookup]
    · have hne : a ≠ k := by
        intro hak
        apply hn.1
        rw [hak]
        exact List.mem_map.mpr ⟨(k, v), h1, rfl⟩
      simp only [mapLookup, if_neg hne]
      exact ih hn.2 h1

theorem emitMatches_names {F : Type} (ops : FloatOps F) (m : BeegfsStorageCollector) :
    (emitMatches ops m).map (fun r => r.name) = mapKeys m.matches_ := by
  simp [emitMatches, mapKeys, Function.comp_def]

theorem readLines_reachable {F : Type} (ops : FloatOps F) :
    ∀ (lines : List (List Char)) (m : BeegfsStorageCollector), Reachable ops m →
      Reachable ops (readLines ops m lines).collector ∧
      (readLines ops m lines).collector.config = m.config ∧
      ∀ rec ∈ (readLines ops m lines).output,
        ∃ m2, Reachable ops m2 ∧ m2.config = m.config ∧ rec ∈ emitMatches ops m2
  | [], m, hm => by simp [readLines, hm]
  | line :: rest, m, hm => by
    rw [readLines]
    cases hr : readLine ops m line with
    | none => exact readLines_reachable ops rest m hm
    | some r1 =>
      have hr1 : Reachable ops r1.collector := Reachable.line m line r1 hm hr
      obtain ⟨hc, _, _, _, _, hout⟩ := readLine_collector ops m line r1 hr
      have hmem : ∀ rec ∈ r1.output,
          ∃ m2, Reachable ops m2 ∧ m2.config = m.config ∧ rec ∈ emitMatches ops m2 := by
        intro rec hrec
        rcases hout with h | ⟨_, h⟩
        · rw [h] at hrec; cases hrec
        · exact ⟨r1.collector, hr1, hc, h ▸ hrec⟩
      by_cases hp : r1.panicked = true
      · simp only [hp, if_true]
        exact ⟨hr1, hc, hmem⟩
      · simp only [hp]
        obtain ⟨h1, h2, h3⟩ := readLines_reachable ops rest r1.collector hr1
        refine ⟨h1, h2.trans hc, ?_⟩
        intro rec hrec
        rcases List.mem_append.mp hrec with h | h
        · exact hmem rec h
        · obtain ⟨m2, ha, hb, hd⟩ := h3 rec h
          exact ⟨m2, ha, hb.trans hc, hd⟩

theorem readMounts_reachable {F : Type} (ops : FloatOps F) (env : BeegfsReadEnv) :
    ∀ (mps : List String) (n : Nat) (m : BeegfsStorageCollector), Reachable ops m →
      Reachable ops (readMounts ops env n m mps).collector ∧
      (readMounts ops env n m mps).collector.config = m.config ∧
      ∀ rec ∈ (readMounts ops env n m mps).output,
        ∃ m2, Reachable ops m2 ∧ m2.config = m.config ∧ rec ∈ emitMatches ops m2
  | [], n, m, hm => by simp [readMounts, hm]
  | mp :: rest, n, m, hm => by
    have hm1 : Reachable ops { m with tags := mapSet m.tags "filesystem" mp } :=
      Reachable.mount m mp hm
    rw [readMounts]
    simp only
    cases hrun : env.run n [m.config.Beegfs, "--clientstats", "--nodetype=storage",
        "--mount=" ++ mp, "--allstats"] with
    | none => simp [hm1]
    | some stdout =>
      simp only
      obtain ⟨h1, h2, h3⟩ := readLines_reachable ops (scanLines stdout.data) _ hm1
      by_cases hp : (readLines ops { m with tags := mapSet m.tags "filesystem" mp }
          (scanLines stdout.data)).panicked = true
      · simp only [hp, if_true]
        exact ⟨h1, h2, h3⟩
      · simp only [hp]
        obtain ⟨k1, k2, k3⟩ := readMounts_reachable ops env rest (n + 1) _ h1
        refine ⟨k1, k2.trans h2, ?_⟩
        intro rec hrec
        rcases List.mem_append.mp hrec with h | h
        · exact h3 rec h
        · obtain ⟨m2, ha, hb, hd⟩ := k3 rec h
          exact ⟨m2, ha, hb.trans h2, hd⟩

theorem Read_reachable {F : Type} (ops : FloatOps F) (env : BeegfsReadEnv)
    (m : BeegfsStorageCollector) (hm : Reachable ops m) :
    Reachable ops (BeegfsStorageCollector.Read ops env m).collector ∧
    (BeegfsStorageCollector.Read ops env m).collector.config = m.config ∧
    ∀ rec ∈ (BeegfsStorageCollector.Read ops env m).output,
      ∃ m2, Reachable ops m2 ∧ m2.config = m.config ∧ rec ∈ emitMatches ops m2 := by
  unfold BeegfsStorageCollector.Read
  by_cases hi : m.init = true
  · simp only [hi]
    cases mountpoints m.skipFS (splitChar '\n' env.mounts.data) with
    | none => simp [hm]
    | some mps =>
      by_cases he : mps.isEmpty = true
      · simp [he, hm]
      · simp only [he]
        exact readMounts_reachable ops env mps 0 m hm
  · simp [hi, hm]

/-! ## No record for an excluded metric (C4) -/

/-- C4: for every state of the collector after a successful `Init` (and any processing
of lines since), whatever its exclusion list and whatever the mount table and the command
outputs of the tick, `Read` sends no record whose name is `beegfs_cstorage_<x>` for a known
metric `x` of the exclusion list; the state after `Read` is again such a state, with the
same configuration, so this holds tick after tick. -/
theorem read_never_emits_excluded_metric {F : Type} (ops : FloatOps F) (env : BeegfsReadEnv)
    (m : BeegfsStorageCollector) (hm : Reachable ops m) (x : String)
    (hx : x ∈ storageStat_array) (hE : x ∈ m.config.ExcludeMetrics) :
    "beegfs_cstorage_" ++ x ∉
      (BeegfsStorageCollector.Read ops env m).output.map (fun r => r.name) ∧
    Reachable ops (BeegfsStorageCollector.Read ops env m).collector ∧
    (BeegfsStorageCollector.Read ops env m).collector.config = m.config := by
  obtain ⟨h1, h2, h3⟩ := Read_reachable ops env m hm
  refine ⟨?_, h1, h2⟩
  intro hmem
  obtain ⟨rec, hrec, hname⟩ := List.mem_map.mp hmem
  obtain ⟨m2, hr2, hc2, hin⟩ := h3 rec hrec
  have hk : rec.name ∈ mapKeys m2.matches_ := by
    rw [← emitMatches_names ops m2]
    exact List.mem_map.mpr ⟨rec, hin, rfl⟩
  have hinv := Reachable_TableInv ops m2 hr2
  rw [hc2] at hinv
  exact (hinv.2.1 _ hk).2 x hx hE hname

/-- Witness for C4: the collector excludes `sum`, the command output has the label `sum`;
the tick sends 19 records, none named `beegfs_cstorage_sum`. -/
theorem read_never_emits_excluded_metric_witness :
    Reachable decimalOps (BeegfsStorageCollector.Init rootInitEnv newBeegfsStorageCollector
      (some (excludeConfig ["sum"]))).1 ∧
    "sum" ∈ storageStat_array ∧
    (BeegfsStorageCollector.Read decimalOps (oneMountEnv "Sum: 42 [sum] 10 [ack]")
      (BeegfsStorageCollector.Init rootInitEnv newBeegfsStorageCollector
        (some (excludeConfig ["sum"]))).1).output.length = 19 ∧
    "beegfs_cstorage_" ++ "sum" ∉
      (BeegfsStorageCollector.Read decimalOps (oneMountEnv "Sum: 42 [sum] 10 [ack]")
        (BeegfsStorageCollector.Init rootInitEnv newBeegfsStorageCollector
          (some (excludeConfig ["sum"]))).1).output.map (fun r => r.name) :=
  ⟨Reachable.init _ _ _ rfl (by decide), by decide, by decide,
    (read_never_emits_excluded_metric decimalOps (oneMountEnv "Sum: 42 [sum] 10 [ack]")
      (BeegfsStorageCollector.Init rootInitEnv newBeegfsStorageCollector
        (some (excludeConfig ["sum"]))).1
      (Reachable.init _ _ _ rfl (by decide)) "sum" (by decide) (by decide)).1⟩

/-! ## One record per key for a selected line -/

/-- One record per key for a selected line processed without failure: let the collector
be in a state after a successful `Init` (and any processing since), and let the loop over
the mount points have set the tag `filesystem` to the mount point of the current
iteration. When the pairs of a selected line are processed without a runtime failure, the
records sent for the line are one per key of the match table as it is after the pairs, the
keys being pairwise distinct; every record carries the tag `filesystem` of the current
mount point and the parsed value of its entry; and every known metric that is not excluded
has a record, which carries the value its entry had before the line. -/
theorem selected_line_emits_every_key {F : Type} (ops : FloatOps F)
    (m : BeegfsStorageCollector) (hm : Reachable ops m) (mountpoint : String)
    (line : List Char) (r : ReadResult F)
    (hr : readLine ops { m with tags := mapSet m.tags "filesystem" mountpoint } line = some r)
    (hp : r.panicked = false) :
    r.output.map (fun rec => rec.name) = mapKeys r.collector.matches_ ∧
    (mapKeys r.collector.matches_).Nodup ∧
    (∀ rec ∈ r.output, mapLookup rec.tags "filesystem" = some mountpoint ∧
      ∃ data, mapLookup r.collector.matches_ rec.name = some data ∧
        rec.value = (ops.ParseFloat data).1) ∧
    (∀ x ∈ storageStat_array, x ∉ m.config.ExcludeMetrics →
      ∃ rec ∈ r.output, rec.name = "beegfs_cstorage_" ++ x ∧
        ∃ data, mapLookup m.matches_ ("beegfs_cstorage_" ++ x) = some data ∧
          rec.value = (ops.ParseFloat data).1) := by
  have hm1 : Reachable ops { m with tags := mapSet m.tags "filesystem" mountpoint } :=
    Reachable.mount m mountpoint hm
  have hr1 : Reachable ops r.collector := Reachable.line _ line r hm1 hr
  have hinv := Reachable_TableInv ops r.collector hr1
  have hinv0 := Reachable_TableInv ops m hm
  obtain ⟨hc, htags, _, _, ⟨toks, htoks⟩, hout⟩ := readLine_collector ops _ line r hr
  have hout2 : r.output = emitMatches ops r.collector := by
    unfold readLine at hr
    by_cases hs : sumLine line = true
    · simp only [hs] at hr
      cases hst : statsLine line with
      | none =>
        simp [hst] at hr
        subst hr
        simp at hp
      | some g =>
        simp only [hst] at hr
        by_cases hq : (readPairs ops m.matches_ (splitStats g)).2 = true
        · simp [hq] at hr
          subst hr
          simp at hp
        · simp [hq] at hr
          subst hr
          rfl
    · simp [hs] at hr
  have hvals : ∀ rec ∈ r.output, mapLookup rec.tags "filesystem" = some mountpoint ∧
      ∃ data, mapLookup r.collector.matches_ rec.name = some data ∧
        rec.value = (ops.ParseFloat data).1 := by
    intro rec hrec
    rw [hout2] at hrec
    obtain ⟨kd, hkd, hrfl⟩ := List.mem_map.mp hrec
    subst hrfl
    refine ⟨?_, kd.2, mapLookup_of_mem _ _ _ hinv.1 hkd, rfl⟩
    simp only [htags]
    rw [mapLookup_mapSet, if_pos rfl]
  refine ⟨?_, hinv.1, hvals, ?_⟩
  · rw [hout2]
    exact emitMatches_names ops r.collector
  · intro x hx hE
    have hkey : "beegfs_cstorage_" ++ x ∈ mapKeys r.collector.matches_ := by
      have := hinv.2.2 x hx
      rw [hc] at this
      exact this hE
    have hnames : "beegfs_cstorage_" ++ x ∈ r.output.map (fun rec => rec.name) := by
      rw [hout2, emitMatches_names]
      exact hkey
    obtain ⟨rec, hrec, hname⟩ := List.mem_map.mp hnames
    obtain ⟨_, data, hd, hv⟩ := hvals rec hrec
    refine ⟨rec, hrec, hname, data, ?_, hv⟩
    have hkeep := mapLookup_readPairs_known ops m.config.ExcludeMetrics x hx toks
      m.matches_ hinv0
    simp only at htoks
    rw [← hkeep, ← htoks, ← hname]
    exact hd

/-! ## Known labels are not stored (C1) -/

/-- C1, the code at the failing input: after `Init` without exclusions, a tick whose
command prints `Sum: 42 [x] 10 ack 5 sum` runs without failure and sends 18 records; the
entries of `ack` and `sum` are still "0" and their records carry the value 0 (with the
tag of the mount point), not 10 and 5: the labels `ack` and `sum` are looked up without
the front part `beegfs_cstorage_` of the keys, so they are never found. -/
theorem known_labels_are_not_stored :
    (BeegfsStorageCollector.Read decimalOps (oneMountEnv "Sum: 42 [x] 10 ack 5 sum")
      (initializedCollector [])).panicked = false ∧
    (BeegfsStorageCollector.Read decimalOps (oneMountEnv "Sum: 42 [x] 10 ack 5 sum")
      (initializedCollector [])).output.length = 18 ∧
    mapLookup (initializedCollector []).matches_ "ack" = none ∧
    mapLookup (BeegfsStorageCollector.Read decimalOps (oneMountEnv "Sum: 42 [x] 10 ack 5 sum")
      (initializedCollector [])).collector.matches_ "beegfs_cstorage_ack" = some "0" ∧
    mapLookup (BeegfsStorageCollector.Read decimalOps (oneMountEnv "Sum: 42 [x] 10 ack 5 sum")
      (initializedCollector [])).collector.matches_ "beegfs_cstorage_sum" = some "0" ∧
    recordsNamed "beegfs_cstorage_ack"
      (BeegfsStorageCollector.Read decimalOps (oneMountEnv "Sum: 42 [x] 10 ack 5 sum")
        (initializedCollector [])).output = [(0, some "/mnt/beeond")] ∧
    recordsNamed "beegfs_cstorage_sum"
      (BeegfsStorageCollector.Read decimalOps (oneMountEnv "Sum: 42 [x] 10 ack 5 sum")
        (initializedCollector [])).output = [(0, some "/mnt/beeond")] := by
  decide

/-! ## Unmatched pairs (C2) -/

theorem mapLookup_initMatches_unknown (E : List String) (l : String)
    (h1 : l ≠ "other") (h2 : List.isPrefixOf "beegfs_cstorage_".data l.data = false) :
    mapLookup (initMatches E) l = none := by
  rw [mapLookup_eq_none_iff, mem_mapKeys_initMatches]
  rintro ⟨x, _, hk⟩
  unfold initKey at hk
  split at hk
  · exact h1 hk.symm
  · have h3 : List.isPrefixOf "beegfs_cstorage_".data l.data = true := by
      rw [List.isPrefixOf_iff_prefix, ← hk, String.data_append]
      exact List.prefix_append _ _
    rw [h2] at h3
    exact Bool.noConfusion h3

theorem cstorage_name_ne_other (l : String) : "beegfs_cstorage_" ++ l ≠ "other" := by
  intro h
  have h2 := congrArg String.length h
  rw [String.length_append] at h2
  have h3 : "beegfs_cstorage_".length = 16 := by decide
  have h4 : "other".length = 5 := by decide
  omega

/-- The loop body never writes the entry `other`. -/
theorem readPair_other {F : Type} (ops : FloatOps F) (t : StrMap) (value label : String) :
    mapLookup (readPair ops t value label) "other" = mapLookup t "other" := by
  unfold readPair
  split
  · exact mapGet_mapSet_of_ne t _ _ _ (cstorage_name_ne_other label)
  · simp only
    split
    · rfl
    · split
      · rfl
      · exact mapGet_mapSet_of_ne t _ _ _ (by decide)

theorem readPairs_other {F : Type} (ops : FloatOps F) :
    ∀ (toks : List String) (t : StrMap),
      mapLookup (readPairs ops t toks).1 "other" = mapLookup t "other"
  | [], _ => rfl
  | [_], _ => rfl
  | value :: label :: rest, t => by
    rw [readPairs, readPairs_other ops rest, readPair_other]

theorem readLine_other {F : Type} (ops : FloatOps F) (m : BeegfsStorageCollector)
    (line : List Char) (r : ReadResult F) (h : readLine ops m line = some r) :
    mapLookup r.collector.matches_ "other" = mapLookup m.matches_ "other" := by
  obtain ⟨_, _, _, _, ⟨toks, ht⟩, _⟩ := readLine_collector ops m line r h
  rw [ht, readPairs_other]

theorem readLines_other {F : Type} (ops : FloatOps F) :
    ∀ (lines : List (List Char)) (m : BeegfsStorageCollector),
      mapLookup (readLines ops m lines).collector.matches_ "other" =
        mapLookup m.matches_ "other"
  | [], _ => rfl
  | line :: rest, m => by
    rw [readLines]
    cases hr : readLine ops m line with
    | none => exact readLines_other ops rest m
    | some r1 =>
      have h1 := readLine_other ops m line r1 hr
      by_cases hp : r1.panicked = true
      · simp only [hp, if_true]
        exact h1
      · simp only [hp]
        exact (readLines_other ops rest r1.collector).trans h1

theorem readMounts_other {F : Type} (ops : FloatOps F) (env : BeegfsReadEnv) :
    ∀ (mps : List String) (n : Nat) (m : BeegfsStorageCollector),
      mapLookup (readMounts ops env n m mps).collector.matches_ "other" =
        mapLookup m.matches_ "other"
  | [], _, _ => rfl
  | mp :: rest, n, m => by
    rw [readMounts]
    simp only
    cases hrun : env.run n [m.config.Beegfs, "--clientstats", "--nodetype=storage",
        "--mount=" ++ mp, "--allstats"] with
    | none => rfl
    | some stdout =>
      simp only
      have h1 := readLines_other ops (scanLines stdout.data)
        { m with tags := mapSet m.tags "filesystem" mp }
      by_cases hp : (readLines ops { m with tags := mapSet m.tags "filesystem" mp }
          (scanLines stdout.data)).panicked = true
      · simp only [hp, if_true]
        exact h1
      · simp only [hp]
        exact (readMounts_other ops env rest (n + 1) _).trans h1

theorem Read_other {F : Type} (ops : FloatOps F) (env : BeegfsReadEnv)
    (m : BeegfsStorageCollector) :
    mapLookup (BeegfsStorageCollector.Read ops env m).collector.matches_ "other" =
      mapLookup m.matches_ "other" := by
  unfold BeegfsStorageCollector.Read
  split
  · rfl
  · split
    · rfl
    · split
      · rfl
      · exact readMounts_other ops env _ 0 m

/-- C2, the code at the failing input. With `sum` excluded (so that the entry `other`
exists, with the value "0"), the output `Sum: 1 [x] 5 foo 3 bar` is cut into the three
pairs (1, x), (5, foo), (3, bar), none of whose labels is a key of the table, whatever the
exclusion list. After the tick the entry `other` is still "0", the entry
`beegfs_cstorage_other` is "3.000000", and the records carry 0 and 3, not 8; without
exclusions there is no entry `other` and no entry `beegfs_cstorage_other` at all. The
cause: for a pair whose label is not a key, the loop body reads the entry `other` and
writes the sum under the key `beegfs_cstorage_other`; no tick ever changes the entry
`other`, so the values are not summed. -/
theorem other_does_not_end_at_eight :
    (statsLine "Sum: 1 [x] 5 foo 3 bar".data).map splitStats =
      some ["1", "x", "5", "foo", "3", "bar"] ∧
    mapLookup (initializedCollector ["sum"]).matches_ "other" = some "0" ∧
    mapLookup (BeegfsStorageCollector.Read decimalOps (oneMountEnv "Sum: 1 [x] 5 foo 3 bar")
      (initializedCollector ["sum"])).collector.matches_ "other" = some "0" ∧
    mapLookup (BeegfsStorageCollector.Read decimalOps (oneMountEnv "Sum: 1 [x] 5 foo 3 bar")
      (initializedCollector ["sum"])).collector.matches_ "beegfs_cstorage_other" =
        some "3.000000" ∧
    recordsNamed "other"
      (BeegfsStorageCollector.Read decimalOps (oneMountEnv "Sum: 1 [x] 5 foo 3 bar")
        (initializedCollector ["sum"])).output = [(0, some "/mnt/beeond")] ∧
    recordsNamed "beegfs_cstorage_other"
      (BeegfsStorageCollector.Read decimalOps (oneMountEnv "Sum: 1 [x] 5 foo 3 bar")
        (initializedCollector ["sum"])).output = [(3, some "/mnt/beeond")] ∧
    mapLookup (BeegfsStorageCollector.Read decimalOps (oneMountEnv "Sum: 1 [x] 5 foo 3 bar")
      (initializedCollector [])).collector.matches_ "other" = none ∧
    mapLookup (BeegfsStorageCollector.Read decimalOps (oneMountEnv "Sum: 1 [x] 5 foo 3 bar")
      (initializedCollector [])).collector.matches_ "beegfs_cstorage_other" = none ∧
    (∀ (E : List String), ∀ l ∈ ["x", "foo", "bar"], mapLookup (initMatches E) l = none) ∧
    (∀ (F : Type) (ops : FloatOps F) (t : StrMap) (value label : String),
      mapLookup t label = none →
      (ops.ParseFloat (mapGet t "other")).2 = true → (ops.ParseFloat value).2 = true →
      readPair ops t value label =
        mapSet t "beegfs_cstorage_other"
          (ops.Sprintf
            (ops.add (ops.ParseFloat (mapGet t "other")).1 (ops.ParseFloat value).1))) ∧
    (∀ (F : Type) (ops : FloatOps F) (env : BeegfsReadEnv) (m : BeegfsStorageCollector),
      mapLookup (BeegfsStorageCollector.Read ops env m).collector.matches_ "other" =
        mapLookup m.matches_ "other") := by
  refine ⟨by decide, by decide, by decide, by decide, by decide, by decide, by decide,
    by decide, ?_, ?_, ?_⟩
  · intro E l hl
    simp only [List.mem_cons, List.mem_singleton, List.not_mem_nil, or_false] at hl
    rcases hl with rfl | rfl | rfl <;>
      exact mapLookup_initMatches_unknown E _ (by decide) (by decide)
  · intro F ops t value label h h1 h2
    simp [readPair, h, h1, h2]
  · intro F ops env m
    exact Read_other ops env m

/-! ## Keys created during Read (C6) -/

/-- C6, the code at the failing input: after `Init` with `sum` excluded the table has 18
keys, `beegfs_cstorage_other` not among them; a tick whose command prints `Sum: 1 [x]`
runs without failure and leaves a table of 19 keys, with the new key
`beegfs_cstorage_other`: the unmatched pair reads the entry `other` and writes its sum
under another name. -/
theorem read_creates_key :
    (mapKeys (initializedCollector ["sum"]).matches_).length = 18 ∧
    "beegfs_cstorage_other" ∉ mapKeys (initializedCollector ["sum"]).matches_ ∧
    (BeegfsStorageCollector.Read decimalOps (oneMountEnv "Sum: 1 [x]")
      (initializedCollector ["sum"])).panicked = false ∧
    (mapKeys (BeegfsStorageCollector.Read decimalOps (oneMountEnv "Sum: 1 [x]")
      (initializedCollector ["sum"])).collector.matches_).length = 19 ∧
    mapLookup (BeegfsStorageCollector.Read decimalOps (oneMountEnv "Sum: 1 [x]")
      (initializedCollector ["sum"])).collector.matches_ "beegfs_cstorage_other" =
        some "1.000000" := by
  decide

/-! ## Lines with an odd number of tokens (C7) -/

theorem readPairs_odd {F : Type} (ops : FloatOps F) :
    ∀ (toks : List String) (t : StrMap), toks.length % 2 = 1 → (readPairs ops t toks).2 = true
  | [], _, h => by simp at h
  | [_], _, _ => by simp [readPairs]
  | value :: label :: rest, t, h => by
    rw [readPairs]
    apply readPairs_odd ops rest
    simp only [List.length_cons] at h
    omega

/-- C7, the code at the failing input: the line `Sum: 42 [x] 7` is selected and has the
three tokens 42, x, 7; the loop over the tokens reads `split[3]` past the end of the
slice, so the tick stops with a runtime failure and sends no record. The same holds for
every token list of odd length. -/
theorem odd_token_count_fails :
    sumLine "Sum: 42 [x] 7".data = true ∧
    (statsLine "Sum: 42 [x] 7".data).map splitStats = some ["42", "x", "7"] ∧
    (BeegfsStorageCollector.Read decimalOps (oneMountEnv "Sum: 42 [x] 7")
      (initializedCollector [])).panicked = true ∧
    (BeegfsStorageCollector.Read decimalOps (oneMountEnv "Sum: 42 [x] 7")
      (initializedCollector [])).output = [] ∧
    ∀ (F : Type) (ops : FloatOps F) (t : StrMap) (toks : List String), toks.length % 2 = 1 →
      (readPairs ops t toks).2 = true :=
  ⟨by decide, by decide, by decide, by decide,
    fun _ ops t toks h => readPairs_odd ops toks t h⟩

/-! ## Selected lines with an odd number of tokens (C5) -/

theorem splitChar_no_sep (sep : Char) :
    ∀ (l : List Char), ∀ seg ∈ splitChar sep l, sep ∉ seg
  | [], seg, h => by
    simp only [splitChar, List.mem_singleton] at h
    subst h
    exact List.not_mem_nil _
  | c :: cs, seg, h => by
    have ih := splitChar_no_sep sep cs
    rw [splitChar] at h
    by_cases hc : c = sep
    · simp only [hc, if_true, List.mem_cons] at h
      rcases h with h | h
      · subst h
        exact List.not_mem_nil _
      · exact ih seg h
    · simp only [hc, if_false] at h
      cases hs : splitChar sep cs with
      | nil =>
        simp only [hs, List.mem_singleton] at h
        subst h
        simp only [List.mem_singleton]
        exact fun e => hc e.symm
      | cons x t =>
        simp only [hs, List.mem_cons] at h
        rcases h with h | h
        · subst h
          have hx := ih x (by rw [hs]; exact List.mem_cons_self _ _)
          simp only [List.mem_cons, not_or]
          exact ⟨fun e => hc e.symm, hx⟩
        · exact ih seg (by rw [hs]; exact List.mem_cons_of_mem _ h)

theorem mem_of_mem_dropCR (l : List Char) (x : Char) (h : x ∈ dropCR l) : x ∈ l := by
  unfold dropCR at h
  split at h
  · rename_i r hr
    have : x ∈ l.reverse := by
      rw [hr]
      exact List.mem_cons_of_mem _ (List.mem_reverse.mp h)
    exact List.mem_reverse.mp this
  · exact h

theorem getLastD_mem_or_nil (segs : List (List Char)) :
    segs.getLastD [] ∈ segs ∨ segs.getLastD [] = [] := by
  cases segs with
  | nil => exact Or.inr rfl
  | cons a t =>
    left
    rw [List.getLastD_cons]
    cases t with
    | nil => simp
    | cons b t2 =>
      rw [List.getLastD_eq_getLast?, List.getLast?_eq_getLast _ (List.cons_ne_nil _ _)]
      exact List.mem_cons_of_mem _ (List.getLast_mem _)

/-- A line of the scanner holds no newline. -/
theorem scanLines_no_newline (text : List Char) : ∀ line ∈ scanLines text, '\n' ∉ line := by
  intro line hl
  unfold scanLines at hl
  simp only [List.mem_map] at hl
  obtain ⟨seg, hseg, hd⟩ := hl
  have hmem : seg ∈ splitChar '\n' text ∨ seg = [] := by
    split at hseg
    · exact Or.inl (List.mem_of_mem_dropLast hseg)
    · rcases List.mem_append.mp hseg with h | h
      · exact Or.inl (List.mem_of_mem_dropLast h)
      · simp only [List.mem_singleton] at h
        rw [h]
        exact getLastD_mem_or_nil _
  intro hn
  rw [← hd] at hn
  have hn2 := mem_of_mem_dropCR seg _ hn
  rcases hmem with h | h
  · exact splitChar_no_sep '\n' text seg h hn2
  · rw [h] at hn2
    cases hn2

theorem dropRun1_eq_some (p : Char → Bool) (l r : List Char) (h : dropRun1 p l = some r) :
    ∃ c cs, l = c :: cs ∧ p c = true ∧ r = cs.dropWhile p := by
  cases l with
  | nil => simp [dropRun1] at h
  | cons c cs =>
    by_cases hp : p c = true
    · simp only [dropRun1, hp, if_true, Option.some.injEq] at h
      exact ⟨c, cs, rfl, hp, h.symm⟩
    · simp [dropRun1, hp] at h

theorem mem_of_mem_dropWhile (p : Char → Bool) (x : Char) :
    ∀ (l : List Char), x ∈ l.dropWhile p → x ∈ l
  | [], h => h
  | c :: cs, h => by
    rw [List.dropWhile_cons] at h
    split at h
    · exact List.mem_cons_of_mem _ (mem_of_mem_dropWhile p x cs h)
    · exact h

/-- The pattern `statsLine` matches every selected line that holds no newline: the white
space and the number after `Sum:` are there. -/
theorem statsLine_of_sumLine (line : List Char) (hs : sumLine line = true)
    (hn : '\n' ∉ line) : ∃ g, statsLine line = some g := by
  unfold sumLine at hs
  split at hs
  · rename_i r0
    split at hs
    · rename_i r3 hb
      cases h1 : dropRun1 isReSpace r0 with
      | none => simp [h1] at hb
      | some r1 =>
        cases h2 : dropRun1 isReDigit r1 with
        | none => simp [h1, h2] at hb
        | some r2 =>
          obtain ⟨c, cs, hr0, hc, hr1⟩ := dropRun1_eq_some _ _ _ h1
          obtain ⟨d, ds, hr1b, hd, _⟩ := dropRun1_eq_some _ _ _ h2
          subst hr0
          have hdw : cs.dropWhile isReSpace = d :: ds := by rw [← hr1, hr1b]
          have hnn : (d :: ds).contains '\n' = false := by
            rw [← hdw]
            apply Bool.eq_false_iff.mpr
            intro hcon
            have hmem : '\n' ∈ cs.dropWhile isReSpace := by
              simpa using hcon
            apply hn
            have := mem_of_mem_dropWhile isReSpace _ cs hmem
            simp [this]
          refine ⟨d :: ds, ?_⟩
          have e1 : isReSpace 'S' = false := by decide
          have e2 : isReSpace 'u' = false := by decide
          have e3 : isReSpace 'm' = false := by decide
          have e4 : isReSpace ':' = false := by decide
          rw [statsLine, e1, statsLine, e2, statsLine, e3, statsLine, e4, statsLine]
          simp only [Bool.false_eq_true, if_false, hc, if_true, hdw, hd, hnn, Bool.not_false,
            Bool.and_self]
    · cases hs
  · cases hs

theorem readPairs_even {F : Type} (ops : FloatOps F) :
    ∀ (toks : List String) (t : StrMap), toks.length % 2 = 0 → (readPairs ops t toks).2 = false
  | [], _, _ => by simp [readPairs]
  | [_], _, h => by simp at h
  | value :: label :: rest, t, h => by
    rw [readPairs]
    apply readPairs_even ops rest
    simp only [List.length_cons] at h
    omega

/-- A selected line with an even number of tokens: the pairs are processed and one record
per key is sent. -/
theorem readLine_even {F : Type} (ops : FloatOps F) (m : BeegfsStorageCollector)
    (line : List Char) (toks : List String) (hs : sumLine line = true)
    (ht : (statsLine line).map splitStats = some toks) (he : toks.length % 2 = 0) :
    readLine ops m line =
      some ⟨{ m with matches_ := (readPairs ops m.matches_ toks).1 },
        emitMatches ops { m with matches_ := (readPairs ops m.matches_ toks).1 }, false⟩ := by
  cases hg : statsLine line with
  | none => simp [hg] at ht
  | some g =>
    simp only [hg, Option.map_some', Option.some.injEq] at ht
    subst ht
    unfold readLine
    simp only [hs, hg, Bool.not_true, Bool.false_eq_true, if_false,
      readPairs_even ops (splitStats g) m.matches_ he]

/-- A selected line with an odd number of tokens: the loop over the tokens reads past the
end of the slice and no record is sent. -/
theorem readLine_odd {F : Type} (ops : FloatOps F) (m : BeegfsStorageCollector)
    (line : List Char) (toks : List String) (hs : sumLine line = true)
    (ht : (statsLine line).map splitStats = some toks) (ho : toks.length % 2 = 1) :
    readLine ops m line =
      some ⟨{ m with matches_ := (readPairs ops m.matches_ toks).1 }, [], true⟩ := by
  cases hg : statsLine line with
  | none => simp [hg] at ht
  | some g =>
    simp only [hg, Option.map_some', Option.some.injEq] at ht
    subst ht
    unfold readLine
    simp only [hs, hg, Bool.not_true, Bool.false_eq_true, if_false,
      readPairs_odd ops (splitStats g) m.matches_ ho, if_true]

set_option maxRecDepth 100000 in
/-- C5, the code at the failing input: after `Init` without exclusions the table has 18
keys. In a tick whose command prints the selected lines `Sum: 42 [x] 10 [ack]` and
`Sum: 42 [x] 7`, the first line has four tokens and 18 records are sent for it; the second
has the three tokens 42, x, 7, the loop over the tokens reads `split[3]` past the end of the
slice, and `Read` stops with a runtime failure without a record for this line: 18 records
in all, not 36. In general every line of the scanner that is selected has tokens; for a
selected line with an odd number of tokens the loop body fails and sends no record; for a
selected line with an even number of tokens, in a state after a successful `Init` with the
tag `filesystem` set to the current mount point, it sends one record per key of the table
as it is after the pairs, the keys pairwise distinct, every record with the tag of the
mount point and the parsed value of its entry, and every known metric that is not excluded
has its record with the value its entry had before the line. -/
theorem odd_selected_line_emits_no_record :
    (mapKeys (initializedCollector []).matches_).length = 18 ∧
    (scanLines "Sum: 42 [x] 10 [ack]\nSum: 42 [x] 7\n".data).map
      (fun line => (sumLine line, (statsLine line).map splitStats)) =
      [(true, some ["42", "x", "10", "ack"]), (true, some ["42", "x", "7"])] ∧
    (readLine decimalOps
      { initializedCollector [] with
        tags := mapSet (initializedCollector []).tags "filesystem" "/mnt/beeond" }
      "Sum: 42 [x] 7".data).map (fun r => (r.output, r.panicked)) = some ([], true) ∧
    (BeegfsStorageCollector.Read decimalOps
      (oneMountEnv "Sum: 42 [x] 10 [ack]\nSum: 42 [x] 7\n")
      (initializedCollector [])).panicked = true ∧
    (BeegfsStorageCollector.Read decimalOps
      (oneMountEnv "Sum: 42 [x] 10 [ack]\nSum: 42 [x] 7\n")
      (initializedCollector [])).output.length = 18 ∧
    (∀ (text : List Char), ∀ line ∈ scanLines text, sumLine line = true →
      ∃ toks, (statsLine line).map splitStats = some toks) ∧
    (∀ (F : Type) (ops : FloatOps F) (m : BeegfsStorageCollector) (line : List Char)
      (toks : List String), sumLine line = true →
      (statsLine line).map splitStats = some toks → toks.length % 2 = 1 →
      ∃ r, readLine ops m line = some r ∧ r.output = [] ∧ r.panicked = true) ∧
    (∀ (F : Type) (ops : FloatOps F) (m : BeegfsStorageCollector), Reachable ops m →
      ∀ (mountpoint : String) (line : List Char) (toks : List String), sumLine line = true →
      (statsLine line).map splitStats = some toks → toks.length % 2 = 0 →
      ∃ r, readLine ops { m with tags := mapSet m.tags "filesystem" mountpoint } line =
          some r ∧
        r.panicked = false ∧
        r.output.map (fun rec => rec.name) = mapKeys r.collector.matches_ ∧
        (mapKeys r.collector.matches_).Nodup ∧
        (∀ rec ∈ r.output, mapLookup rec.tags "filesystem" = some mountpoint ∧
          ∃ data, mapLookup r.collector.matches_ rec.name = some data ∧
            rec.value = (ops.ParseFloat data).1) ∧
        (∀ x ∈ storageStat_array, x ∉ m.config.ExcludeMetrics →
          ∃ rec ∈ r.output, rec.name = "beegfs_cstorage_" ++ x ∧
            ∃ data, mapLookup m.matches_ ("beegfs_cstorage_" ++ x) = some data ∧
              rec.value = (ops.ParseFloat data).1)) := by
  refine ⟨by decide, by decide, by decide, by decide, by decide, ?_, ?_, ?_⟩
  · intro text line hl hs
    obtain ⟨g, hg⟩ := statsLine_of_sumLine line hs (scanLines_no_newline text line hl)
    exact ⟨splitStats g, by rw [hg]; rfl⟩
  · intro F ops m line toks hs ht ho
    exact ⟨_, readLine_odd ops m line toks hs ht ho, rfl, rfl⟩
  · intro F ops m hm mountpoint line toks hs ht he
    have hr := readLine_even ops { m with tags := mapSet m.tags "filesystem" mountpoint }
      line toks hs ht he
    exact ⟨_, hr, rfl, selected_line_emits_every_key ops m hm mountpoint line _ hr rfl⟩

/-! ## Init on an initialized collector (C8) -/

/-- `BeegfsStorageCollector.Init` on an initialized collector returns success and leaves
the collector as it is. -/
theorem beegfs_Init_idempotent (env : BeegfsInitEnv) (m : BeegfsStorageCollector)
    (config : Option BeegfsConfigJSON) (h : m.init = true) :
    BeegfsStorageCollector.Init env m config = (m, none) := by
  simp [BeegfsStorageCollector.Init, h]

/-- C8, the code at the failing input: a `TopProcsCollector` initialized with the empty
configuration is ready with `num_procs = 2`. A second `Init` with `num_procs = 11`
returns an error and leaves a ready collector with the stored `num_procs = 11`; a second
`Init` with `num_procs = 5` succeeds and changes the stored `num_procs` to 5.
`TopProcsCollector.Init` has no check for an initialized collector. -/
theorem topprocs_Init_not_idempotent :
    (TopProcsCollector.Init true newTopProcsCollector none).2 = none ∧
    (TopProcsCollector.Init true newTopProcsCollector none).1.init = true ∧
    (TopProcsCollector.Init true newTopProcsCollector none).1.config.Num_procs = 2 ∧
    (TopProcsCollector.Init true (TopProcsCollector.Init true newTopProcsCollector none).1
      (some { num_procs := some 11, err := false })).2 = some TopProcsInitError.numProcs ∧
    (TopProcsCollector.Init true (TopProcsCollector.Init true newTopProcsCollector none).1
      (some { num_procs := some 11, err := false })).1.init = true ∧
    (TopProcsCollector.Init true (TopProcsCollector.Init true newTopProcsCollector none).1
      (some { num_procs := some 11, err := false })).1.config.Num_procs = 11 ∧
    (TopProcsCollector.Init true (TopProcsCollector.Init true newTopProcsCollector none).1
      (some { num_procs := some 5, err := false })).2 = none ∧
    (TopProcsCollector.Init true (TopProcsCollector.Init true newTopProcsCollector none).1
      (some { num_procs := some 5, err := false })).1.config.Num_procs = 5 := by
  decide

/-! ## The mapping between ipmi hostname and node hostname (C9, C10) -/

theorem containsSub_placeholder_cons (c d : Char) (rest : List Char)
    (h : ¬ (c = '%' ∧ d = 'h')) :
    containsSub "%h".data (c :: d :: rest) = containsSub "%h".data (d :: rest) := by
  have hd : "%h".data = ['%', 'h'] := rfl
  rw [hd]
  conv_lhs => rw [containsSub]
  have : List.isPrefixOf ['%', 'h'] (c :: d :: rest) = false := by
    simp only [List.isPrefixOf, Bool.and_true, Bool.and_eq_false_imp, beq_iff_eq]
    intro h1
    simp only [beq_eq_false_iff_ne]
    intro h2
    exact h ⟨h1.symm, h2.symm⟩
  rw [this, Bool.false_or]

theorem replacePlaceholder_length :
    ∀ (p : List Char), ∃ b c : Nat,
      (∀ h : List Char, (replacePlaceholder h p).length = b + c * h.length) ∧
      (containsSub "%h".data p = true → 0 < c)
  | [] => ⟨0, 0, by simp [replacePlaceholder], by decide⟩
  | [c] => ⟨1, 0, by simp [replacePlaceholder], by
      have hd : "%h".data = ['%', 'h'] := rfl
      simp [hd, containsSub, List.isPrefixOf]⟩
  | c :: d :: rest => by
    by_cases hcd : c = '%' ∧ d = 'h'
    · obtain ⟨b, k, h1, _⟩ := replacePlaceholder_length rest
      refine ⟨b, k + 1, ?_, fun _ => Nat.succ_pos k⟩
      intro h
      rw [replacePlaceholder, if_pos hcd, List.length_append, h1 h]
      ring
    · obtain ⟨b, k, h1, h2⟩ := replacePlaceholder_length (d :: rest)
      refine ⟨b + 1, k, ?_, ?_⟩
      · intro h
        rw [replacePlaceholder, if_neg hcd, List.length_cons, h1 h]
        ring
      · intro hc
        rw [containsSub_placeholder_cons c d rest hcd] at hc
        exact h2 hc

theorem replacePlaceholder_inj_of_length :
    ∀ (p h1 h2 : List Char), h1.length = h2.length → containsSub "%h".data p = true →
      replacePlaceholder h1 p = replacePlaceholder h2 p → h1 = h2
  | [], _, _, _, hc, _ => by simp [containsSub] at hc
  | [c], _, _, _, hc, _ => by
    have hd : "%h".data = ['%', 'h'] := rfl
    simp [hd, containsSub, List.isPrefixOf] at hc
  | c :: d :: rest, h1, h2, hl, hc, he => by
    by_cases hcd : c = '%' ∧ d = 'h'
    · rw [replacePlaceholder, replacePlaceholder, if_pos hcd, if_pos hcd] at he
      exact (List.append_inj he hl).1
    · rw [replacePlaceholder, replacePlaceholder, if_neg hcd, if_neg hcd] at he
      rw [containsSub_placeholder_cons c d rest hcd] at hc
      exact replacePlaceholder_inj_of_length (d :: rest) h1 h2 hl hc (List.cons.inj he).2

/-- With a placeholder in the pattern, two hosts with the same identifier are equal. -/
theorem ipmiHost_injective (host_pattern a b : String)
    (hc : containsSub "%h".data host_pattern.data = true)
    (h : ipmiHost host_pattern a = ipmiHost host_pattern b) : a = b := by
  have he : replacePlaceholder a.data host_pattern.data =
      replacePlaceholder b.data host_pattern.data := by
    have := congrArg String.data h
    simpa [ipmiHost] using this
  obtain ⟨b0, c0, hlen, hpos⟩ := replacePlaceholder_length host_pattern.data
  have hl : a.data.length = b.data.length := by
    have h1 := hlen a.data
    have h2 := hlen b.data
    rw [he, h2] at h1
    have h3 : c0 * b.data.length = c0 * a.data.length := Nat.add_left_cancel h1
    exact (Nat.eq_of_mul_eq_mul_left (hpos hc) h3).symm
  exact String.ext (replacePlaceholder_inj_of_length _ _ _ hl hc he)

theorem ipmi2HostMapping_keys (host_pattern : String) (HostList : List String) (k : String) :
    k ∈ mapKeys (ipmi2HostMapping host_pattern HostList) ↔
      ∃ host ∈ HostList, k = ipmiHost host_pattern host := by
  unfold ipmi2HostMapping
  rw [mem_mapKeys_foldl_mapSet (ipmiHost host_pattern) (fun host => host)]
  simp only [mapKeys, List.map_nil, List.not_mem_nil, false_or]
  constructor
  · rintro ⟨x, hx, hk⟩
    exact ⟨x, hx, hk.symm⟩
  · rintro ⟨x, hx, hk⟩
    exact ⟨x, hx, hk.symm⟩

theorem ipmi2HostMapping_nodup (host_pattern : String) (HostList : List String) :
    (mapKeys (ipmi2HostMapping host_pattern HostList)).Nodup := by
  unfold ipmi2HostMapping
  exact nodup_mapKeys_foldl_mapSet (ipmiHost host_pattern) (fun host => host) _ _
    (by simp [mapKeys])

theorem ipmi2HostMapping_lookup (host_pattern : String) (HostList : List String)
    (k v : String) (h : mapLookup (ipmi2HostMapping host_pattern HostList) k = some v) :
    v ∈ HostList ∧ ipmiHost host_pattern v = k := by
  unfold ipmi2HostMapping at h
  rcases mapLookup_foldl_mapSet (ipmiHost host_pattern) (fun host => host) _ _ _ _ h with
    ⟨x, hx, hk, hv⟩ | h2
  · have hv2 : x = v := hv
    subst hv2
    exact ⟨hx, hk⟩
  · simp [mapLookup] at h2

theorem ipmi2HostMapping_lookup_host (host_pattern : String) (HostList : List String)
    (hc : containsSub "%h".data host_pattern.data = true) (host : String)
    (hh : host ∈ HostList) :
    mapLookup (ipmi2HostMapping host_pattern HostList) (ipmiHost host_pattern host) =
      some host := by
  unfold ipmi2HostMapping
  exact mapLookup_foldl_mapSet_of_mem (ipmiHost host_pattern) (fun host => host) _ _ host
    (Or.inl hh) (fun y _ hy => ipmiHost_injective host_pattern y host hc hy)

theorem ipmi2HostMapping_length (host_pattern : String) (HostList : List String)
    (hc : containsSub "%h".data host_pattern.data = true) :
    (ipmi2HostMapping host_pattern HostList).length = HostList.dedup.length := by
  have h1 : (ipmi2HostMapping host_pattern HostList).length =
      (mapKeys (ipmi2HostMapping host_pattern HostList)).length := by
    simp [mapKeys]
  rw [h1, ← List.toFinset_card_of_nodup (ipmi2HostMapping_nodup host_pattern HostList),
    ← List.card_toFinset]
  have h2 : (mapKeys (ipmi2HostMapping host_pattern HostList)).toFinset =
      HostList.toFinset.image (ipmiHost host_pattern) := by
    ext k
    rw [List.mem_toFinset, ipmi2HostMapping_keys, Finset.mem_image]
    constructor
    · rintro ⟨x, hx, hk⟩
      exact ⟨x, List.mem_toFinset.mpr hx, hk.symm⟩
    · rintro ⟨x, hx, hk⟩
      exact ⟨x, List.mem_toFinset.mp hx, hk.symm⟩
  rw [h2]
  exact Finset.card_image_of_injective _
    (fun a b hab => ipmiHost_injective host_pattern a b hc hab)

/-- What a created client config is made of. -/
theorem newClientConfig_ok (configJSON : IPMIConfigJSON) (i : Nat)
    (clientConfigJSON : IPMIClientConfigJSON) (cc : IPMIReceiverClientConfig)
    (h : newClientConfig configJSON i clientConfigJSON = .ok cc) :
    ∃ endpoint protocol host_pattern,
      clientEndpoint configJSON clientConfigJSON = some endpoint ∧
      splitSep "://" endpoint = [protocol, host_pattern] ∧
      cc.Protocol = protocol ∧
      cc.IPMI2HostMapping = ipmi2HostMapping host_pattern clientConfigJSON.HostList ∧
      cc.NumHosts = ((ipmi2HostMapping host_pattern clientConfigJSON.HostList).length : Int) := by
  unfold newClientConfig at h
  cases he : clientEndpoint configJSON clientConfigJSON with
  | none => rw [he] at h; cases h
  | some endpoint =>
    rw [he] at h
    simp only at h
    by_cases hd : clientDriverType configJSON clientConfigJSON ≠ "LAN" ∧
        clientDriverType configJSON clientConfigJSON ≠ "LAN_2_0"
    · rw [if_pos hd] at h; cases h
    · rw [if_neg hd] at h
      cases hu : clientUsername configJSON clientConfigJSON with
      | none =>
        rw [hu] at h
        split at h <;> cases h
      | some username =>
        rw [hu] at h
        cases hp : clientPassword configJSON clientConfigJSON with
        | none =>
          rw [hp] at h
          split at h <;> cases h
        | some password =>
          rw [hp] at h
          split at h
          · rename_i protocol host_pattern hs
            injection h with h
            subst h
            exact ⟨endpoint, protocol, host_pattern, rfl, hs, rfl, rfl, rfl⟩
          · cases h

theorem newClientConfigs_ok (configJSON : IPMIConfigJSON) :
    ∀ (cjs : List IPMIClientConfigJSON) (i : Nat) (ccs : List IPMIReceiverClientConfig),
      newClientConfigs configJSON i cjs = .ok ccs →
      List.Forall₂ (fun cj cc => ∃ n, newClientConfig configJSON n cj = .ok cc) cjs ccs
  | [], i, ccs, h => by
    simp only [newClientConfigs] at h
    injection h with h
    subst h
    exact List.Forall₂.nil
  | cj :: rest, i, ccs, h => by
    rw [newClientConfigs] at h
    split at h
    · cases h
    · rename_i cc hcc
      split at h
      · cases h
      · rename_i ccs2 hrest
        injection h with h
        subst h
        exact List.Forall₂.cons ⟨i, hcc⟩ (newClientConfigs_ok configJSON rest (i + 1) ccs2 hrest)

theorem NewIPMIReceiver_ok (parseDuration : String → Option Int) (name : String)
    (c : IPMIConfigJSON) (r : IPMIReceiver)
    (h : NewIPMIReceiver parseDuration name (.decoded c) = .ok r) :
    List.Forall₂ (fun cj cc => ∃ n, newClientConfig c n cj = .ok cc)
      c.ClientConfigs r.ClientConfigs := by
  unfold NewIPMIReceiver at h
  simp only at h
  split at h
  · cases h
  · rename_i interval _
    split at h
    · cases h
    · rename_i ccs hccs
      split at h
      · cases h
      · injection h with h
        subst h
        exact newClientConfigs_ok c _ 0 ccs hccs

/-- C9: for every configuration for which `NewIPMIReceiver` returns a receiver, every
client config of the receiver belongs to the client config of the same position in the
configuration, and its identifier to host mapping has as keys exactly the identifiers
obtained by replacing every `%h` of the host pattern by a host of the host list, each
mapped to a host of the list that renders it. For the host list n1, n2 and the pattern
`ipmi-%h` the mapping is exactly ipmi-n1 to n1 and ipmi-n2 to n2. -/
theorem host_mapping_renders_host_list (parseDuration : String → Option Int) (name : String)
    (c : IPMIConfigJSON) (r : IPMIReceiver)
    (h : NewIPMIReceiver parseDuration name (.decoded c) = .ok r) :
    List.Forall₂ (MappingRenders c) c.ClientConfigs r.ClientConfigs ∧
    ipmi2HostMapping "ipmi-%h" ["n1", "n2"] = [("ipmi-n1", "n1"), ("ipmi-n2", "n2")] := by
  refine ⟨?_, by decide⟩
  refine List.Forall₂.imp ?_ (NewIPMIReceiver_ok parseDuration name c r h)
  rintro cj cc ⟨n, hn⟩
  obtain ⟨endpoint, protocol, host_pattern, he, hs, _, hm, _⟩ := newClientConfig_ok c n cj cc hn
  refine ⟨endpoint, protocol, host_pattern, he, hs, ?_, ?_, ?_⟩
  · rw [hm]; exact ipmi2HostMapping_nodup _ _
  · intro k; rw [hm]; exact ipmi2HostMapping_keys _ _ k
  · intro k v hkv; rw [hm] at hkv; exact ipmi2HostMapping_lookup _ _ k v hkv

/-- Witness for C9: the configuration with endpoint `ipmi-sensors://ipmi-%h` and host
list n1, n2 gives a receiver whose only client config has the mapping ipmi-n1 to n1,
ipmi-n2 to n2. -/
theorem host_mapping_renders_host_list_witness :
    NewIPMIReceiver parseDefaultInterval "bmc" (.decoded twoHostConfig) = .ok twoHostReceiver ∧
    twoHostReceiver.ClientConfigs.map (fun cc => cc.IPMI2HostMapping) =
      [[("ipmi-n1", "n1"), ("ipmi-n2", "n2")]] ∧
    List.Forall₂ (MappingRenders twoHostConfig) twoHostConfig.ClientConfigs
      twoHostReceiver.ClientConfigs :=
  ⟨by rfl, by decide,
    (host_mapping_renders_host_list parseDefaultInterval "bmc" twoHostConfig twoHostReceiver
      (by rfl)).1⟩

/-- C10: for every configuration for which `NewIPMIReceiver` returns a receiver and every
client config of it: if the host pattern contains the placeholder `%h`, two different
hosts never render the same identifier, the mapping sends exactly the identifier of each
host of the list to that host (a bijection between the identifiers and the distinct hosts
of the list), and `NumHosts` is the number of distinct hosts; and two different hosts of
the list render the same identifier only when the pattern does not contain `%h`, as for
the pattern `bmc`, where the hosts n1 and n2 collapse onto one identifier. -/
theorem host_mapping_one_to_one (parseDuration : String → Option Int) (name : String)
    (c : IPMIConfigJSON) (r : IPMIReceiver)
    (h : NewIPMIReceiver parseDuration name (.decoded c) = .ok r) :
    List.Forall₂ (MappingOneToOne c) c.ClientConfigs r.ClientConfigs ∧
    ipmi2HostMapping "bmc" ["n1", "n2"] = [("bmc", "n2")] := by
  refine ⟨?_, by decide⟩
  refine List.Forall₂.imp ?_ (NewIPMIReceiver_ok parseDuration name c r h)
  rintro cj cc ⟨n, hn⟩
  obtain ⟨endpoint, protocol, host_pattern, he, hs, _, hm, hnum⟩ :=
    newClientConfig_ok c n cj cc hn
  refine ⟨endpoint, protocol, host_pattern, he, hs, ?_, ?_⟩
  · intro hc
    refine ⟨fun a b hab => ipmiHost_injective host_pattern a b hc hab, ?_, ?_⟩
    · intro k v
      rw [hm]
      constructor
      · intro hkv
        obtain ⟨h1, h2⟩ := ipmi2HostMapping_lookup _ _ k v hkv
        exact ⟨h1, h2.symm⟩
      · rintro ⟨h1, h2⟩
        rw [h2]
        exact ipmi2HostMapping_lookup_host host_pattern cj.HostList hc v h1
    · rw [hnum, ipmi2HostMapping_length host_pattern cj.HostList hc]
  · intro a _ b _ hab heq
    by_contra hc
    have hc2 : containsSub "%h".data host_pattern.data = true := by
      simpa using hc
    exact hab (ipmiHost_injective host_pattern a b hc2 heq)

/-- Witness for C10: the configuration with endpoint `ipmi-sensors://ipmi-%h` and host
list n1, n2; the pattern has the placeholder and `NumHosts` is 2. -/
theorem host_mapping_one_to_one_witness :
    NewIPMIReceiver parseDefaultInterval "bmc" (.decoded twoHostConfig) = .ok twoHostReceiver ∧
    containsSub "%h".data "ipmi-%h".data = true ∧
    twoHostReceiver.ClientConfigs.map (fun cc => cc.NumHosts) = [2] ∧
    List.Forall₂ (MappingOneToOne twoHostConfig) twoHostConfig.ClientConfigs
      twoHostReceiver.ClientConfigs :=
  ⟨by rfl, by decide, by decide,
    (host_mapping_one_to_one parseDefaultInterval "bmc" twoHostConfig twoHostReceiver
      (by rfl)).1⟩

/-! ## Construction of the IPMI receiver fails closed (C11) -/

/-- The fields of a created client config. -/
theorem newClientConfig_ok_fields (configJSON : IPMIConfigJSON) (i : Nat)
    (clientConfigJSON : IPMIClientConfigJSON) (cc : IPMIReceiverClientConfig)
    (h : newClientConfig configJSON i clientConfigJSON = .ok cc) :
    ∃ endpoint protocol host_pattern username password,
      clientEndpoint configJSON clientConfigJSON = some endpoint ∧
      splitSep "://" endpoint = [protocol, host_pattern] ∧
      clientUsername configJSON clientConfigJSON = some username ∧
      clientPassword configJSON clientConfigJSON = some password ∧
      (clientDriverType configJSON clientConfigJSON = "LAN" ∨
        clientDriverType configJSON clientConfigJSON = "LAN_2_0") ∧
      cc.Protocol = protocol ∧
      cc.Fanout = clientFanout configJSON clientConfigJSON ∧
      cc.DriverType = clientDriverType configJSON clientConfigJSON ∧
      cc.Username = username ∧
      cc.Password = password ∧
      cc.IPMI2HostMapping = ipmi2HostMapping host_pattern clientConfigJSON.HostList ∧
      cc.NumHosts = ((ipmi2HostMapping host_pattern clientConfigJSON.HostList).length : Int) ∧
      cc.isExcluded = clientConfigJSON.ExcludeMetrics ++ configJSON.ExcludeMetrics := by
  unfold newClientConfig at h
  cases he : clientEndpoint configJSON clientConfigJSON with
  | none => rw [he] at h; cases h
  | some endpoint =>
    rw [he] at h
    simp only at h
    by_cases hd : clientDriverType configJSON clientConfigJSON ≠ "LAN" ∧
        clientDriverType configJSON clientConfigJSON ≠ "LAN_2_0"
    · rw [if_pos hd] at h; cases h
    · rw [if_neg hd] at h
      have hd2 : clientDriverType configJSON clientConfigJSON = "LAN" ∨
          clientDriverType configJSON clientConfigJSON = "LAN_2_0" := by
        by_cases h1 : clientDriverType configJSON clientConfigJSON = "LAN"
        · exact Or.inl h1
        · right
          by_contra h2
          exact hd ⟨h1, h2⟩
      cases hu : clientUsername configJSON clientConfigJSON with
      | none =>
        rw [hu] at h
        split at h <;> cases h
      | some username =>
        rw [hu] at h
        cases hp : clientPassword configJSON clientConfigJSON with
        | none =>
          rw [hp] at h
          split at h <;> cases h
        | some password =>
          rw [hp] at h
          split at h
          · rename_i protocol host_pattern hs
            injection h with h
            subst h
            exact ⟨endpoint, protocol, host_pattern, username, password, rfl, hs, rfl, rfl,
              hd2, rfl, rfl, rfl, rfl, rfl, rfl, rfl, rfl⟩
          · cases h

theorem NewIPMIReceiver_ok_total (parseDuration : String → Option Int) (name : String)
    (config : IPMIRawConfig) (r : IPMIReceiver)
    (h : NewIPMIReceiver parseDuration name config = .ok r) :
    (r.ClientConfigs.map (fun cc => cc.NumHosts)).sum ≠ 0 ∧
    r.name = "IPMIReceiver(" ++ name ++ ")" := by
  unfold NewIPMIReceiver at h
  simp only at h
  split at h
  · cases h
  · split at h
    · cases h
    · split at h
      · cases h
      · split at h
        · cases h
        · rename_i hne
          injection h with h
          subst h
          exact ⟨hne, rfl⟩

theorem ipmi2HostMapping_nil (host_pattern : String) :
    ipmi2HostMapping host_pattern [] = [] := rfl

theorem forall₂_exists_of_mem_left {α β : Type} (R : α → β → Prop)
    (l1 : List α) (l2 : List β) (hall : List.Forall₂ R l1 l2) :
    ∀ a ∈ l1, ∃ b ∈ l2, R a b := by
  induction hall with
  | nil => intro a ha; cases ha
  | cons hxy _ ih =>
    intro a ha
    rcases List.mem_cons.mp ha with h | h
    · exact ⟨_, List.mem_cons_self _ _, h ▸ hxy⟩
    · obtain ⟨b, hb, hr⟩ := ih a h
      exact ⟨b, List.mem_cons_of_mem _ hb, hr⟩

theorem sum_numHosts_eq_zero (c : IPMIConfigJSON)
    (cjs : List IPMIClientConfigJSON) (ccs : List IPMIReceiverClientConfig)
    (hrel : List.Forall₂ (fun cj cc => ∃ n, newClientConfig c n cj = .ok cc) cjs ccs) :
    (∀ cj ∈ cjs, cj.HostList = []) → (ccs.map (fun cc => cc.NumHosts)).sum = 0 := by
  induction hrel with
  | nil => intro _; rfl
  | cons hxy _ ih =>
    intro hall
    obtain ⟨n, hn⟩ := hxy
    obtain ⟨_, _, host_pattern, _, _, _, _, _, _, _, _, _, _, _, _, _, hnum, _⟩ :=
      newClientConfig_ok_fields c n _ _ hn
    have h1 := hall _ (List.mem_cons_self _ _)
    have h2 := ih (fun x hx => hall x (List.mem_cons_of_mem _ hx))
    rw [List.map_cons, List.sum_cons, h2, hnum, h1, ipmi2HostMapping_nil]
    rfl

/-- C11: `NewIPMIReceiver` returns an error, and no receiver, for every configuration in
which some client config has no endpoint, no user name or no password at the client and
at the top level, or has a driver type (its own, else the one of the top level) other than
LAN and LAN_2_0, or in which the host lists of all client configs together have no host;
the empty configuration, which has no client config, and a document that cannot be
decoded are rejected as well. -/
theorem new_receiver_fails_closed (parseDuration : String → Option Int) (name : String)
    (c : IPMIConfigJSON)
    (h : (∃ cj ∈ c.ClientConfigs,
            (cj.Endpoint = none ∧ c.Endpoint = none) ∨
            (cj.Username = none ∧ c.Username = none) ∨
            (cj.Password = none ∧ c.Password = none) ∨
            (clientDriverType c cj ≠ "LAN" ∧ clientDriverType c cj ≠ "LAN_2_0")) ∨
         (c.ClientConfigs.map (fun cj => cj.HostList.length)).sum = 0) :
    (∃ e, NewIPMIReceiver parseDuration name (.decoded c) = .error e) ∧
    (∃ e, NewIPMIReceiver parseDuration name .empty = .error e) ∧
    NewIPMIReceiver parseDuration name .invalid = .error .unmarshal := by
  refine ⟨?_, ?_, rfl⟩
  · cases hr : NewIPMIReceiver parseDuration name (.decoded c) with
    | error e => exact ⟨e, rfl⟩
    | ok r =>
      exfalso
      have hall := NewIPMIReceiver_ok parseDuration name c r hr
      rcases h with ⟨cj, hcj, hbad⟩ | hzero
      · obtain ⟨cc, _, n, hn⟩ := forall₂_exists_of_mem_left _ _ _ hall cj hcj
        obtain ⟨endpoint, _, _, username, password, he, _, hu, hp, hd, _⟩ :=
          newClientConfig_ok_fields c n cj cc hn
        rcases hbad with ⟨h1, h2⟩ | ⟨h1, h2⟩ | ⟨h1, h2⟩ | ⟨h1, h2⟩
        · simp [clientEndpoint, h1, h2] at he
        · simp [clientUsername, h1, h2] at hu
        · simp [clientPassword, h1, h2] at hp
        · rcases hd with hd | hd
          · exact h1 hd
          · exact h2 hd
      · have hnil : ∀ cj ∈ c.ClientConfigs, cj.HostList = [] := by
          intro cj hcj
          have := (List.sum_eq_zero_iff.mp hzero) cj.HostList.length
            (List.mem_map.mpr ⟨cj, hcj, rfl⟩)
          exact List.length_eq_zero.mp this
        exact (NewIPMIReceiver_ok_total parseDuration name _ r hr).1
          (sum_numHosts_eq_zero c _ _ hall hnil)
  · cases hr : NewIPMIReceiver parseDuration name .empty with
    | error e => exact ⟨e, rfl⟩
    | ok r =>
      exfalso
      have h1 := (NewIPMIReceiver_ok_total parseDuration name _ r hr).1
      apply h1
      unfold NewIPMIReceiver at hr
      simp only at hr
      split at hr
      · cases hr
      · split at hr
        · cases hr
        · rename_i ccs hccs
          simp [newClientConfigs] at hccs
          subst hccs
          simp at hr

/-- Witness for C11: a configuration whose only client config has hosts but no password
at either level is rejected. -/
theorem new_receiver_fails_closed_witness :
    ∃ e, NewIPMIReceiver parseDefaultInterval "bmc"
      (.decoded { twoHostConfig with Password := none }) = .error e :=
  (new_receiver_fails_closed parseDefaultInterval "bmc" { twoHostConfig with Password := none }
    (Or.inl ⟨{ HostList := ["n1", "n2"] }, by decide, Or.inr (Or.inr (Or.inl ⟨rfl, rfl⟩))⟩)).1

/-! ## The override chain of a client config (C12) -/

/-- Counterexample to C12 as stated: the client config gives the fanout 0 and an empty
driver type (and an empty user name), the top level gives 32, LAN and admin. The created
client config has the fanout 32 and the driver type LAN of the top level: these two
values of the client config do not override. (The empty user name does.) -/
theorem zero_fanout_does_not_override :
    (zeroFanoutDoc.client_config.getD []).map (fun cd => (cd.fanout, cd.driver_type)) =
      [(some 0, some "")] ∧
    (match NewIPMIReceiver parseDefaultInterval "bmc" (.decoded zeroFanoutDoc.decode) with
      | .ok r => r.ClientConfigs.map (fun cc => (cc.Fanout, cc.DriverType, cc.Username))
      | .error _ => []) = [(32, "LAN", "")] := by
  decide

/-- C12, as amended: in every client config constructed by `NewIPMIReceiver`, endpoint,
user name and password are the per-client value when the client config has the field
(also an empty one), otherwise the top-level value; the fanout is the per-client value
when the client config has one other than 0, otherwise the top-level value, otherwise 64;
the driver type is the per-client value when the client config has a non-empty one,
otherwise the top-level value, otherwise LAN_2_0. -/
theorem client_config_override_chain (parseDuration : String → Option Int) (name : String)
    (d : IPMIConfigDoc) (r : IPMIReceiver)
    (h : NewIPMIReceiver parseDuration name (.decoded d.decode) = .ok r) :
    List.Forall₂ (OverrideChain d) (d.client_config.getD []) r.ClientConfigs := by
  have hall := NewIPMIReceiver_ok parseDuration name d.decode r h
  have hmap : d.decode.ClientConfigs = (d.client_config.getD []).map IPMIClientConfigDoc.decode :=
    rfl
  rw [hmap, List.forall₂_map_left_iff] at hall
  refine List.Forall₂.imp ?_ hall
  rintro cd cc ⟨n, hn⟩
  obtain ⟨endpoint, protocol, host_pattern, username, password, he, hs, hu, hp, _, hprot, hf,
    hdt, hun, hpw, hm, _, _⟩ := newClientConfig_ok_fields d.decode n cd.decode cc hn
  refine ⟨⟨endpoint, host_pattern, ?_, ?_, ?_⟩, ?_, ?_, ?_, ?_⟩
  · simp only [clientEndpoint, IPMIClientConfigDoc.decode, IPMIConfigDoc.decode] at he
    cases hce : cd.endpoint with
    | none => simpa [hce] using he
    | some e => simp only [hce] at he; exact (Option.some.inj he).symm
  · rw [hprot]; exact hs
  · rw [hm]; rfl
  · simp only [clientUsername, IPMIClientConfigDoc.decode, IPMIConfigDoc.decode] at hu
    cases hcu : cd.username with
    | none => simp only [hcu] at hu; simp only [hun]; exact hu
    | some u => simp only [hcu] at hu; simp only [hun]; exact (Option.some.inj hu).symm
  · simp only [clientPassword, IPMIClientConfigDoc.decode, IPMIConfigDoc.decode] at hp
    cases hcp : cd.password with
    | none => simp only [hcp] at hp; simp only [hpw]; exact hp
    | some u => simp only [hcp] at hp; simp only [hpw]; exact (Option.some.inj hp).symm
  · rw [hf]
    simp only [clientFanout, IPMIClientConfigDoc.decode, IPMIConfigDoc.decode]
    cases cd.fanout <;> simp
  · rw [hdt]
    simp only [clientDriverType, IPMIClientConfigDoc.decode, IPMIConfigDoc.decode]
    cases cd.driver_type <;> simp

/-- Witness for C12 as amended: a document whose client config gives every field; the
created client config has the five per-client values. -/
theorem client_config_override_chain_witness :
    NewIPMIReceiver parseDefaultInterval "bmc" (.decoded overridingDoc.decode) =
      .ok overridingReceiver ∧
    List.Forall₂ (OverrideChain overridingDoc) (overridingDoc.client_config.getD [])
      overridingReceiver.ClientConfigs :=
  ⟨by rfl, client_config_override_chain parseDefaultInterval "bmc" overridingDoc
    overridingReceiver (by rfl)⟩

/-! ## One line of the sensor output (C13, C14, C15) -/

/-- The loop body never reads past the end of a slice. -/
theorem readSensorLine_ne_panic {F : Type} (ops : SensorOps F) (rname : String)
    (cc : IPMIReceiverClientConfig) (text : String) :
    readSensorLine ops rname cc text ≠ .panic := by
  unfold readSensorLine
  simp only
  generalize splitSep ": " text = v1
  rcases v1 with _ | ⟨a, _ | ⟨b, _ | ⟨c, r⟩⟩⟩
  · simp
  · simp
  · simp only [List.length_cons, List.length_nil, ne_eq, not_true_eq_false, if_false]
    simp only [List.getElem?_cons_zero, List.getElem?_cons_succ]
    cases mapLookup cc.IPMI2HostMapping a with
    | none => simp
    | some host =>
      simp only
      generalize splitSep "," b = v2
      rcases v2 with _ | ⟨f0, _ | ⟨f1, _ | ⟨f2, _ | ⟨f3, _ | ⟨f4, _ | ⟨f5, _ | ⟨f6, r⟩⟩⟩⟩⟩⟩⟩
      all_goals try simp
      · by_cases hna : f3 = "N/A"
        · simp [hna]
        · simp only [hna, if_false]
          cases canonicalMetric
              (ops.ToLower (String.mk (stringsReplace " ".data "_".data f1.data)))
              (ops.ToLower f2) f4 with
          | none => simp
          | some mu =>
            obtain ⟨metric, unit⟩ := mu
            simp only
            by_cases hex : metric ∈ cc.isExcluded
            · simp [hex]
            · simp only [hex, if_false]
              by_cases hp : (ops.ParseFloat f3).2 = true
              · simp [hp, lpNew]
              · simp [hp]
  · simp

/-- When the loop body sends a record, and which. -/
theorem readSensorLine_emit_iff {F : Type} (ops : SensorOps F) (rname : String)
    (cc : IPMIReceiverClientConfig) (text : String) (y : CCMessage F) :
    readSensorLine ops rname cc text = .emit y ↔
      ∃ id sensors host f0 vName vType reading vUnits vEvent metric unit,
        splitSep ": " text = [id, sensors] ∧
        mapLookup cc.IPMI2HostMapping id = some host ∧
        splitSep "," sensors = [f0, vName, vType, reading, vUnits, vEvent] ∧
        reading ≠ "N/A" ∧
        canonicalMetric (sensorName ops vName) (ops.ToLower vType) vUnits =
          some (metric, unit) ∧
        metric ∉ cc.isExcluded ∧
        (ops.ParseFloat reading).2 = true ∧
        y = sensorRecord rname host (sensorName ops vName) metric unit
          (ops.ParseFloat reading).1 := by
  constructor
  · intro h
    unfold readSensorLine at h
    simp only at h
    generalize hv1 : splitSep ": " text = v1 at h
    rcases v1 with _ | ⟨a, _ | ⟨b, _ | ⟨c, r⟩⟩⟩
    · simp at h
    · simp at h
    · simp only [List.length_cons, List.length_nil, ne_eq, not_true_eq_false, if_false] at h
      simp only [List.getElem?_cons_zero, List.getElem?_cons_succ] at h
      cases hl : mapLookup cc.IPMI2HostMapping a with
      | none => simp [hl] at h
      | some host =>
        simp only [hl] at h
        generalize hv2 : splitSep "," b = v2 at h
        rcases v2 with _ | ⟨f0, _ | ⟨f1, _ | ⟨f2, _ | ⟨f3, _ | ⟨f4, _ | ⟨f5, _ | ⟨f6, r⟩⟩⟩⟩⟩⟩⟩
        all_goals try (simp at h; done)
        simp only [List.length_cons, List.length_nil, ne_eq, not_true_eq_false, if_false,
          List.getElem?_cons_zero, List.getElem?_cons_succ] at h
        by_cases hna : f3 = "N/A"
        · simp [hna] at h
        · simp only [hna, if_false] at h
          cases hc : canonicalMetric
              (ops.ToLower (String.mk (stringsReplace " ".data "_".data f1.data)))
              (ops.ToLower f2) f4 with
          | none => simp [hc] at h
          | some mu =>
            obtain ⟨metric, unit⟩ := mu
            simp only [hc] at h
            by_cases hex : metric ∈ cc.isExcluded
            · simp [hex] at h
            · simp only [hex, if_false] at h
              by_cases hp : (ops.ParseFloat f3).2 = true
              · simp only [hp, Bool.not_true, Bool.false_eq_true, if_false, lpNew] at h
                injection h with h
                exact ⟨a, b, host, f0, f1, f2, f3, f4, f5, metric, unit, rfl, hl, hv2, hna, hc,
                  hex, hp, h.symm⟩
              · simp [hp] at h
    · simp at h
  · rintro ⟨id, sensors, host, f0, vName, vType, reading, vUnits, vEvent, metric, unit, h1, h2,
      h3, h4, h5, h6, h7, h8⟩
    unfold sensorName at h5
    unfold readSensorLine
    simp [h1, h2, h3, h4, h5, h6, h7, h8, lpNew, sensorRecord, sensorName]

/-- The chain of conditions of the code computes the rule table. -/
theorem canonicalMetric_iff_RuleTable (name type unit metric canonicalUnit : String) :
    canonicalMetric name type unit = some (metric, canonicalUnit) ↔
      RuleTable name type unit metric canonicalUnit := by
  unfold canonicalMetric RuleTable
  by_cases h1 : unit = "Watts"
  · subst h1
    simp
    constructor
    · rintro ⟨rfl, rfl⟩; exact ⟨rfl, rfl⟩
    · rintro ⟨rfl, rfl⟩; exact ⟨rfl, rfl⟩
  · simp only [h1, if_false, false_and, false_or]
    by_cases h2 : type = "voltage" ∧ unit = "Volts"
    · obtain ⟨rfl, rfl⟩ := h2
      simp
      constructor
      · rintro ⟨rfl, rfl⟩; exact ⟨rfl, rfl⟩
      · rintro ⟨rfl, rfl⟩; exact ⟨rfl, rfl⟩
    · rw [if_neg h2]
      by_cases h3 : type = "temperature" ∧ unit = "degrees C"
      · obtain ⟨rfl, rfl⟩ := h3
        simp
        constructor
        · rintro ⟨rfl, rfl⟩; exact ⟨rfl, rfl⟩
        · rintro ⟨rfl, rfl⟩; exact ⟨rfl, rfl⟩
      · rw [if_neg h3]
        by_cases h4 : type = "temperature" ∧ unit = "degrees F"
        · obtain ⟨rfl, rfl⟩ := h4
          simp
          constructor
          · rintro ⟨rfl, rfl⟩; exact ⟨rfl, rfl⟩
          · rintro ⟨rfl, rfl⟩; exact ⟨rfl, rfl⟩
        · rw [if_neg h4]
          by_cases h5 : type = "fan" ∧ unit = "RPM"
          · obtain ⟨rfl, rfl⟩ := h5
            simp
            constructor
            · rintro ⟨rfl, rfl⟩; exact ⟨rfl, rfl⟩
            · rintro ⟨rfl, rfl⟩; exact ⟨rfl, rfl⟩
          · rw [if_neg h5]
            by_cases h6 : type = "other units based sensor" ∧
                (unit = "unspecified" ∨ unit = "%") ∧
                (name = "cpu_utilization" ∨ name = "io_utilization" ∨
                  name = "mem_utilization" ∨ name = "sys_utilization")
            · rw [if_pos h6]
              constructor
              · intro h
                injection h with h
                injection h with ha hb
                right; right; right; right
                exact ⟨h6.1, h6.2.1, h6.2.2, ha.symm, hb.symm⟩
              · rintro (⟨ha, hb, _⟩ | ⟨ha, hb, _⟩ | ⟨ha, hb, _⟩ | ⟨ha, hb, _⟩ |
                  ⟨_, _, _, hm, hu⟩)
                · exact absurd ⟨ha, hb⟩ h2
                · exact absurd ⟨ha, hb⟩ h3
                · exact absurd ⟨ha, hb⟩ h4
                · exact absurd ⟨ha, hb⟩ h5
                · rw [hm, hu]
            · rw [if_neg h6]
              constructor
              · intro h; cases h
              · rintro (⟨ha, hb, _⟩ | ⟨ha, hb, _⟩ | ⟨ha, hb, _⟩ | ⟨ha, hb, _⟩ |
                  ⟨ha, hb, hc, _, _⟩)
                · exact absurd ⟨ha, hb⟩ h2
                · exact absurd ⟨ha, hb⟩ h3
                · exact absurd ⟨ha, hb⟩ h4
                · exact absurd ⟨ha, hb⟩ h5
                · exact absurd ⟨ha, hb, hc⟩ h6

theorem readSensorLine_skip_of_not_emit {F : Type} (ops : SensorOps F) (rname : String)
    (cc : IPMIReceiverClientConfig) (text : String)
    (h : ∀ y, readSensorLine ops rname cc text ≠ .emit y) :
    readSensorLine ops rname cc text = .skip := by
  cases hr : readSensorLine ops rname cc text with
  | skip => rfl
  | emit y => exact absurd hr (h y)
  | panic => exact absurd hr (readSensorLine_ne_panic ops rname cc text)

/-- C13: for every sensor line that is not skipped for another reason (the line splits
into a known host identifier and six fields, the reading is not N/A and parses as a
number), name and unit of the record are given by the rule table: when the table gives
a metric name and unit for the sensor name, type and unit of the line, and the metric is
not excluded, the record with that name and unit is sent; when the table gives nothing,
no record is sent; and a record that is sent has a name and unit of the table. -/
theorem sensor_line_follows_rule_table {F : Type} (ops : SensorOps F) (rname : String)
    (cc : IPMIReceiverClientConfig)
    (text id sensors host f0 vName vType reading vUnits vEvent : String)
    (h1 : splitSep ": " text = [id, sensors])
    (h2 : mapLookup cc.IPMI2HostMapping id = some host)
    (h3 : splitSep "," sensors = [f0, vName, vType, reading, vUnits, vEvent])
    (h4 : reading ≠ "N/A") (h5 : (ops.ParseFloat reading).2 = true) :
    (∀ metric unit, RuleTable (sensorName ops vName) (ops.ToLower vType) vUnits metric unit →
      metric ∉ cc.isExcluded →
      readSensorLine ops rname cc text =
        .emit (sensorRecord rname host (sensorName ops vName) metric unit
          (ops.ParseFloat reading).1)) ∧
    ((¬ ∃ metric unit, RuleTable (sensorName ops vName) (ops.ToLower vType) vUnits metric unit) →
      readSensorLine ops rname cc text = .skip) ∧
    (∀ y, readSensorLine ops rname cc text = .emit y →
      RuleTable (sensorName ops vName) (ops.ToLower vType) vUnits y.name
        (mapGet y.meta "unit")) := by
  have key : ∀ y, readSensorLine ops rname cc text = .emit y →
      ∃ metric unit, RuleTable (sensorName ops vName) (ops.ToLower vType) vUnits metric unit ∧
        y = sensorRecord rname host (sensorName ops vName) metric unit
          (ops.ParseFloat reading).1 := by
    intro y hy
    obtain ⟨id2, sensors2, host2, g0, gName, gType, greading, gUnits, gEvent, metric, unit, k1,
      k2, k3, _, k5, _, _, k8⟩ := (readSensorLine_emit_iff ops rname cc text y).mp hy
    rw [h1] at k1
    injection k1 with ka kb
    injection kb with kb _
    subst ka kb
    rw [h2] at k2
    injection k2 with k2
    subst k2
    rw [h3] at k3
    simp only [List.cons.injEq, and_true] at k3
    obtain ⟨_, rfl, rfl, rfl, rfl, _⟩ := k3
    exact ⟨metric, unit, (canonicalMetric_iff_RuleTable _ _ _ _ _).mp k5, k8⟩
  refine ⟨?_, ?_, ?_⟩
  · intro metric unit hr hex
    exact (readSensorLine_emit_iff ops rname cc text _).mpr
      ⟨id, sensors, host, f0, vName, vType, reading, vUnits, vEvent, metric, unit, h1, h2, h3,
        h4, (canonicalMetric_iff_RuleTable _ _ _ _ _).mpr hr, hex, h5, rfl⟩
  · intro hno
    apply readSensorLine_skip_of_not_emit
    intro y hy
    obtain ⟨metric, unit, hr, _⟩ := key y hy
    exact hno ⟨metric, unit, hr⟩
  · intro y hy
    obtain ⟨metric, unit, hr, hyr⟩ := key y hy
    subst hyr
    simpa [sensorRecord, mapGet, mapLookup] using hr

/-- Witness for C13: a line of type Fan with unit RPM for a known host; the record is
named fan_speed and has the unit RPM. -/
theorem sensor_line_follows_rule_table_witness :
    splitSep ": " fanLine = ["ipmi-n1", "12,Fan 1,Fan,3000.00,RPM,'OK'"] ∧
    RuleTable (sensorName asciiSensorOps "Fan 1") (asciiSensorOps.ToLower "Fan") "RPM"
      "fan_speed" "RPM" ∧
    readSensorLine asciiSensorOps "IPMIReceiver(bmc)" fanExcludedClient fanLine =
      .emit (sensorRecord "IPMIReceiver(bmc)" "n1" (sensorName asciiSensorOps "Fan 1")
        "fan_speed" "RPM" (asciiSensorOps.ParseFloat "3000.00").1) :=
  ⟨by decide, Or.inr (Or.inr (Or.inr (Or.inr (Or.inl ⟨by decide, rfl, rfl, rfl⟩)))),
    (sensor_line_follows_rule_table asciiSensorOps "IPMIReceiver(bmc)" fanExcludedClient fanLine
      "ipmi-n1" "12,Fan 1,Fan,3000.00,RPM,'OK'" "n1" "12" "Fan 1" "Fan" "3000.00" "RPM" "'OK'"
      (by decide) (by decide) (by decide) (by decide) (by decide)).1 "fan_speed" "RPM"
      (Or.inr (Or.inr (Or.inr (Or.inr (Or.inl ⟨by decide, rfl, rfl, rfl⟩))))) (by decide)⟩

theorem mem_readSensorLines {F : Type} (ops : SensorOps F) (rname : String)
    (cc : IPMIReceiverClientConfig) :
    ∀ (lines : List String) (y : CCMessage F), y ∈ (readSensorLines ops rname cc lines).1 →
      ∃ text ∈ lines, readSensorLine ops rname cc text = .emit y
  | [], y, h => by simp [readSensorLines] at h
  | text :: rest, y, h => by
    rw [readSensorLines] at h
    cases hr : readSensorLine ops rname cc text with
    | panic => simp [hr] at h
    | skip =>
      simp only [hr] at h
      obtain ⟨t, ht, he⟩ := mem_readSensorLines ops rname cc rest y h
      exact ⟨t, List.mem_cons_of_mem _ ht, he⟩
    | emit z =>
      simp only [hr] at h
      rcases List.mem_cons.mp h with h1 | h1
      · exact ⟨text, List.mem_cons_self _ _, h1 ▸ hr⟩
      · obtain ⟨t, ht, he⟩ := mem_readSensorLines ops rname cc rest y h1
        exact ⟨t, List.mem_cons_of_mem _ ht, he⟩

theorem readSensorLines_total {F : Type} (ops : SensorOps F) (rname : String)
    (cc : IPMIReceiverClientConfig) :
    ∀ (lines : List String), (readSensorLines ops rname cc lines).2 = false ∧
      (readSensorLines ops rname cc lines).1.length ≤ lines.length
  | [] => by simp [readSensorLines]
  | text :: rest => by
    obtain ⟨h1, h2⟩ := readSensorLines_total ops rname cc rest
    rw [readSensorLines]
    cases hr : readSensorLine ops rname cc text with
    | panic => exact absurd hr (readSensorLine_ne_panic ops rname cc text)
    | skip => exact ⟨h1, Nat.le_succ_of_le h2⟩
    | emit z => exact ⟨h1, Nat.succ_le_succ h2⟩

theorem mem_readClient_sink {F : Type} (ops : SensorOps F) (rname : String)
    (env : IPMICommandEnv) (cc : IPMIReceiverClientConfig) (y : CCMessage F)
    (h : y ∈ (readClient ops rname env cc).sink) :
    ∃ text, readSensorLine ops rname cc text = .emit y := by
  unfold readClient at h
  by_cases hp : cc.Protocol = "ipmi-sensors"
  · simp only [hp, if_true] at h
    cases hs : env.startErr with
    | some err => simp [hs] at h
    | none =>
      simp only [hs] at h
      have hall : y ∈ (readSensorLines ops rname cc
          ((scanLines env.stdout.data).map String.mk)).1 := by
        split at h
        · exact h
        · split at h <;> exact h
      obtain ⟨t, _, he⟩ := mem_readSensorLines ops rname cc _ y hall
      exact ⟨t, he⟩
  · simp [hp] at h

/-- C14: for every configuration for which `NewIPMIReceiver` returns a receiver and every
client config of it, the exclusion set is the union of the top-level `exclude_metrics` and
the `exclude_metrics` of the client config, and a pass sends for this client no record
whose metric name is in the union. The test is made on the canonical name after the rule
table: a line whose canonical name is not excluded is sent whatever the sensor type
printed on the line, as the line of type Fan, sent as fan_speed by a client that excludes
the name fan. -/
theorem exclusion_on_canonical_name (parseDuration : String → Option Int) (name : String)
    (c : IPMIConfigJSON) (r : IPMIReceiver)
    (h : NewIPMIReceiver parseDuration name (.decoded c) = .ok r) :
    List.Forall₂
      (fun cj cc =>
        (∀ metric, metric ∈ cc.isExcluded ↔
          metric ∈ c.ExcludeMetrics ∨ metric ∈ cj.ExcludeMetrics) ∧
        ∀ (F : Type) (ops : SensorOps F) (env : IPMICommandEnv) (y : CCMessage F),
          y ∈ (readClient ops r.name env cc).sink →
            y.name ∉ c.ExcludeMetrics ∧ y.name ∉ cj.ExcludeMetrics)
      c.ClientConfigs r.ClientConfigs ∧
    "fan" ∈ fanExcludedClient.isExcluded ∧
    readSensorLine asciiSensorOps "IPMIReceiver(bmc)" fanExcludedClient fanLine =
      .emit (sensorRecord "IPMIReceiver(bmc)" "n1" "fan_1" "fan_speed" "RPM" 300000) := by
  refine ⟨?_, by decide, by decide⟩
  refine List.Forall₂.imp ?_ (NewIPMIReceiver_ok parseDuration name c r h)
  rintro cj cc ⟨n, hn⟩
  obtain ⟨_, _, _, _, _, _, _, _, _, _, _, _, _, _, _, _, _, hex⟩ :=
    newClientConfig_ok_fields c n cj cc hn
  have hunion : ∀ metric, metric ∈ cc.isExcluded ↔
      metric ∈ c.ExcludeMetrics ∨ metric ∈ cj.ExcludeMetrics := by
    intro metric
    rw [hex, List.mem_append]
    exact Or.comm
  refine ⟨hunion, ?_⟩
  intro F ops env y hy
  obtain ⟨text, ht⟩ := mem_readClient_sink ops r.name env cc y hy
  obtain ⟨_, _, _, _, _, _, _, _, _, metric, unit, _, _, _, _, _, k6, _, k8⟩ :=
    (readSensorLine_emit_iff ops r.name cc text y).mp ht
  have hname : y.name = metric := by rw [k8]; rfl
  rw [hname]
  constructor
  · intro hm; exact k6 ((hunion metric).mpr (Or.inl hm))
  · intro hm; exact k6 ((hunion metric).mpr (Or.inr hm))

theorem readClients_total {F : Type} (ops : SensorOps F) (rname : String)
    (env : Nat → IPMICommandEnv) :
    ∀ (ccs : List IPMIReceiverClientConfig) (i : Nat),
      (readClients ops rname env i ccs).panicked = false
  | [], _ => rfl
  | cc :: rest, i => by
    have h1 : (readClient ops rname (env i) cc).panicked = false := by
      unfold readClient
      split
      · split
        · rfl
        · simp only [(readSensorLines_total ops rname cc _).1]
          split
          · rename_i hc; cases hc
          · split <;> rfl
      · rfl
    rw [readClients]
    simp only [h1]
    exact readClients_total ops rname env rest (i + 1)

/-- C15: processing one output line is total. For every line text the loop body skips
the line or sends one record and never reads past the end of a slice; it sends none when
the text does not split at `: ` into two parts, when the host identifier is not a key of
the mapping, when the sensor part does not have exactly 6 comma-separated fields, when
the reading is N/A, or when the reading is not a number. Over the lines of an output the
loop never fails and sends at most one record per line, and a whole pass over the client
configs never fails. -/
theorem sensor_line_is_total {F : Type} (ops : SensorOps F) (rname : String)
    (cc : IPMIReceiverClientConfig) (text : String) :
    readSensorLine ops rname cc text ≠ .panic ∧
    ((splitSep ": " text).length ≠ 2 → readSensorLine ops rname cc text = .skip) ∧
    (∀ id sensors, splitSep ": " text = [id, sensors] →
      mapLookup cc.IPMI2HostMapping id = none → readSensorLine ops rname cc text = .skip) ∧
    (∀ id sensors, splitSep ": " text = [id, sensors] →
      (splitSep "," sensors).length ≠ 6 → readSensorLine ops rname cc text = .skip) ∧
    (∀ id sensors f0 vName vType reading vUnits vEvent, splitSep ": " text = [id, sensors] →
      splitSep "," sensors = [f0, vName, vType, reading, vUnits, vEvent] →
      reading = "N/A" ∨ (ops.ParseFloat reading).2 = false →
      readSensorLine ops rname cc text = .skip) ∧
    (∀ lines : List String, (readSensorLines ops rname cc lines).2 = false ∧
      (readSensorLines ops rname cc lines).1.length ≤ lines.length) ∧
    (∀ (env : Nat → IPMICommandEnv) (r : IPMIReceiver),
      (IPMIReceiver.doReadMetric ops env r).panicked = false) := by
  refine ⟨readSensorLine_ne_panic ops rname cc text, ?_, ?_, ?_, ?_,
    readSensorLines_total ops rname cc,
    fun env r => readClients_total ops r.name env r.ClientConfigs 0⟩
  · intro hlen
    apply readSensorLine_skip_of_not_emit
    intro y hy
    obtain ⟨_, _, _, _, _, _, _, _, _, _, _, k1, _⟩ :=
      (readSensorLine_emit_iff ops rname cc text y).mp hy
    rw [k1] at hlen
    exact hlen rfl
  · intro id sensors h1 h2
    apply readSensorLine_skip_of_not_emit
    intro y hy
    obtain ⟨_, _, _, _, _, _, _, _, _, _, _, k1, k2, _⟩ :=
      (readSensorLine_emit_iff ops rname cc text y).mp hy
    rw [h1] at k1
    injection k1 with ka _
    subst ka
    rw [h2] at k2
    cases k2
  · intro id sensors h1 h2
    apply readSensorLine_skip_of_not_emit
    intro y hy
    obtain ⟨_, _, _, _, _, _, _, _, _, _, _, k1, _, k3, _⟩ :=
      (readSensorLine_emit_iff ops rname cc text y).mp hy
    rw [h1] at k1
    injection k1 with _ kb
    injection kb with kb _
    subst kb
    rw [k3] at h2
    exact h2 rfl
  · intro id sensors f0 vName vType reading vUnits vEvent h1 h3 hbad
    apply readSensorLine_skip_of_not_emit
    intro y hy
    obtain ⟨_, _, _, _, _, _, _, _, _, _, _, k1, _, k3, k4, _, _, k7, _⟩ :=
      (readSensorLine_emit_iff ops rname cc text y).mp hy
    rw [h1] at k1
    injection k1 with _ kb
    injection kb with kb _
    subst kb
    rw [h3] at k3
    simp only [List.cons.injEq, and_true] at k3
    obtain ⟨_, _, _, rfl, _, _⟩ := k3
    rcases hbad with hb | hb
    · exact k4 hb
    · rw [hb] at k7
      cases k7

/-- Witness for C14: a configuration that excludes power at the top level and fan in
the client config; the exclusion set of the created client config is the union. -/
theorem exclusion_on_canonical_name_witness :
    NewIPMIReceiver parseDefaultInterval "bmc" (.decoded excludingConfig) =
      .ok excludingReceiver ∧
    excludingReceiver.ClientConfigs.map (fun cc => cc.isExcluded) = [["fan", "power"]] ∧
    List.Forall₂
      (fun cj cc =>
        (∀ metric, metric ∈ cc.isExcluded ↔
          metric ∈ excludingConfig.ExcludeMetrics ∨ metric ∈ cj.ExcludeMetrics) ∧
        ∀ (F : Type) (ops : SensorOps F) (env : IPMICommandEnv) (y : CCMessage F),
          y ∈ (readClient ops excludingReceiver.name env cc).sink →
            y.name ∉ excludingConfig.ExcludeMetrics ∧ y.name ∉ cj.ExcludeMetrics)
      excludingConfig.ClientConfigs excludingReceiver.ClientConfigs :=
  ⟨by rfl, by decide,
    (exclusion_on_canonical_name parseDefaultInterval "bmc" excludingConfig excludingReceiver
      (by rfl)).1⟩

/-! ## The password in logged command lines (C16) -/

set_option maxRecDepth 100000 in
/-- C16, the code at the failing input: the client has the password `secret` and the
command fails to start. The one logged message holds the whole command line, and the
password in cleartext: only the message for a failed `Wait` replaces the password by
`<PW>`, as the second evaluation shows. -/
theorem start_failure_logs_password :
    fanExcludedClient.Password = "secret" ∧
    (readClient asciiSensorOps "IPMIReceiver(bmc)" startFailureEnv fanExcludedClient).log =
      [["doReadMetric(): Failed to start command \"ipmi-sensors --always-prefix " ++
        "--sdr-cache-recreate --interpret-oem-data --ignore-not-available-sensors " ++
        "--ignore-unrecognized-events --comma-separated-output --no-header-output " ++
        "--non-abbreviated-units --fanout 64 --driver-type LAN_2_0 --host ipmi-n1,ipmi-n2 " ++
        "--user admin --password secret\": " ++
        "exec: \"ipmi-sensors\": executable file not found in $PATH"]] ∧
    ((readClient asciiSensorOps "IPMIReceiver(bmc)" startFailureEnv fanExcludedClient).log.map
      (fun msgs => msgs.map (fun msg => containsSub "secret".data msg.data))) = [[true]] ∧
    ((readClient asciiSensorOps "IPMIReceiver(bmc)" waitFailureEnv fanExcludedClient).log.map
      (fun msgs => msgs.map (fun msg => containsSub "secret".data msg.data))) =
        [[false, false]] := by
  decide

/-! ## The mount points of a tick (C19) -/

theorem mountpoints_eq_selection (skipFS : List String) :
    ∀ (lines : List (List Char)),
      (∀ line ∈ lines, line ≠ [] → 2 ≤ (fields line).length) →
      mountpoints skipFS lines = some (mountTableSelection skipFS lines)
  | [], _ => rfl
  | line :: rest, hwf => by
    have ih := mountpoints_eq_selection skipFS rest
      (fun l hl => hwf l (List.mem_cons_of_mem _ hl))
    rw [mountpoints]
    unfold mountTableSelection at ih ⊢
    rw [List.filterMap_cons]
    by_cases he : line = []
    · subst he
      simp only [List.isEmpty_nil, if_true]
      rw [ih]
      rfl
    · have h2 := hwf line (List.mem_cons_self _ _) he
      have hne : line.isEmpty = false := by
        cases line with
        | nil => exact absurd rfl he
        | cons _ _ => rfl
      simp only [hne]
      rcases hf : fields line with _ | ⟨f0, _ | ⟨f1, fs⟩⟩
      · rw [hf] at h2; simp at h2
      · rw [hf] at h2; simp at h2
      · simp only [Bool.false_eq_true, if_false]
        by_cases hc : containsSub "beegfs_ondemand".data f0 = true
        · by_cases hs : String.mk f1 ∈ skipFS
          · simp [hc, hs, ih]
          · simp [hc, hs, ih]
        · simp [hc, ih]

theorem readMountsQueried_isPrefix {F : Type} (ops : FloatOps F) (env : BeegfsReadEnv) :
    ∀ (mps : List String) (n : Nat) (m : BeegfsStorageCollector),
      readMountsQueried ops env n m mps <+: mps
  | [], _, _ => by simp [readMountsQueried]
  | mp :: rest, n, m => by
    rw [readMountsQueried]
    simp only
    split
    · exact ⟨rest, rfl⟩
    · split
      · exact ⟨rest, rfl⟩
      · obtain ⟨t, ht⟩ := readMountsQueried_isPrefix ops env rest (n + 1) _
        exact ⟨t, by rw [List.cons_append, ht]⟩

theorem readMountsQueried_all {F : Type} (ops : FloatOps F) (env : BeegfsReadEnv)
    (hrun : ∀ n argv, (env.run n argv).isSome = true) :
    ∀ (mps : List String) (n : Nat) (m : BeegfsStorageCollector),
      (readMounts ops env n m mps).panicked = false →
      readMountsQueried ops env n m mps = mps
  | [], _, _, _ => by simp [readMountsQueried]
  | mp :: rest, n, m, hp => by
    rw [readMounts] at hp
    rw [readMountsQueried]
    simp only at hp ⊢
    cases hr : env.run n [m.config.Beegfs, "--clientstats", "--nodetype=storage",
        "--mount=" ++ mp, "--allstats"] with
    | none =>
      have := hrun n [m.config.Beegfs, "--clientstats", "--nodetype=storage",
        "--mount=" ++ mp, "--allstats"]
      rw [hr] at this
      cases this
    | some stdout =>
      simp only [hr] at hp ⊢
      by_cases hq : (readLines ops { m with tags := mapSet m.tags "filesystem" mp }
          (scanLines stdout.data)).panicked = true
      · simp only [hq, if_true] at hp
        cases hp
      · simp only [hq] at hp ⊢
        simp only [Bool.false_eq_true, if_false]
        rw [readMountsQueried_all ops env hrun rest (n + 1) _ hp]

theorem Init_ok_ready (env : BeegfsInitEnv) (m : BeegfsStorageCollector)
    (config : Option BeegfsConfigJSON) (h0 : m.init = false)
    (hok : (BeegfsStorageCollector.Init env m config).2 = none) :
    (BeegfsStorageCollector.Init env m config).1.init = true ∧
    (BeegfsStorageCollector.Init env m config).1.skipFS =
      (BeegfsStorageCollector.Init env m config).1.config.ExcludeFilesystem := by
  cases config with
  | none =>
    cases hu : env.currentUid with
    | none => simp [BeegfsStorageCollector.Init, h0, hu] at hok
    | some uid =>
      by_cases h1 : uid = "0"
      · by_cases hl : env.lookPath env.DEFAULT_BEEGFS_CMD = true
        · simp [BeegfsStorageCollector.Init, h0, hu, h1, hl, BeegfsStorageCollector.setup]
        · simp [BeegfsStorageCollector.Init, h0, hu, h1, hl, BeegfsStorageCollector.setup] at hok
      · simp [BeegfsStorageCollector.Init, h0, hu, h1] at hok
  | some j =>
    by_cases hj : j.err = true
    · simp [BeegfsStorageCollector.Init, h0, hj] at hok
    · cases hu : env.currentUid with
      | none => simp [BeegfsStorageCollector.Init, h0, hu, hj] at hok
      | some uid =>
        by_cases h1 : uid = "0"
        · by_cases hl : env.lookPath (j.beegfs_path.getD env.DEFAULT_BEEGFS_CMD) = true
          · simp [BeegfsStorageCollector.Init, h0, hu, h1, hl, hj, BeegfsStorageCollector.setup,
              BeegfsConfigJSON.apply]
          · simp [BeegfsStorageCollector.Init, h0, hu, h1, hl, hj, BeegfsStorageCollector.setup,
              BeegfsConfigJSON.apply] at hok
        · simp [BeegfsStorageCollector.Init, h0, hu, h1, hj] at hok

theorem Reachable_ready {F : Type} (ops : FloatOps F) (m : BeegfsStorageCollector)
    (hm : Reachable ops m) : m.init = true ∧ m.skipFS = m.config.ExcludeFilesystem := by
  induction hm with
  | init env m config h0 hok => exact Init_ok_ready env m config h0 hok
  | mount m mp _ ih => exact ih
  | line m line r _ hr ih =>
    obtain ⟨hc, _, _, hi, _, _⟩ := readLine_collector ops m line r hr
    have hs : r.collector.skipFS = m.skipFS := by
      unfold readLine at hr
      by_cases hsl : sumLine line = true
      · simp only [hsl] at hr
        cases hst : statsLine line with
        | none => simp [hst] at hr; subst hr; rfl
        | some g =>
          simp only [hst] at hr
          by_cases hq : (readPairs ops m.matches_ (splitStats g)).2 = true
          · simp [hq] at hr; subst hr; rfl
          · simp [hq] at hr; subst hr; rfl
      · simp [hsl] at hr
    rw [hi, hs, hc]
    exact ih

/-- Counterexample to C19 as stated. For the mount table with the one line
`beegfs_ondemand`, which has no second field, `Read` stops with a runtime failure. And
for a mount table with the two selected mount points /mnt/a and /mnt/b and a command that
fails, `Read` runs the command for /mnt/a only: it returns at the first failed
command. -/
theorem read_does_not_query_every_selected_mount :
    (BeegfsStorageCollector.Read decimalOps oneFieldMountEnv
      (initializedCollector [])).panicked = true ∧
    mountTableSelection (initializedCollector []).config.ExcludeFilesystem
      (splitChar '\n' failingCommandEnv.mounts.data) = ["/mnt/a", "/mnt/b"] ∧
    BeegfsStorageCollector.ReadQueried decimalOps failingCommandEnv (initializedCollector []) =
      ["/mnt/a"] := by
  decide

theorem readLines_not_panicked {F : Type} (ops : FloatOps F) :
    ∀ (lines : List (List Char)) (m : BeegfsStorageCollector),
      (∀ line ∈ lines, sumLine line = true →
        ∃ toks, (statsLine line).map splitStats = some toks ∧ toks.length % 2 = 0) →
      (readLines ops m lines).panicked = false
  | [], _, _ => rfl
  | line :: rest, m, h => by
    have hrest : ∀ l ∈ rest, sumLine l = true →
        ∃ toks, (statsLine l).map splitStats = some toks ∧ toks.length % 2 = 0 :=
      fun l hl => h l (List.mem_cons_of_mem _ hl)
    rw [readLines]
    by_cases hs : sumLine line = true
    · obtain ⟨toks, ht, he⟩ := h line (List.mem_cons_self _ _) hs
      rw [readLine_even ops m line toks hs ht he]
      simp only [Bool.false_eq_true, if_false]
      exact readLines_not_panicked ops rest _ hrest
    · have hnone : readLine ops m line = none := by
        unfold readLine
        simp [hs]
      rw [hnone]
      exact readLines_not_panicked ops rest m hrest

theorem readMounts_not_panicked {F : Type} (ops : FloatOps F) (env : BeegfsReadEnv)
    (hrun : ∀ n argv, ∃ stdout, env.run n argv = some stdout ∧
      ∀ line ∈ scanLines stdout.data, sumLine line = true →
        ∀ toks, (statsLine line).map splitStats = some toks → toks.length % 2 = 0) :
    ∀ (mps : List String) (n : Nat) (m : BeegfsStorageCollector),
      (readMounts ops env n m mps).panicked = false
  | [], _, _ => rfl
  | mp :: rest, n, m => by
    rw [readMounts]
    simp only
    obtain ⟨stdout, hr, hlines⟩ := hrun n [m.config.Beegfs, "--clientstats",
      "--nodetype=storage", "--mount=" ++ mp, "--allstats"]
    have hp : (readLines ops { m with tags := mapSet m.tags "filesystem" mp }
        (scanLines stdout.data)).panicked = false := by
      apply readLines_not_panicked
      intro line hl hs
      obtain ⟨g, hg⟩ := statsLine_of_sumLine line hs (scanLines_no_newline _ line hl)
      exact ⟨splitStats g, by rw [hg]; rfl, hlines line hl hs _ (by rw [hg]; rfl)⟩
    simp only [hr, hp, Bool.false_eq_true, if_false]
    exact readMounts_not_panicked ops env hrun rest (n + 1) _

/-- C19, as amended: let the collector be in a state after a successful `Init`, and let
every non-empty line of the mount table have at least two fields (as the lines of
/proc/mounts have). Then the mount points `Read` sets out to query are exactly, in table
order, the second fields of the lines whose first field contains `beegfs_ondemand` and
whose mount point is not listed in `exclude_filesystem`. `Read` runs the command for them
in this order and stops at the first whose command fails (or whose output stops the code):
the mount points queried are a first part of the selection. They are all of it when every
command succeeds and every selected line of the outputs has an even number of tokens, and
then `Read` ends without a runtime failure; they are all of it also whenever every command
succeeds and `Read` ends without a runtime failure. When the selection is empty, `Read`
runs no command, sends no record and leaves the collector as it is. -/
theorem read_queries_selected_mounts {F : Type} (ops : FloatOps F) (env : BeegfsReadEnv)
    (m : BeegfsStorageCollector) (hm : Reachable ops m)
    (hwf : ∀ line ∈ splitChar '\n' env.mounts.data, line ≠ [] → 2 ≤ (fields line).length) :
    mountpoints m.skipFS (splitChar '\n' env.mounts.data) =
      some (mountTableSelection m.config.ExcludeFilesystem (splitChar '\n' env.mounts.data)) ∧
    BeegfsStorageCollector.ReadQueried ops env m <+:
      mountTableSelection m.config.ExcludeFilesystem (splitChar '\n' env.mounts.data) ∧
    ((∀ n argv, ∃ stdout, env.run n argv = some stdout ∧
        ∀ line ∈ scanLines stdout.data, sumLine line = true →
          ∀ toks, (statsLine line).map splitStats = some toks → toks.length % 2 = 0) →
      BeegfsStorageCollector.ReadQueried ops env m =
        mountTableSelection m.config.ExcludeFilesystem (splitChar '\n' env.mounts.data) ∧
      (BeegfsStorageCollector.Read ops env m).panicked = false) ∧
    ((∀ n argv, (env.run n argv).isSome = true) →
      (BeegfsStorageCollector.Read ops env m).panicked = false →
      BeegfsStorageCollector.ReadQueried ops env m =
        mountTableSelection m.config.ExcludeFilesystem (splitChar '\n' env.mounts.data)) ∧
    (mountTableSelection m.config.ExcludeFilesystem (splitChar '\n' env.mounts.data) = [] →
      BeegfsStorageCollector.ReadQueried ops env m = [] ∧
      (BeegfsStorageCollector.Read ops env m).output = [] ∧
      (BeegfsStorageCollector.Read ops env m).panicked = false ∧
      (BeegfsStorageCollector.Read ops env m).collector = m) := by
  obtain ⟨hi, hs⟩ := Reachable_ready ops m hm
  have hsel := mountpoints_eq_selection m.skipFS (splitChar '\n' env.mounts.data) hwf
  rw [hs] at hsel
  have hall : (∀ n argv, (env.run n argv).isSome = true) →
      (BeegfsStorageCollector.Read ops env m).panicked = false →
      BeegfsStorageCollector.ReadQueried ops env m =
        mountTableSelection m.config.ExcludeFilesystem (splitChar '\n' env.mounts.data) := by
    intro hrun hp
    unfold BeegfsStorageCollector.ReadQueried
    unfold BeegfsStorageCollector.Read at hp
    simp only [hi, hs, hsel, Bool.not_true, Bool.false_eq_true, if_false] at hp ⊢
    split
    · rename_i he
      exact (List.isEmpty_iff.mp he).symm
    · rename_i he
      simp only [he, Bool.false_eq_true, if_false] at hp
      exact readMountsQueried_all ops env hrun _ 0 m hp
  refine ⟨by rw [hs]; exact hsel, ?_, ?_, hall, ?_⟩
  · unfold BeegfsStorageCollector.ReadQueried
    simp only [hi, hs, hsel, Bool.not_true, Bool.false_eq_true, if_false]
    split
    · exact List.nil_prefix
    · exact readMountsQueried_isPrefix ops env _ 0 m
  · intro hrun
    have hp : (BeegfsStorageCollector.Read ops env m).panicked = false := by
      unfold BeegfsStorageCollector.Read
      simp only [hi, hs, hsel, Bool.not_true, Bool.false_eq_true, if_false]
      split
      · rfl
      · exact readMounts_not_panicked ops env hrun _ 0 m
    refine ⟨hall ?_ hp, hp⟩
    intro n argv
    obtain ⟨stdout, hr, _⟩ := hrun n argv
    rw [hr]
    rfl
  · intro hnil
    unfold BeegfsStorageCollector.ReadQueried BeegfsStorageCollector.Read
    simp [hi, hs, hsel, hnil]

set_option maxRecDepth 100000 in
/-- Witness for C19 as amended: a mount table with two BeeGFS on demand mounts and a root
file system, and commands that succeed with one selected line of four tokens; both mount
points are queried, in table order, and 18 records are sent for each. -/
theorem read_queries_selected_mounts_witness :
    Reachable decimalOps (initializedCollector []) ∧
    (∀ line ∈ splitChar '\n' twoMountStatsEnv.mounts.data,
      line ≠ [] → 2 ≤ (fields line).length) ∧
    (∀ n argv, ∃ stdout, twoMountStatsEnv.run n argv = some stdout ∧
      ∀ line ∈ scanLines stdout.data, sumLine line = true →
        ∀ toks, (statsLine line).map splitStats = some toks → toks.length % 2 = 0) ∧
    mountTableSelection (initializedCollector []).config.ExcludeFilesystem
      (splitChar '\n' twoMountStatsEnv.mounts.data) = ["/mnt/a", "/mnt/b"] ∧
    BeegfsStorageCollector.ReadQueried decimalOps twoMountStatsEnv (initializedCollector []) =
      mountTableSelection (initializedCollector []).config.ExcludeFilesystem
        (splitChar '\n' twoMountStatsEnv.mounts.data) ∧
    (BeegfsStorageCollector.Read decimalOps twoMountStatsEnv
      (initializedCollector [])).output.length = 36 := by
  have hrun : ∀ n argv, ∃ stdout, twoMountStatsEnv.run n argv = some stdout ∧
      ∀ line ∈ scanLines stdout.data, sumLine line = true →
        ∀ toks, (statsLine line).map splitStats = some toks → toks.length % 2 = 0 := by
    intro n argv
    refine ⟨"Sum: 42 [x] 10 [ack]\n", rfl, ?_⟩
    intro line hl _ toks ht
    have hsl : scanLines "Sum: 42 [x] 10 [ack]\n".data = ["Sum: 42 [x] 10 [ack]".data] := by
      decide
    rw [hsl, List.mem_singleton] at hl
    subst hl
    have hst : (statsLine "Sum: 42 [x] 10 [ack]".data).map splitStats =
        some ["42", "x", "10", "ack"] := by decide
    rw [hst] at ht
    injection ht with ht
    subst ht
    rfl
  exact ⟨Reachable.init _ _ _ rfl (by decide), by decide, hrun, by decide,
    ((read_queries_selected_mounts decimalOps twoMountStatsEnv (initializedCollector [])
      (Reachable.init _ _ _ rfl (by decide)) (by decide)).2.2.1 hrun).1, by decide⟩

/-! ## TopProcsCollector.Read on a short listing (C20) -/

theorem readTopProcs_panicked (m : TopProcsCollector) (lines : List String) :
    ∀ (k i : Nat), (readTopProcs m lines i k).panicked = true ↔ k ≠ 0 ∧ lines.length < i + k
  | 0, i => by simp [readTopProcs]
  | k + 1, i => by
    rw [readTopProcs]
    cases hl : lines[i]? with
    | none =>
      have hlen : lines.length ≤ i := List.getElem?_eq_none_iff.mp hl
      simp only [true_iff]
      exact ⟨Nat.succ_ne_zero k, by omega⟩
    | some line =>
      have hlen : i < lines.length := by
        by_contra hge
        have := List.getElem?_eq_none_iff.mpr (Nat.le_of_not_lt hge)
        rw [this] at hl
        cases hl
      simp only
      rw [readTopProcs_panicked m lines k (i + 1)]
      constructor
      · rintro ⟨_, h2⟩
        exact ⟨Nat.succ_ne_zero k, by omega⟩
      · rintro ⟨_, h2⟩
        refine ⟨?_, by omega⟩
        intro hk
        subst hk
        omega

/-- C20, the code at the failing input: a collector initialized with `num_procs = 10`
(accepted by `Init`) reads a `ps` listing of a header and three processes. The loop
reads `lines[1]` to `lines[4]` (the last one the empty text after the final newline) and
then `lines[5]`, past the end of the slice: `Read` stops with a runtime failure after four
records. The same happens for every ready collector with `num_procs` from 1 to 10 whenever
the output has no more than `num_procs` parts between newlines. -/
theorem topprocs_read_short_listing_fails :
    (TopProcsCollector.Init true newTopProcsCollector
      (some { num_procs := some 10, err := false })).2 = none ∧
    tenProcsCollector.init = true ∧ tenProcsCollector.config.Num_procs = 10 ∧
    (TopProcsCollector.Read (some threeProcsListing) tenProcsCollector).panicked = true ∧
    (TopProcsCollector.Read (some threeProcsListing) tenProcsCollector).output.map
      (fun rec => (rec.name, rec.value)) =
      [("topproc1", "systemd"), ("topproc2", "cc-metric-collec"), ("topproc3", "ps"),
       ("topproc4", "")] ∧
    ∀ (m : TopProcsCollector) (stdout : String), m.init = true →
      1 ≤ m.config.Num_procs → m.config.Num_procs ≤ 10 →
      ((splitChar '\n' stdout.data).length : Int) ≤ m.config.Num_procs →
      (TopProcsCollector.Read (some stdout) m).panicked = true := by
  refine ⟨by decide, by decide, by decide, by decide, by decide, ?_⟩
  intro m stdout hi h1 h10 hlen
  unfold TopProcsCollector.Read
  simp only [hi, Bool.not_true, Bool.false_eq_true, if_false]
  rw [readTopProcs_panicked]
  have hw : wrapInt64 (m.config.Num_procs + 1) - 1 = m.config.Num_procs := by
    unfold wrapInt64
    omega
  rw [hw, List.length_map]
  constructor
  · omega
  · omega

/-! ## The loop of Start and the stop signal (C17) -/

/-- Counterexample to C17 as stated: stop is signaled while the first pass runs, a tick is
pending when the `select` is reached, and the runtime picks the ticker case. The loop
continues and the second call of `doReadMetric` begins after the stop signal; the loop
leaves at the next `select`. -/
theorem pass_begins_after_stop :
    selectCase true stopDuringPassTickTaken = .ticker ∧
    startLoop false [stopDuringPassTickTaken, quietCycle, quietCycle] = [false, true] := by
  decide

theorem startLoop_after_stop :
    ∀ (schedule : List CycleEnv) (doneClosed : Bool) (i : Nat),
      (startLoop doneClosed schedule)[i]? = some true →
      (i = 0 ∧ doneClosed = true) ∨
      (∃ e, schedule[i]? = some e ∧ e.stopBeforePass = true) ∨
      (∃ j e, i = j + 1 ∧ schedule[j]? = some e ∧ e.tickPending = true ∧
        e.chooseTicker = true)
  | [], _, i, h => by simp [startLoop] at h
  | e :: rest, d, 0, h => by
    simp only [startLoop, List.getElem?_cons_zero, Option.some.injEq, Bool.or_eq_true] at h
    rcases h with h | h
    · exact Or.inl ⟨rfl, h⟩
    · exact Or.inr (Or.inl ⟨e, List.getElem?_cons_zero, h⟩)
  | e :: rest, d, i + 1, h => by
    simp only [startLoop, List.getElem?_cons_succ] at h
    cases hs : selectCase (d || e.stopBeforePass || e.stopDuringPass) e with
    | done => simp [hs] at h
    | ticker =>
      simp only [hs] at h
      rcases startLoop_after_stop rest _ i h with ⟨h0, hc⟩ | ⟨e2, he2, hb⟩ | ⟨j, e2, hj, he2, ht⟩
      · right; right
        refine ⟨0, e, by rw [h0], List.getElem?_cons_zero, ?_⟩
        rw [hc] at hs
        unfold selectCase at hs
        cases htp : e.tickPending with
        | false => simp [htp] at hs
        | true =>
          cases hct : e.chooseTicker with
          | false => simp [htp, hct] at hs
          | true => exact ⟨rfl, rfl⟩
      · exact Or.inr (Or.inl ⟨e2, by simpa using he2, hb⟩)
      · right; right
        exact ⟨j + 1, e2, by rw [hj], by simpa using he2, ht⟩

/-- C17, as amended: the loop started by `Start` checks the stop signal in the `select`
after each pass, not before a pass. When the `select` is reached with stop signaled and
no tick pending, the loop returns and starts no further pass. A call of `doReadMetric`
begins after the stop signal only if the signal came between the previous `select` (or the
start of the loop) and the call, or if at the previous `select` a tick was pending and the
runtime picked the ticker case. -/
theorem loop_after_stop_signal (schedule : List CycleEnv) (i : Nat)
    (h : (startLoop false schedule)[i]? = some true) :
    ((∃ e, schedule[i]? = some e ∧ e.stopBeforePass = true) ∨
      (∃ j e, i = j + 1 ∧ schedule[j]? = some e ∧ e.tickPending = true ∧
        e.chooseTicker = true)) ∧
    (∀ (doneClosed : Bool) (e : CycleEnv) (rest : List CycleEnv),
      (doneClosed || e.stopBeforePass || e.stopDuringPass) = true → e.tickPending = false →
      startLoop doneClosed (e :: rest) = [doneClosed || e.stopBeforePass]) := by
  constructor
  · rcases startLoop_after_stop schedule false i h with ⟨_, hc⟩ | h2 | h2
    · cases hc
    · exact Or.inl h2
    · exact Or.inr h2
  · intro d e rest hc ht
    simp [startLoop, selectCase, hc, ht]

/-- Witness for C17 as amended: in the schedule of the counterexample the second call
begins after the stop signal, and the cycle before it had a pending tick that the runtime
picked. -/
theorem loop_after_stop_signal_witness :
    (startLoop false [stopDuringPassTickTaken, quietCycle, quietCycle])[1]? = some true ∧
    ((∃ e, [stopDuringPassTickTaken, quietCycle, quietCycle][1]? = some e ∧
        e.stopBeforePass = true) ∨
      (∃ j e, 1 = j + 1 ∧ [stopDuringPassTickTaken, quietCycle, quietCycle][j]? = some e ∧
        e.tickPending = true ∧ e.chooseTicker = true)) :=
  ⟨by decide,
    (loop_after_stop_signal [stopDuringPassTickTaken, quietCycle, quietCycle] 1
      (by decide)).1⟩

/-! ## Endpoints with another protocol (C22) -/

theorem splitSepAux_no_sep (sep : List Char) :
    ∀ (s cur : List Char), containsSub sep s = false →
      splitSepAux sep 0 s cur = [cur.reverse ++ s]
  | [], cur, _ => by simp [splitSepAux]
  | c :: cs, cur, h => by
    simp only [containsSub, Bool.or_eq_false_iff] at h
    rw [splitSepAux, if_neg (by simp [h.1]), splitSepAux_no_sep sep cs (c :: cur) h.2]
    simp

theorem splitSepAux_endpoint :
    ∀ (p h cur : List Char), containsSub "://".data p = false →
      containsSub "://".data h = false →
      splitSepAux "://".data 0 (p ++ "://".data ++ h) cur = [cur.reverse ++ p, h]
  | [], h, cur, _, hh => by
    show splitSepAux "://".data 0 (':' :: '/' :: '/' :: h) cur = _
    rw [splitSepAux, if_pos (by simp [List.isPrefixOf])]
    show cur.reverse :: splitSepAux "://".data 2 ('/' :: '/' :: h) [] = _
    rw [splitSepAux, splitSepAux, splitSepAux_no_sep _ h [] hh]
    simp
  | c :: p, h, cur, hp, hh => by
    simp only [containsSub, Bool.or_eq_false_iff] at hp
    have hno : ¬ ("://".data.isPrefixOf (c :: (p ++ "://".data ++ h)) = true) := by
      have h1 := hp.1
      match p, h1 with
      | [], _ => simp [List.isPrefixOf]
      | [d], _ => simp [List.isPrefixOf]
      | d :: e :: rest, h1 =>
        simp only [List.isPrefixOf, Bool.and_eq_false_imp, beq_iff_eq, Bool.and_true] at h1
        simp [List.isPrefixOf]
        intro a b
        simpa using h1 a b
    show splitSepAux "://".data 0 (c :: (p ++ "://".data ++ h)) cur = _
    rw [splitSepAux, if_neg hno, splitSepAux_endpoint p h (c :: cur) hp.2 hh]
    simp

/-- An endpoint of the form protocol, `://`, host pattern with no further `://` splits into
exactly these two parts. -/
theorem splitSep_endpoint (protocol host_pattern : String)
    (hp : containsSub "://".data protocol.data = false)
    (hh : containsSub "://".data host_pattern.data = false) :
    splitSep "://" (protocol ++ "://" ++ host_pattern) = [protocol, host_pattern] := by
  unfold splitSep
  rw [String.data_append, String.data_append,
    splitSepAux_endpoint protocol.data host_pattern.data [] hp hh]
  rfl

theorem newClientConfig_accepts (c : IPMIConfigJSON) (i : Nat) (cj : IPMIClientConfigJSON)
    (endpoint protocol host_pattern : String)
    (he : clientEndpoint c cj = some endpoint)
    (hs : splitSep "://" endpoint = [protocol, host_pattern])
    (hc : ClientComplete c cj) :
    ∃ cc, newClientConfig c i cj = .ok cc := by
  obtain ⟨hd, hu, hpw⟩ := hc
  obtain ⟨username, hu⟩ := Option.isSome_iff_exists.mp hu
  obtain ⟨password, hpw⟩ := Option.isSome_iff_exists.mp hpw
  have hd2 : ¬ (clientDriverType c cj ≠ "LAN" ∧ clientDriverType c cj ≠ "LAN_2_0") := by
    rintro ⟨h1, h2⟩
    rcases hd with hd | hd
    · exact h1 hd
    · exact h2 hd
  unfold newClientConfig
  rw [he]
  simp only
  rw [if_neg hd2, hs]
  simp only [hu, hpw]
  exact ⟨_, rfl⟩

theorem newClientConfigs_accepts (c : IPMIConfigJSON) :
    ∀ (cjs : List IPMIClientConfigJSON) (i : Nat),
      (∀ cj ∈ cjs, ∀ n, ∃ cc, newClientConfig c n cj = .ok cc) →
      ∃ ccs, newClientConfigs c i cjs = .ok ccs
  | [], _, _ => ⟨[], rfl⟩
  | cj :: rest, i, h => by
    obtain ⟨cc, hcc⟩ := h cj (List.mem_cons_self _ _) i
    obtain ⟨ccs, hccs⟩ := newClientConfigs_accepts c rest (i + 1)
      (fun x hx => h x (List.mem_cons_of_mem _ hx))
    refine ⟨cc :: ccs, ?_⟩
    rw [newClientConfigs, hcc]
    simp only [hccs]

theorem ipmi2HostMapping_ne_nil (host_pattern : String) (HostList : List String)
    (h : HostList ≠ []) : ipmi2HostMapping host_pattern HostList ≠ [] := by
  obtain ⟨host, rest, rfl⟩ := List.exists_cons_of_ne_nil h
  intro hnil
  have hk := (ipmi2HostMapping_keys host_pattern (host :: rest) (ipmiHost host_pattern host)).mpr
    ⟨host, List.mem_cons_self _ _, rfl⟩
  rw [hnil] at hk
  simp [mapKeys] at hk

theorem sum_numHosts_pos (c : IPMIConfigJSON)
    (cjs : List IPMIClientConfigJSON) (ccs : List IPMIReceiverClientConfig)
    (hrel : List.Forall₂ (fun cj cc => ∃ n, newClientConfig c n cj = .ok cc) cjs ccs) :
    0 ≤ (ccs.map (fun cc => cc.NumHosts)).sum ∧
    ((∃ cj ∈ cjs, cj.HostList ≠ []) → 0 < (ccs.map (fun cc => cc.NumHosts)).sum) := by
  induction hrel with
  | nil =>
    refine ⟨le_refl _, ?_⟩
    rintro ⟨cj, hcj, _⟩
    cases hcj
  | cons hxy htail ih =>
    rename_i cj cc cjs2 ccs2
    obtain ⟨n, hn⟩ := hxy
    obtain ⟨_, _, host_pattern, _, _, _, _, _, _, _, _, _, _, _, _, _, hnum, _⟩ :=
      newClientConfig_ok_fields c n _ _ hn
    rw [List.map_cons, List.sum_cons, hnum]
    have h0 : (0 : Int) ≤ ((ipmi2HostMapping host_pattern cj.HostList).length : Int) :=
      Int.ofNat_nonneg _
    refine ⟨by omega, ?_⟩
    rintro ⟨x, hx, hne⟩
    rcases List.mem_cons.mp hx with hx | hx
    · subst hx
      have h1 : 0 < (ipmi2HostMapping host_pattern x.HostList).length :=
        List.length_pos.mpr (ipmi2HostMapping_ne_nil host_pattern _ hne)
      omega
    · have h2 := ih.2 ⟨x, hx, hne⟩
      omega

theorem forall₂_imp_of_mem {α β : Type} (R S : α → β → Prop)
    (l1 : List α) (l2 : List β) (hall : List.Forall₂ R l1 l2) :
    (∀ a ∈ l1, ∀ b, R a b → S a b) → List.Forall₂ S l1 l2 := by
  induction hall with
  | nil => intro _; exact List.Forall₂.nil
  | cons hxy _ ih =>
    intro h
    exact List.Forall₂.cons (h _ (List.mem_cons_self _ _) _ hxy)
      (ih (fun a ha b hr => h a (List.mem_cons_of_mem _ ha) b hr))

theorem readClient_not_panicked {F : Type} (ops : SensorOps F) (rname : String)
    (env : IPMICommandEnv) (cc : IPMIReceiverClientConfig) :
    (readClient ops rname env cc).panicked = false := by
  unfold readClient
  split
  · split
    · rfl
    · simp only [(readSensorLines_total ops rname cc _).1]
      split
      · rename_i hc; cases hc
      · split <;> rfl
  · rfl

theorem readClient_commands {F : Type} (ops : SensorOps F) (rname : String)
    (env : IPMICommandEnv) (cc : IPMIReceiverClientConfig) :
    (readClient ops rname env cc).commands =
      if cc.Protocol = "ipmi-sensors" then ["ipmi-sensors" :: cmd_options cc] else [] := by
  unfold readClient
  split
  · split
    · rfl
    · simp only [(readSensorLines_total ops rname cc _).1]
      split
      · rename_i hc; cases hc
      · split <;> rfl
  · rfl

theorem readClients_parts {F : Type} (ops : SensorOps F) (rname : String)
    (env : Nat → IPMICommandEnv) :
    ∀ (ccs : List IPMIReceiverClientConfig) (i : Nat),
      (readClients ops rname env i ccs).sink =
        (ccs.enumFrom i).flatMap (fun x => (readClient ops rname (env x.1) x.2).sink) ∧
      (readClients ops rname env i ccs).commands =
        (ccs.enumFrom i).flatMap (fun x => (readClient ops rname (env x.1) x.2).commands)
  | [], _ => ⟨rfl, rfl⟩
  | cc :: rest, i => by
    have ih := readClients_parts ops rname env rest (i + 1)
    rw [readClients]
    simp only [readClient_not_panicked ops rname (env i) cc, Bool.false_eq_true, if_false,
      List.enumFrom_cons, List.flatMap_cons]
    exact ⟨by rw [ih.1], by rw [ih.2]⟩

/-- C22: `NewIPMIReceiver` accepts every configuration (with an interval that parses, a
host in some host list, and driver type, user name and password for every client config)
in which the endpoint of every client config has the form protocol, `://`, host pattern
with `://` occurring exactly once, whatever the protocol is, and stores the protocol in
the client config. A pass of `doReadMetric` never fails and is the sequence of what it
does for each client config in turn; for a client config whose protocol is not
`ipmi-sensors` it launches no command, sends no record and logs nothing, and for a client
config with the protocol `ipmi-sensors` it launches the command `ipmi-sensors`. -/
theorem other_protocol_accepted_and_ignored {F : Type} (ops : SensorOps F)
    (parseDuration : String → Option Int) (name : String) (c : IPMIConfigJSON)
    (interval : Int)
    (hdur : parseDuration c.IntervalString = some interval)
    (hform : ∀ cj ∈ c.ClientConfigs,
      (∃ protocol, EndpointForm c cj protocol) ∧ ClientComplete c cj)
    (hhost : ∃ cj ∈ c.ClientConfigs, cj.HostList ≠ []) :
    ∃ r, NewIPMIReceiver parseDuration name (.decoded c) = .ok r ∧
      List.Forall₂ (fun cj cc => EndpointForm c cj cc.Protocol)
        c.ClientConfigs r.ClientConfigs ∧
      (∀ (env : Nat → IPMICommandEnv),
        (r.doReadMetric ops env).panicked = false ∧
        (r.doReadMetric ops env).sink = (r.ClientConfigs.enumFrom 0).flatMap
          (fun x => (readClient ops r.name (env x.1) x.2).sink) ∧
        (r.doReadMetric ops env).commands = (r.ClientConfigs.enumFrom 0).flatMap
          (fun x => (readClient ops r.name (env x.1) x.2).commands)) ∧
      (∀ (cc : IPMIReceiverClientConfig) (env1 : IPMICommandEnv),
        cc.Protocol ≠ "ipmi-sensors" →
        (readClient ops r.name env1 cc).commands = [] ∧
        (readClient ops r.name env1 cc).sink = [] ∧
        (readClient ops r.name env1 cc).log = []) ∧
      (∀ (cc : IPMIReceiverClientConfig) (env1 : IPMICommandEnv),
        cc.Protocol = "ipmi-sensors" →
        (readClient ops r.name env1 cc).commands = ["ipmi-sensors" :: cmd_options cc]) := by
  have hacc : ∀ cj ∈ c.ClientConfigs, ∀ n, ∃ cc, newClientConfig c n cj = .ok cc := by
    intro cj hcj n
    obtain ⟨⟨protocol, host_pattern, he, hp, hh⟩, hc⟩ := hform cj hcj
    exact newClientConfig_accepts c n cj _ protocol host_pattern he
      (splitSep_endpoint protocol host_pattern hp hh) hc
  obtain ⟨ccs, hccs⟩ := newClientConfigs_accepts c c.ClientConfigs 0 hacc
  have hrel := newClientConfigs_ok c _ 0 ccs hccs
  have hsum : (ccs.map (fun cc => cc.NumHosts)).sum ≠ 0 := by
    have := (sum_numHosts_pos c _ _ hrel).2 hhost
    omega
  refine ⟨{ name := "IPMIReceiver(" ++ name ++ ")", Interval := interval,
            ClientConfigs := ccs, meta := [("source", "IPMIReceiver(" ++ name ++ ")")] },
    ?_, ?_, ?_, ?_, ?_⟩
  · unfold NewIPMIReceiver
    simp only [hdur, hccs, if_neg hsum]
  · refine forall₂_imp_of_mem _ _ _ _ hrel ?_
    rintro cj hcj cc ⟨n, hn⟩
    obtain ⟨⟨protocol, host_pattern, he, hp, hh⟩, _⟩ := hform cj hcj
    obtain ⟨endpoint, protocol2, host_pattern2, _, _, he2, hs2, _, _, _, hpr, _⟩ :=
      newClientConfig_ok_fields c n cj cc hn
    rw [he] at he2
    injection he2 with he2
    rw [← he2, splitSep_endpoint protocol host_pattern hp hh] at hs2
    injection hs2 with hs2 _
    rw [hpr, ← hs2]
    exact ⟨host_pattern, he, hp, hh⟩
  · intro env
    exact ⟨readClients_total ops _ env _ 0, (readClients_parts ops _ env _ 0).1,
      (readClients_parts ops _ env _ 0).2⟩
  · intro cc env1 hne
    unfold readClient
    simp only [if_neg hne, and_self]
  · intro cc env1 heq
    rw [readClient_commands, if_pos heq]

set_option maxRecDepth 100000 in
/-- Witness for C22: the configuration with the endpoints `ipmi-sensors://ipmi-%h` and
`redfish://bmc-%h` is accepted, the second client config with the protocol `redfish`. In a
pass in which every command would print a sensor line for ipmi-n1 and one for bmc-n2, the
only command launched is the one of the first client config and the only record sent is
the one for n1. -/
theorem other_protocol_accepted_and_ignored_witness :
    parseDefaultInterval mixedProtocolConfig.IntervalString = some 30000000000 ∧
    (∀ cj ∈ mixedProtocolConfig.ClientConfigs,
      (∃ protocol, EndpointForm mixedProtocolConfig cj protocol) ∧
        ClientComplete mixedProtocolConfig cj) ∧
    (∃ cj ∈ mixedProtocolConfig.ClientConfigs, cj.HostList ≠ []) ∧
    (∃ r, NewIPMIReceiver parseDefaultInterval "bmc" (.decoded mixedProtocolConfig) = .ok r ∧
      List.Forall₂ (fun cj cc => EndpointForm mixedProtocolConfig cj cc.Protocol)
        mixedProtocolConfig.ClientConfigs r.ClientConfigs) ∧
    NewIPMIReceiver parseDefaultInterval "bmc" (.decoded mixedProtocolConfig) =
      .ok mixedProtocolReceiver ∧
    mixedProtocolReceiver.ClientConfigs.map (fun cc => cc.Protocol) =
      ["ipmi-sensors", "redfish"] ∧
    (mixedProtocolReceiver.doReadMetric asciiSensorOps (fun _ => twoSensorLinesEnv)).commands =
      [["ipmi-sensors", "--always-prefix", "--sdr-cache-recreate", "--interpret-oem-data",
        "--ignore-not-available-sensors", "--ignore-unrecognized-events",
        "--comma-separated-output", "--no-header-output", "--non-abbreviated-units",
        "--fanout", "64", "--driver-type", "LAN_2_0", "--host", "ipmi-n1",
        "--user", "admin", "--password", "secret"]] ∧
    (mixedProtocolReceiver.doReadMetric asciiSensorOps (fun _ => twoSensorLinesEnv)).sink =
      [sensorRecord "IPMIReceiver(bmc)" "n1" "fan_1" "fan_speed" "RPM" 300000] := by
  have h2 : ∀ cj ∈ mixedProtocolConfig.ClientConfigs,
      (∃ protocol, EndpointForm mixedProtocolConfig cj protocol) ∧
        ClientComplete mixedProtocolConfig cj := by
    intro cj hcj
    simp only [mixedProtocolConfig, List.mem_cons, List.mem_singleton, List.not_mem_nil,
      or_false] at hcj
    rcases hcj with rfl | rfl
    · exact ⟨⟨"ipmi-sensors", "ipmi-%h", rfl, by decide, by decide⟩, Or.inr rfl, rfl, rfl⟩
    · exact ⟨⟨"redfish", "bmc-%h", rfl, by decide, by decide⟩, Or.inr rfl, rfl, rfl⟩
  have h3 : ∃ cj ∈ mixedProtocolConfig.ClientConfigs, cj.HostList ≠ [] :=
    ⟨{ Endpoint := some "ipmi-sensors://ipmi-%h", HostList := ["n1"] }, by decide, by decide⟩
  exact ⟨rfl, h2, h3,
    (other_protocol_accepted_and_ignored asciiSensorOps parseDefaultInterval "bmc"
      mixedProtocolConfig 30000000000 rfl h2 h3).imp (fun _ h => ⟨h.1, h.2.1⟩),
    by rfl, by decide, by decide, by decide⟩

/-! ## TopProcsCollector: the range of num_procs and the records of Read (C21) -/

theorem readTopProcs_enough (m : TopProcsCollector) (lines : List String) :
    ∀ (k i : Nat), i + k ≤ lines.length →
      readTopProcs m lines i k =
        { output := (List.range' i k).map (fun (j : Nat) =>
            { name := "topproc" ++ sprintInt j, tags := m.tags, meta := m.meta,
              value := (lines[j]?).getD "" }),
          panicked := false }
  | 0, _, _ => rfl
  | k + 1, i, h => by
    have hi : i < lines.length := by omega
    rw [readTopProcs, List.getElem?_eq_getElem hi]
    simp only
    rw [readTopProcs_enough m lines k (i + 1) (by omega)]
    simp [List.range'_succ, List.getElem?_eq_getElem hi]

/-- Counterexample to C21 as stated: a collector made ready by `Init` with `num_procs = 5`.
When the `ps` command of `Read` fails, `Read` returns without a record. When it prints a
header and three processes, `Read` sends four records, the fourth with an empty value, and
stops at `lines[5]`: there is no record `topproc5`. -/
theorem topprocs_read_without_all_records :
    (TopProcsCollector.Init true newTopProcsCollector
      (some { num_procs := some 5, err := false })).2 = none ∧
    fiveProcsCollector.init = true ∧ fiveProcsCollector.config.Num_procs = 5 ∧
    TopProcsCollector.Read none fiveProcsCollector = { output := [], panicked := false } ∧
    (TopProcsCollector.Read (some threeProcsListing) fiveProcsCollector).output.map
      (fun rec => (rec.name, rec.value)) =
      [("topproc1", "systemd"), ("topproc2", "cc-metric-collec"), ("topproc3", "ps"),
       ("topproc4", "")] ∧
    (TopProcsCollector.Read (some threeProcsListing) fiveProcsCollector).panicked = true := by
  decide

/-- C21, as amended: `Init` returns an error and leaves the ready flag as it was whenever
the effective `num_procs` is outside the range 1 to 10; the effective value is the one of
the configuration, and the one stored in the collector when a non-empty configuration omits
`num_procs`, which is 0 for a new collector. With the empty configuration `Init` uses
`num_procs = 2` and succeeds exactly when its `ps` command runs. After a successful `Init`
the collector is ready with `num_procs` from 1 to 10. For a ready collector with
`num_procs` from 1 to 10, `Read` sends no record when its `ps` command fails; when the
command succeeds and its output has more than `num_procs` parts between newlines, `Read`
sends, in order, exactly the records `topproc1` to `topproc<num_procs>` whose values are
the parts 1 to `num_procs` of the output (part 0, the header line, is skipped), and does
not fail. -/
theorem topprocs_Init_range_and_Read_records :
    (∀ (psOk : Bool) (m : TopProcsCollector) (j : TopProcsConfigJSON),
      j.num_procs.getD m.config.Num_procs < 1 ∨ 10 < j.num_procs.getD m.config.Num_procs →
      (TopProcsCollector.Init psOk m (some j)).2 ≠ none ∧
      (TopProcsCollector.Init psOk m (some j)).1.init = m.init) ∧
    (∀ (psOk : Bool) (j : TopProcsConfigJSON), j.num_procs = none →
      (TopProcsCollector.Init psOk newTopProcsCollector (some j)).2 ≠ none ∧
      (TopProcsCollector.Init psOk newTopProcsCollector (some j)).1.init = false) ∧
    (∀ (psOk : Bool) (m : TopProcsCollector),
      (TopProcsCollector.Init psOk m none).1.config.Num_procs = 2 ∧
      ((TopProcsCollector.Init psOk m none).2 = none ↔ psOk = true)) ∧
    (∀ (psOk : Bool) (m : TopProcsCollector) (config : Option TopProcsConfigJSON),
      (TopProcsCollector.Init psOk m config).2 = none →
      (TopProcsCollector.Init psOk m config).1.init = true ∧
      1 ≤ (TopProcsCollector.Init psOk m config).1.config.Num_procs ∧
      (TopProcsCollector.Init psOk m config).1.config.Num_procs ≤ 10) ∧
    (∀ (m : TopProcsCollector),
      TopProcsCollector.Read none m = { output := [], panicked := false }) ∧
    (∀ (m : TopProcsCollector) (stdout : String), m.init = true →
      1 ≤ m.config.Num_procs → m.config.Num_procs ≤ 10 →
      m.config.Num_procs < ((splitChar '\n' stdout.data).length : Int) →
      TopProcsCollector.Read (some stdout) m =
        { output := (List.range' 1 m.config.Num_procs.toNat).map (fun (i : Nat) =>
            { name := "topproc" ++ sprintInt i, tags := m.tags, meta := m.meta,
              value := (((splitChar '\n' stdout.data).map String.mk)[i]?).getD "" }),
          panicked := false }) := by
  refine ⟨?_, ?_, ?_, ?_, ?_, ?_⟩
  · intro psOk m j h
    unfold TopProcsCollector.Init
    by_cases he : j.err = true
    · simp [he]
    · have hr : j.num_procs.getD m.config.Num_procs ≤ 0 ∨
          j.num_procs.getD m.config.Num_procs > MAX_NUM_PROCS := by
        unfold MAX_NUM_PROCS
        omega
      simp [he, hr]
  · intro psOk j h
    unfold TopProcsCollector.Init
    by_cases he : j.err = true
    · simp [he, newTopProcsCollector]
    · simp [he, h, newTopProcsCollector]
  · intro psOk m
    unfold TopProcsCollector.Init
    cases psOk <;> simp [DEFAULT_NUM_PROCS, MAX_NUM_PROCS, TopProcsCollector.setup]
  · intro psOk m config h
    unfold TopProcsCollector.Init at h ⊢
    cases config with
    | none =>
      cases psOk <;>
        simp [DEFAULT_NUM_PROCS, MAX_NUM_PROCS, TopProcsCollector.setup] at h ⊢
    | some j =>
      by_cases he : j.err = true
      · simp [he] at h
      · by_cases hr : j.num_procs.getD m.config.Num_procs ≤ 0 ∨
            j.num_procs.getD m.config.Num_procs > MAX_NUM_PROCS
        · simp [he, hr] at h
        · cases psOk
          · simp [he, hr, TopProcsCollector.setup] at h
          · simp only [he, hr, TopProcsCollector.setup]
            unfold MAX_NUM_PROCS at hr
            simp
            omega
  · intro m
    unfold TopProcsCollector.Read
    split <;> rfl
  · intro m stdout hi h1 h10 hlen
    unfold TopProcsCollector.Read
    simp only [hi, Bool.not_true, Bool.false_eq_true, if_false]
    have hw : wrapInt64 (m.config.Num_procs + 1) - 1 = m.config.Num_procs := by
      unfold wrapInt64
      omega
    rw [hw]
    exact readTopProcs_enough m _ _ 1 (by rw [List.length_map]; omega)

/-- Witness for C21 as amended: the collector made ready by `Init` with the empty
configuration has `num_procs = 2`; from the listing of a header and three processes `Read`
sends `topproc1` with the value systemd and `topproc2` with the value cc-metric-collec. -/
theorem topprocs_Init_range_and_Read_records_witness :
    defaultProcsCollector.init = true ∧
    1 ≤ defaultProcsCollector.config.Num_procs ∧
    defaultProcsCollector.config.Num_procs ≤ 10 ∧
    defaultProcsCollector.config.Num_procs <
      ((splitChar '\n' threeProcsListing.data).length : Int) ∧
    TopProcsCollector.Read (some threeProcsListing) defaultProcsCollector =
      { output :=
          [{ name := "topproc1", tags := [("type", "node")],
             meta := [("source", "TopProcsCollector"), ("group", "TopProcs")],
             value := "systemd" },
           { name := "topproc2", tags := [("type", "node")],
             meta := [("source", "TopProcsCollector"), ("group", "TopProcs")],
             value := "cc-metric-collec" }],
        panicked := false } :=
  ⟨by decide, by decide, by decide, by decide,
    (topprocs_Init_range_and_Read_records.2.2.2.2.2 defaultProcsCollector threeProcsListing
      (by decide) (by decide) (by decide) (by decide)).trans (by decide)⟩

end CCMetric
